import Mathlib

/-!
# ScanRange (be/src/runtime/io/scan-range.cc)

A shallow embedding of the buffer protocol of `impala::io::ScanRange` and
`impala::io::BufferDescriptor`.

* Every method body that runs under `lock_` is one atomic state transformer.
  A method made of several critical sections (`DoRead`, `Cancel`) is the
  composition of its sections in program order; `DoReadInterleaved` is `DoRead`
  with the calls that other threads make while it has released `lock_`.
* `int64_t` byte counters are mathematical integers: the quantities are byte
  counts of memory buffers and file ranges, far below `2^63`. The `int` that
  `BytesRead()` returns is the reader's count reduced to 32 bits (`toInt32`).
* `DCHECK`s are not executed (release build); where a property needs one, it is
  a hypothesis of the theorem.
* Calls made to collaborators (buffer pool, file reader, request context) are
  recorded in `CallLog`; no branch of the code reads the log.
-/

namespace Impala.Io

/-- The type `impala::Status`: OK, or an error identified by a code. -/
inductive Status where
  | OK
  | error (code : Nat)
deriving DecidableEq

/-- Model of `Status::ok()`. -/
def Status.ok : Status → Bool
  | .OK => true
  | .error _ => false

/-- The enumeration `ScanRange::ExternalBufferTag`. -/
inductive ExternalBufferTag where
  | CLIENT_BUFFER
  | CACHED_BUFFER
  | NO_BUFFER
deriving DecidableEq

/-- The value of a count returned through the C++ type `int`: the signed 32-bit
integer congruent to `x` modulo `2^32`, which is `x` itself from `-2^31` to
`2^31 - 1`. -/
def toInt32 (x : Int) : Int :=
  (x + 2147483648) % 4294967296 - 2147483648

/-- The type `ReadOutcome`, the result of `ScanRange::DoRead`. -/
inductive ReadOutcome where
  | SUCCESS_NO_EOSR
  | SUCCESS_EOSR
  | BLOCKED_ON_BUFFER
  | CANCELLED
deriving DecidableEq

/-- The class `BufferDescriptor`. The member `buffer_` is the data pointer (`none`
is `nullptr`); `bp_client_` and `handle_` are the buffer-pool client and handle
of a pool-allocated descriptor (`none` for a descriptor built from a raw
region). -/
structure BufferDescriptor where
  buffer_ : Option Nat
  buffer_len_ : Int
  len_ : Int := 0
  eosr_ : Bool := false
  scan_range_offset_ : Int := 0
  bp_client_ : Option Nat := none
  handle_ : Option Nat := none
deriving DecidableEq

/-- Modelled from the spec: the file-access abstraction (`FileReader`) is an
external collaborator whose code is not part of scan-range.cc. The state kept
here is what scan-range.cc observes of it: `bytes_read()` ("bytesReadSoFar")
and whether the handle is open. -/
structure FileReader where
  bytes_read_ : Int := 0
  is_open : Bool := false
deriving DecidableEq

/-- The values written by one `FileReader::ReadFromPos` call: the returned
status, `*bytes_read` and `*eosr`. -/
structure ReadFromPosResult where
  status : Status
  bytes_read : Int
  eosr : Bool
deriving DecidableEq

namespace FileReader

/-- Modelled from the spec: `FileReader::Open` ("open(cachingHint)->status",
idempotent) is not under src/. The handle is open after a call that returns OK. -/
@[simp]
def Open (r : FileReader) (status : Status) : FileReader :=
  if status.ok then { r with is_open := true } else r

/-- Modelled from the spec: `FileReader::Close` ("close()") is not under src/;
scan-range.cc calls it "idempotent". What it does to the tag of a range that
reads through a cached buffer is in `ScanRange.closeFileReader`; the count
`bytes_read()` is left as it is (`InitInternal` resets it through `ResetState`). -/
@[simp]
def Close (r : FileReader) : FileReader :=
  { r with is_open := false }

/-- Modelled from the spec: `FileReader::ReadFromPos`
("readFromOffset(offset, dest, maxLen)->(bytesRead, endOfRangeFlag, status)") is
not under src/. The reader adds the count it returns to `bytes_read()`. -/
@[simp]
def ReadFromPos (r : FileReader) (result : ReadFromPosResult) : FileReader :=
  { r with bytes_read_ := r.bytes_read_ + result.bytes_read }

/-- Modelled from the spec: `FileReader::ResetState` is not under src/. A freshly
started range has read nothing (`ReadFromCache` asserts `BytesRead() == 0`). -/
@[simp]
def ResetState (r : FileReader) : FileReader :=
  { r with bytes_read_ := 0 }

/-- Modelled from the spec: `FileReader::CachedFile` ("cachedRegion()->optional
pointer") is not under src/. `cached` is its result: `none` for `nullptr`,
otherwise the region's address and the number of bytes it holds, which the
reader then reports as `bytes_read()`. -/
@[simp]
def CachedFile (r : FileReader) (cached : Option (Nat × Int)) : FileReader :=
  match cached with
  | none => r
  | some (_, cached_len) => { r with bytes_read_ := cached_len }

end FileReader

/-- What the file-access layer answers during one `DoRead`: the status of
`Open` and, for the request `(file_offset, bytes_to_read)`, the result of
`ReadFromPos`. -/
structure FileReaderAnswer where
  open_status : Status
  ReadFromPos : Int → Int → ReadFromPosResult

/-- The `client_buffer_` member: data pointer and length. -/
structure ClientBuffer where
  data : Nat := 0
  len : Int := 0
deriving DecidableEq

/-- Calls issued to collaborators, in program order. -/
structure CallLog where
  /-- One entry per `BufferDescriptor::Free()` call: the descriptor freed. -/
  freed : List BufferDescriptor := []
  /-- One entry per `BufferPool::FreeBuffer` call. -/
  pool_free_calls : List BufferDescriptor := []
  /-- Descriptors appended to `ready_buffers_` (line 67). -/
  enqueued : List BufferDescriptor := []
  /-- Descriptors handed out by `GetNext` (line 92). -/
  delivered : List BufferDescriptor := []
  /-- One entry `(file_offset, bytes_to_read)` per `ReadFromPos` call. -/
  read_requests : List (Int × Int) := []
  /-- Number of `FileReader::Open` calls. -/
  open_calls : Nat := 0
  /-- Number of `reader_->ScheduleScanRange(this)` calls. -/
  schedule_calls : Nat := 0
  /-- Number of `reader_->RemoveActiveScanRange(this)` calls. -/
  remove_active_calls : Nat := 0
deriving DecidableEq

/-- The argument `buffer_opts` of `Reset`: `client_buffer_` is `none` for
`nullptr`. -/
structure BufferOpts where
  try_cache_ : Bool := false
  mtime_ : Int := 0
  client_buffer_ : Option Nat := none
  client_buffer_len_ : Int := 0
deriving DecidableEq

/-- The members of `ScanRange` that scan-range.cc reads or writes. Pointers to
collaborators (`io_mgr_`, `reader_`, `fs_`, `meta_data_`) are `Option Nat`,
`none` being `nullptr`. -/
structure ScanRange where
  fs_ : Option Nat := none
  file_ : String := ""
  mtime_ : Int := 0
  meta_data_ : Option Nat := none
  len_ : Int := 0
  offset_ : Int := 0
  disk_id_ : Int := 0
  try_cache_ : Bool := false
  expected_local_ : Bool := false
  io_mgr_ : Option Nat := none
  reader_ : Option Nat := none
  external_buffer_tag_ : ExternalBufferTag := .NO_BUFFER
  client_buffer_ : ClientBuffer := {}
  ready_buffers_ : List BufferDescriptor := []
  unused_iomgr_buffers_ : List BufferDescriptor := []
  unused_iomgr_buffer_bytes_ : Int := 0
  iomgr_buffer_cumulative_bytes_used_ : Int := 0
  num_buffers_in_reader_ : Int := 0
  read_in_flight_ : Bool := false
  eosr_queued_ : Bool := false
  blocked_on_buffer_ : Bool := false
  cancel_status_ : Status := .OK
  file_reader_ : FileReader := {}
  log : CallLog := {}
deriving DecidableEq

namespace ScanRange

/-- Modelled from the spec: `all_buffers_returned` is declared in a header that
is not under src/. The consumer is done when the range is "cancelled or
end-of-range already queued" and nothing is left to hand out; `GetNext` asserts
`ready_buffers_.size() == 0` right after it holds. -/
def all_buffers_returned (s : ScanRange) : Bool :=
  !s.cancel_status_.ok || (s.eosr_queued_ && s.ready_buffers_.isEmpty)

/-- Modelled from the spec: `BufferDescriptor::is_cached` is declared in a header
that is not under src/. A descriptor is "externally-cached" when its range reads
through a cached buffer; the constructors of scan-range.cc store no provenance
in the descriptor, so it is read off the owning range's tag. -/
def is_cached (s : ScanRange) : Bool :=
  s.external_buffer_tag_ == .CACHED_BUFFER

/-- Modelled from the spec: `BufferDescriptor::is_client_buffer` is declared in a
header that is not under src/ ("caller-supplied" provenance), read off the
owning range's tag like `is_cached`. -/
def is_client_buffer (s : ScanRange) : Bool :=
  s.external_buffer_tag_ == .CLIENT_BUFFER

/-- The call `file_reader_->Close()`. Modelled from the spec: `FileReader::Close`
is not under src/. It closes the handle and releases the cached region that the
reader holds for a range tagged CACHED_BUFFER, after which the range is no longer
tagged so: line 320 keeps a cached range open "until the cached buffer is
returned", `CleanUpBuffer` closes it then (lines 257-262), and the destructor
asserts that no range is left tagged CACHED_BUFFER (line 380). -/
def closeFileReader (s : ScanRange) : ScanRange :=
  { s with
    file_reader_ := s.file_reader_.Close
    external_buffer_tag_ :=
      if s.external_buffer_tag_ = .CACHED_BUFFER then .NO_BUFFER else s.external_buffer_tag_ }

/-- Model of `ScanRange::BytesRead` (lines 166-169): the count kept by the file
reader, returned as a 32-bit `int`. -/
def BytesRead (s : ScanRange) : Int :=
  toInt32 s.file_reader_.bytes_read_

/-- Model of `BufferDescriptor::Free` (lines 530-538), for a descriptor owned by
range `s`. Returns the descriptor after the call and the range with the call
logged. -/
def Free (b : BufferDescriptor) (s : ScanRange) : BufferDescriptor × ScanRange :=
  let s1 := { s with log := { s.log with freed := s.log.freed ++ [b] } }
  let s2 :=
    if !s1.is_cached && !s1.is_client_buffer then
      { s1 with log := { s1.log with pool_free_calls := s1.log.pool_free_calls ++ [b] } }
    else s1
  ({ b with buffer_ := none }, s2)

/-- Model of `ScanRange::CleanUpBuffer` (lines 249-263). -/
def CleanUpBuffer (buffer_desc : BufferDescriptor) (s : ScanRange) : ScanRange :=
  let s1 := (Free buffer_desc s).2
  if s1.all_buffers_returned && s1.num_buffers_in_reader_ == 0 then
    s1.closeFileReader
  else s1

/-- Model of `ScanRange::CleanUpBuffers` (lines 265-268). -/
def CleanUpBuffers : List BufferDescriptor → ScanRange → ScanRange
  | [], s => s
  | b :: rest, s => CleanUpBuffers rest (CleanUpBuffer b s)

/-- Model of `ScanRange::GetUnusedBuffer` (lines 156-164): pops the back of
`unused_iomgr_buffers_`; `none` is the `nullptr` result. -/
def GetUnusedBuffer (s : ScanRange) : Option BufferDescriptor × ScanRange :=
  match s.unused_iomgr_buffers_.getLast? with
  | none => (none, s)
  | some result =>
    (some result,
      { s with
        unused_iomgr_buffers_ := s.unused_iomgr_buffers_.dropLast
        unused_iomgr_buffer_bytes_ := s.unused_iomgr_buffer_bytes_ - result.buffer_len_ })

/-- The `while` loop of `CleanUpUnusedBuffers`, with the number of iterations
bounded by `fuel`. -/
def cleanUpUnusedLoop : Nat → ScanRange → ScanRange
  | 0, s => s
  | fuel + 1, s =>
    match GetUnusedBuffer s with
    | (none, s1) => s1
    | (some b, s1) => cleanUpUnusedLoop fuel (CleanUpBuffer b s1)

/-- Model of `ScanRange::CleanUpUnusedBuffers` (lines 270-274). Each iteration
removes one buffer, so the queue length is enough fuel: the loop ends with the
queue empty (`CleanUpUnusedBuffers_eq`). -/
def CleanUpUnusedBuffers (s : ScanRange) : ScanRange :=
  cleanUpUnusedLoop s.unused_iomgr_buffers_.length s

/-- Model of `ScanRange::EnqueueReadyBuffer` (lines 43-71). -/
def EnqueueReadyBuffer (buffer : BufferDescriptor) (s : ScanRange) : Bool × ScanRange :=
  let s1 := if !s.is_cached then { s with read_in_flight_ := false } else s
  if !s1.cancel_status_.ok then
    (false, CleanUpBuffer buffer s1)
  else
    let s2 := if buffer.eosr_ then CleanUpUnusedBuffers s1 else s1
    (true,
      { s2 with
        eosr_queued_ := buffer.eosr_
        ready_buffers_ := s2.ready_buffers_ ++ [buffer]
        log := { s2.log with enqueued := s2.log.enqueued ++ [buffer] } })

/-- Model of `ScanRange::GetNext` (lines 73-102). `none`: the call is waiting on
`buffer_ready_cv_` and has changed nothing. `some (status, buffer, s1)`: the
call returned `status`, left `*buffer` as `buffer`, and the range is `s1`. -/
def GetNext (s : ScanRange) : Option (Status × Option BufferDescriptor × ScanRange) :=
  if !s.all_buffers_returned && s.ready_buffers_.isEmpty then none
  else if s.all_buffers_returned then
    if s.read_in_flight_ then none
    else some (s.cancel_status_, none, s)
  else
    match s.ready_buffers_ with
    | [] => none
    | front :: rest =>
      let s1 := { s with ready_buffers_ := rest }
      let s2 :=
        if front.eosr_ then
          { s1 with log := { s1.log with remove_active_calls := s1.log.remove_active_calls + 1 } }
        else s1
      some (.OK, some front,
        { s2 with
          num_buffers_in_reader_ := s2.num_buffers_in_reader_ + 1
          log := { s2.log with delivered := s2.log.delivered ++ [front] } })

/-- The condition of lines 129-132 under which `AddUnusedBuffers` does not keep
a buffer. -/
def shouldFreeUnused (s : ScanRange) : Bool :=
  s.external_buffer_tag_ != .NO_BUFFER
    || !s.cancel_status_.ok
    || s.eosr_queued_
    || decide (s.unused_iomgr_buffer_bytes_ ≥ s.len_ - s.iomgr_buffer_cumulative_bytes_used_)

/-- One iteration of the `for` loop of `AddUnusedBuffers` (lines 123-142); the
Boolean is the local `unblocked`. -/
def addUnusedBuffer (buffer : BufferDescriptor) (st : ScanRange × Bool) : ScanRange × Bool :=
  let s := st.1
  if s.shouldFreeUnused then
    (CleanUpBuffer buffer s, st.2)
  else
    let s1 :=
      { s with
        unused_iomgr_buffer_bytes_ := s.unused_iomgr_buffer_bytes_ + buffer.buffer_len_
        unused_iomgr_buffers_ := s.unused_iomgr_buffers_ ++ [buffer] }
    if s1.blocked_on_buffer_ then
      ({ s1 with blocked_on_buffer_ := false }, true)
    else (s1, st.2)

/-- The `for` loop of `AddUnusedBuffers`. -/
def addUnusedLoop : List BufferDescriptor → ScanRange × Bool → ScanRange × Bool
  | [], st => st
  | b :: rest, st => addUnusedLoop rest (addUnusedBuffer b st)

/-- The part of `AddUnusedBuffers` under `lock_` (lines 116-143): the range when
the lock is dropped and the local `unblocked`. -/
def addUnusedLocked (buffers : List BufferDescriptor) (returned : Bool) (s : ScanRange) :
    ScanRange × Bool :=
  let s1 :=
    if returned then
      { s with num_buffers_in_reader_ := s.num_buffers_in_reader_ - buffers.length }
    else s
  addUnusedLoop buffers (s1, false)

/-- Model of `ScanRange::AddUnusedBuffers` (lines 110-154). `reader_cancelled` is what the
test `reader_->state_ == RequestContext::Cancelled` of line 148 finds. -/
def AddUnusedBuffers (buffers : List BufferDescriptor) (returned : Bool)
    (reader_cancelled : Bool) (s : ScanRange) : ScanRange :=
  let st := addUnusedLocked buffers returned s
  if st.2 then
    if reader_cancelled then st.1
    else { st.1 with log := { st.1.log with schedule_calls := st.1.log.schedule_calls + 1 } }
  else st.1

/-- Model of `ScanRange::ReturnBuffer` (lines 104-108). -/
def ReturnBuffer (buffer_desc : BufferDescriptor) (reader_cancelled : Bool) (s : ScanRange) :
    ScanRange :=
  AddUnusedBuffers [buffer_desc] true reader_cancelled s

/-- The loop of lines 304-307 of `CancelInternal`: `CleanUpBuffer` runs while the
buffer is still the front of `ready_buffers_`, then the front is popped. The
first argument is `ready_buffers_`. -/
def cleanUpReadyLoop : List BufferDescriptor → ScanRange → ScanRange
  | [], s => s
  | front :: rest, s =>
    cleanUpReadyLoop rest { CleanUpBuffer front s with ready_buffers_ := rest }

/-- Model of `ScanRange::CancelInternal` (lines 286-321). -/
def CancelInternal (status : Status) (read_error : Bool) (s : ScanRange) : ScanRange :=
  let s1 := if s.cancel_status_.ok then { s with cancel_status_ := status } else s
  let s2 := cleanUpReadyLoop s1.ready_buffers_ s1
  let s3 := CleanUpUnusedBuffers s2
  let s4 := if read_error then { s3 with read_in_flight_ := false } else s3
  if s4.external_buffer_tag_ != .CACHED_BUFFER then s4.closeFileReader else s4

/-- Model of `ScanRange::Cancel` (lines 276-284). `WaitForInFlightRead` returns at once
when no read is in flight; otherwise the caller stays parked in it and
`RemoveActiveScanRange` has not been reached. -/
def Cancel (status : Status) (s : ScanRange) : ScanRange :=
  if s.io_mgr_.isNone then s
  else
    let s1 := CancelInternal status false s
    if s1.read_in_flight_ then s1
    else { s1 with log := { s1.log with remove_active_calls := s1.log.remove_active_calls + 1 } }

/-- Model of `ScanRange::SetBlockedOnBuffer` (lines 244-247). -/
def SetBlockedOnBuffer (s : ScanRange) : ScanRange :=
  { s with blocked_on_buffer_ := true }

/-- The critical section of `DoRead` (lines 176-197): `inl outcome` is the early
return with that outcome, `inr buffer_desc` the descriptor to read into. -/
def doReadAcquire (s : ScanRange) : (ReadOutcome ⊕ BufferDescriptor) × ScanRange :=
  if !s.cancel_status_.ok then (.inl .CANCELLED, s)
  else if s.external_buffer_tag_ == .CLIENT_BUFFER then
    (.inr { buffer_ := some s.client_buffer_.data, buffer_len_ := s.client_buffer_.len },
      { s with read_in_flight_ := true })
  else
    match GetUnusedBuffer s with
    | (none, s1) => (.inl .BLOCKED_ON_BUFFER, { s1 with blocked_on_buffer_ := true })
    | (some buffer_desc, s1) =>
      (.inr buffer_desc,
        { s1 with
          iomgr_buffer_cumulative_bytes_used_ :=
            s1.iomgr_buffer_cumulative_bytes_used_ + buffer_desc.buffer_len_
          read_in_flight_ := true })

/-- Lines 201-213 of `DoRead`: `Open`, then `ReadFromPos` into `buffer_desc`.
Returns `read_status`, the descriptor and the range. -/
def doReadTransfer (fr : FileReaderAnswer) (buffer_desc : BufferDescriptor) (s : ScanRange) :
    Status × BufferDescriptor × ScanRange :=
  let s1 :=
    { s with
      file_reader_ := s.file_reader_.Open fr.open_status
      log := { s.log with open_calls := s.log.open_calls + 1 } }
  if fr.open_status.ok then
    let file_offset := s1.offset_ + s1.BytesRead
    let bytes_to_read := min (s1.len_ - s1.BytesRead) buffer_desc.buffer_len_
    let r := fr.ReadFromPos file_offset bytes_to_read
    let s2 :=
      { s1 with
        file_reader_ := s1.file_reader_.ReadFromPos r
        log := { s1.log with read_requests := s1.log.read_requests ++ [(file_offset, bytes_to_read)] } }
    (r.status,
      { buffer_desc with
        len_ := r.bytes_read
        eosr_ := r.eosr
        scan_range_offset_ := s2.BytesRead - r.bytes_read },
      s2)
  else (fr.open_status, buffer_desc, s1)

/-- Model of `ScanRange::DoRead` (lines 171-242). The argument `disk_id` only feeds a
counter of the request context and is left out. -/
def DoRead (fr : FileReaderAnswer) (s : ScanRange) : ReadOutcome × ScanRange :=
  match doReadAcquire s with
  | (.inl outcome, s1) => (outcome, s1)
  | (.inr buffer_desc, s1) =>
    match doReadTransfer fr buffer_desc s1 with
    | (read_status, buffer_desc, s2) =>
      if !read_status.ok then
        let s3 := (Free buffer_desc s2).2
        let s4 := CancelInternal read_status true s3
        (.CANCELLED, s4.closeFileReader)
      else
        let eosr := buffer_desc.eosr_
        match EnqueueReadyBuffer buffer_desc s2 with
        | (false, s3) => (.CANCELLED, s3)
        | (true, s3) =>
          if eosr then (.SUCCESS_EOSR, s3.closeFileReader)
          else (.SUCCESS_NO_EOSR, s3)

/-- The sum computed by the loop of lines 351-353 of `Validate`. -/
def unusedBufferBytes : List BufferDescriptor → Int
  | [] => 0
  | b :: rest => b.buffer_len_ + unusedBufferBytes rest

/-- Model of `ScanRange::Validate` (lines 341-373). -/
def Validate (s : ScanRange) : Bool :=
  if s.BytesRead > s.len_ then false
  else if !s.cancel_status_.ok && !s.ready_buffers_.isEmpty then false
  else if unusedBufferBytes s.unused_iomgr_buffers_ != s.unused_iomgr_buffer_bytes_ then false
  else
    let is_finished := !s.cancel_status_.ok || s.eosr_queued_
    if is_finished && !s.unused_iomgr_buffers_.isEmpty then false
    else if !is_finished && s.blocked_on_buffer_ && !s.unused_iomgr_buffers_.isEmpty then false
    else true

/-- The `DCHECK`s at the head of `Reset` (lines 389-395), evaluated on the range
as it is when `Reset` is called; `file` is `none` for `nullptr`. -/
def resetChecks (file : Option String) (len offset : Int) (buffer_opts : BufferOpts)
    (s : ScanRange) : Bool :=
  s.ready_buffers_.isEmpty
    && !s.read_in_flight_
    && file.isSome
    && decide (len ≥ 0)
    && decide (offset ≥ 0)
    && (buffer_opts.client_buffer_.isNone || decide (buffer_opts.client_buffer_len_ ≥ s.len_))

/-- Model of `ScanRange::Reset` (lines 387-419). The new file reader has read
nothing and is not open. -/
def Reset (fs : Option Nat) (file : Option String) (len offset disk_id : Int)
    (expected_local : Bool) (buffer_opts : BufferOpts) (meta_data : Option Nat)
    (s : ScanRange) : ScanRange :=
  let s1 :=
    { s with
      fs_ := fs
      file_reader_ := {}
      file_ := file.getD ""
      len_ := len
      offset_ := offset
      disk_id_ := disk_id
      try_cache_ := buffer_opts.try_cache_
      mtime_ := buffer_opts.mtime_
      meta_data_ := meta_data }
  let s2 :=
    match buffer_opts.client_buffer_ with
    | some data =>
      { s1 with
        external_buffer_tag_ := .CLIENT_BUFFER
        client_buffer_ := { data := data, len := buffer_opts.client_buffer_len_ } }
    | none => { s1 with external_buffer_tag_ := .NO_BUFFER }
  { s2 with expected_local_ := expected_local, io_mgr_ := none, reader_ := none }

/-- Model of `ScanRange::InitInternal` (lines 421-432). -/
def InitInternal (io_mgr reader : Nat) (s : ScanRange) : ScanRange :=
  { s with
    io_mgr_ := some io_mgr
    reader_ := some reader
    unused_iomgr_buffer_bytes_ := 0
    iomgr_buffer_cumulative_bytes_used_ := 0
    cancel_status_ := .OK
    eosr_queued_ := false
    blocked_on_buffer_ := false
    file_reader_ := s.file_reader_.ResetState }

/-- Model of `ScanRange::ReadFromCache` (lines 453-506). `open_status` is the result of
`Open(false)` and `cached` the result of `CachedFile()` (`none` for `nullptr`,
otherwise the region's address and size). Returns the status, `*read_succeeded`
and the range. -/
def ReadFromCache (open_status : Status) (cached : Option (Nat × Int)) (s : ScanRange) :
    Status × Bool × ScanRange :=
  let s1 :=
    { s with
      file_reader_ := s.file_reader_.Open open_status
      log := { s.log with open_calls := s.log.open_calls + 1 } }
  if !open_status.ok then (open_status, false, s1)
  else if s1.fs_.isNone then (.OK, false, s1)
  else if !s1.cancel_status_.ok then (s1.cancel_status_, false, s1)
  else
    let buffer : Option Nat := cached.map Prod.fst
    let s2 := { s1 with file_reader_ := s1.file_reader_.CachedFile cached }
    let s3 := if buffer.isSome then { s2 with external_buffer_tag_ := .CACHED_BUFFER } else s2
    if s3.external_buffer_tag_ != .CACHED_BUFFER then (.OK, false, s3.closeFileReader)
    else
      let bytes_read := s3.BytesRead
      if bytes_read < s3.len_ then (.OK, false, s3.closeFileReader)
      else
        let desc : BufferDescriptor :=
          { buffer_ := buffer, buffer_len_ := 0, len_ := bytes_read,
            scan_range_offset_ := 0, eosr_ := true }
        (.OK, true, (EnqueueReadyBuffer desc s3).2)

end ScanRange

/-- One call on a started range. -/
inductive Op where
  | EnqueueReadyBuffer (buffer : BufferDescriptor)
  | GetNext
  | ReturnBuffer (buffer_desc : BufferDescriptor) (reader_cancelled : Bool)
  | AddUnusedBuffers (buffers : List BufferDescriptor) (returned : Bool) (reader_cancelled : Bool)
  | GetUnusedBuffer
  | DoRead (fr : FileReaderAnswer)
  | SetBlockedOnBuffer
  | CleanUpBuffers (buffers : List BufferDescriptor)
  | CleanUpUnusedBuffers
  | Cancel (status : Status)
  | CancelInternal (status : Status) (read_error : Bool)
  | ReadFromCache (open_status : Status) (cached : Option (Nat × Int))

/-- The range after one call. A `GetNext` that is still waiting has changed
nothing. -/
def Op.apply : Op → ScanRange → ScanRange
  | .EnqueueReadyBuffer buffer, s => (s.EnqueueReadyBuffer buffer).2
  | .GetNext, s =>
    match s.GetNext with
    | none => s
    | some r => r.2.2
  | .ReturnBuffer buffer_desc reader_cancelled, s => s.ReturnBuffer buffer_desc reader_cancelled
  | .AddUnusedBuffers buffers returned reader_cancelled, s =>
    s.AddUnusedBuffers buffers returned reader_cancelled
  | .GetUnusedBuffer, s => s.GetUnusedBuffer.2
  | .DoRead fr, s => (s.DoRead fr).2
  | .SetBlockedOnBuffer, s => s.SetBlockedOnBuffer
  | .CleanUpBuffers buffers, s => s.CleanUpBuffers buffers
  | .CleanUpUnusedBuffers, s => s.CleanUpUnusedBuffers
  | .Cancel status, s => s.Cancel status
  | .CancelInternal status read_error, s => s.CancelInternal status read_error
  | .ReadFromCache open_status cached, s => (s.ReadFromCache open_status cached).2.2

/-- The range after a sequence of calls, first call first. -/
def run : List Op → ScanRange → ScanRange
  | [], s => s
  | op :: ops, s => run ops (op.apply s)

/-- Line 201 of `DoRead`: the `Open` call, made without `lock_`. -/
def ScanRange.doReadOpen (fr : FileReaderAnswer) (s : ScanRange) : ScanRange :=
  { s with
    file_reader_ := s.file_reader_.Open fr.open_status
    log := { s.log with open_calls := s.log.open_calls + 1 } }

/-- Lines 202-212 of `DoRead`: the `ReadFromPos` call into `buffer_desc`, made
without `lock_` after `Open` returned OK. Returns `read_status`, the descriptor
and the range. -/
def ScanRange.doReadFromPos (fr : FileReaderAnswer) (buffer_desc : BufferDescriptor)
    (s : ScanRange) : Status × BufferDescriptor × ScanRange :=
  let file_offset := s.offset_ + s.BytesRead
  let bytes_to_read := min (s.len_ - s.BytesRead) buffer_desc.buffer_len_
  let r := fr.ReadFromPos file_offset bytes_to_read
  let s2 :=
    { s with
      file_reader_ := s.file_reader_.ReadFromPos r
      log := { s.log with read_requests := s.log.read_requests ++ [(file_offset, bytes_to_read)] } }
  (r.status,
    { buffer_desc with
      len_ := r.bytes_read
      eosr_ := r.eosr
      scan_range_offset_ := s2.BytesRead - r.bytes_read },
    s2)

/-- Lines 214-241 of `DoRead`: what follows the transfer, given `read_status` and
the descriptor as the transfer left it. A failed transfer frees the buffer and
cancels the range; otherwise the buffer is enqueued under `lock_`. -/
def ScanRange.doReadFinish (read_status : Status) (buffer_desc : BufferDescriptor)
    (s : ScanRange) : ReadOutcome × ScanRange :=
  if !read_status.ok then
    let s3 := (ScanRange.Free buffer_desc s).2
    let s4 := ScanRange.CancelInternal read_status true s3
    (.CANCELLED, s4.closeFileReader)
  else
    let eosr := buffer_desc.eosr_
    match ScanRange.EnqueueReadyBuffer buffer_desc s with
    | (false, s3) => (.CANCELLED, s3)
    | (true, s3) =>
      if eosr then (.SUCCESS_EOSR, s3.closeFileReader)
      else (.SUCCESS_NO_EOSR, s3)

/-- The part of `DoRead` that runs without `lock_` (lines 199-213), next to other
threads: their calls `ops1` take effect before `Open`, `ops2` between `Open` and
`ReadFromPos`, `ops3` after the transfer and before `DoRead` goes on. Returns
`read_status`, the descriptor and the range on which `DoRead` goes on. -/
def ScanRange.doReadTransferInterleaved (fr : FileReaderAnswer) (ops1 ops2 ops3 : List Op)
    (buffer_desc : BufferDescriptor) (s : ScanRange) : Status × BufferDescriptor × ScanRange :=
  let t1 := (run ops1 s).doReadOpen fr
  if fr.open_status.ok then
    match (run ops2 t1).doReadFromPos fr buffer_desc with
    | (read_status, buffer_desc, t2) => (read_status, buffer_desc, run ops3 t2)
  else (fr.open_status, buffer_desc, run ops3 (run ops2 t1))

/-- Model of `ScanRange::DoRead` (lines 171-242) with the calls that other
threads make on the range while `DoRead` has released `lock_` (between line 197
and the critical sections of `CancelInternal` or `EnqueueReadyBuffer` that end
the read). With no such call it is `DoRead` (`DoReadInterleaved_nil`). -/
def ScanRange.DoReadInterleaved (fr : FileReaderAnswer) (ops1 ops2 ops3 : List Op)
    (s : ScanRange) : ReadOutcome × ScanRange :=
  match s.doReadAcquire with
  | (.inl outcome, s1) => (outcome, s1)
  | (.inr buffer_desc, s1) =>
    match s1.doReadTransferInterleaved fr ops1 ops2 ops3 buffer_desc with
    | (read_status, buffer_desc, t) => t.doReadFinish read_status buffer_desc

/-- Whether call `op`, made on range `s`, reaches a call of
`EnqueueReadyBuffer`: always for a direct call, for `DoRead` when it got a
buffer and the transfer succeeded (line 235), for `ReadFromCache` when it
reports `*read_succeeded` (lines 502-504). -/
def Op.callsEnqueue (op : Op) (s : ScanRange) : Bool :=
  match op with
  | .EnqueueReadyBuffer _ => true
  | .DoRead fr =>
    match s.doReadAcquire with
    | (.inl _, _) => false
    | (.inr buffer_desc, s1) => (ScanRange.doReadTransfer fr buffer_desc s1).1.ok
  | .ReadFromCache open_status cached => (s.ReadFromCache open_status cached).2.1
  | _ => false

/-- Every `EnqueueReadyBuffer` call made while running `ops` from `s` meets the
precondition `DCHECK(!eosr_queued_)` of line 48. -/
def respectsEnqueuePrecondition : List Op → ScanRange → Prop
  | [], _ => True
  | op :: ops, s =>
    (op.callsEnqueue s = true → s.eosr_queued_ = false) ∧
      respectsEnqueuePrecondition ops (op.apply s)

/-- A file reader that opens, fills every request completely, and reports
end-of-range exactly when the bytes read reach the range length `len` (the range
starts at file offset `offset`). -/
def fullReader (len offset : Int) : FileReaderAnswer where
  open_status := .OK
  ReadFromPos := fun file_offset bytes_to_read =>
    { status := .OK
      bytes_read := bytes_to_read
      eosr := decide (file_offset - offset + bytes_to_read = len) }

/-- A pool buffer of `buffer_len` bytes at address `addr`, allocated for buffer
pool client 0. -/
def poolBuffer (addr : Nat) (buffer_len : Int) : BufferDescriptor :=
  { buffer_ := some addr, buffer_len_ := buffer_len, bp_client_ := some 0, handle_ := some addr }

/-- The range of the chunking scenario: length 300,000, started by
`InitInternal`, with three pool buffers of 128,000 bytes added through
`AddUnusedBuffers`. -/
def chunkingRange : ScanRange :=
  ScanRange.AddUnusedBuffers
    [poolBuffer 1 128000, poolBuffer 2 128000, poolBuffer 3 128000] false false
    (ScanRange.InitInternal 1 1 { len_ := 300000 })

/-- The chunking scenario after `n` calls of `DoRead`. -/
def chunkingAfterReads : Nat → ScanRange
  | 0 => chunkingRange
  | n + 1 => ((chunkingAfterReads n).DoRead (fullReader 300000 0)).2

/-- The chunking scenario after three `DoRead` calls and then `n` calls of
`GetNext`. -/
def chunkingAfterGets : Nat → ScanRange
  | 0 => chunkingAfterReads 3
  | n + 1 => Op.apply .GetNext (chunkingAfterGets n)

/-- A file reader that opens and then fails every read with error 5. -/
def failingReader : FileReaderAnswer where
  open_status := .OK
  ReadFromPos := fun _ _ => { status := .error 5, bytes_read := 0, eosr := false }

/-- A sample run of the chunking scenario from a fresh range: the three buffers
are added, then reads and retrievals alternate, and the range is cancelled at
the end. -/
def sampleReadCalls : List Op :=
  [.AddUnusedBuffers [poolBuffer 1 128000, poolBuffer 2 128000, poolBuffer 3 128000] false false,
    .DoRead (fullReader 300000 0), .GetNext, .DoRead (fullReader 300000 0),
    .ReturnBuffer (poolBuffer 3 128000) false, .DoRead (fullReader 300000 0), .GetNext,
    .Cancel (.error 9)]

/-- A started range of length 100 on a remote filesystem that may be read through
the cache. -/
def cacheRange : ScanRange :=
  ScanRange.InitInternal 1 1 { len_ := 100, fs_ := some 1, try_cache_ := true }

/-- The range `cacheRange` after a cache lookup that found a region at address 7
holding all of its 100 bytes. -/
def afterCacheHit : ScanRange :=
  (cacheRange.ReadFromCache .OK (some (7, 100))).2.2

/-- The descriptor that the cache lookup of `afterCacheHit` enqueues. -/
def cachedDescriptor : BufferDescriptor :=
  { buffer_ := some 7, buffer_len_ := 0, len_ := 100, scan_range_offset_ := 0, eosr_ := true }

/-- The calls of the unused-buffer cap: `AddUnusedBuffers` and `ReturnBuffer` with
buffers of length at most `M`, `DoRead` and `Cancel`. -/
def Op.isCapCall (M : Int) : Op → Prop
  | .AddUnusedBuffers buffers _ _ => ∀ b ∈ buffers, b.buffer_len_ ≤ M
  | .ReturnBuffer buffer_desc _ => buffer_desc.buffer_len_ ≤ M
  | .DoRead _ => True
  | .Cancel _ => True
  | _ => False

/-- Every `SetBlockedOnBuffer` call made while running `ops` from `s` finds the
range without unused buffers. -/
def blocksOnlyWithoutBuffers : List Op → ScanRange → Prop
  | [], _ => True
  | op :: ops, s =>
    (match op with
      | .SetBlockedOnBuffer => s.unused_iomgr_buffers_ = []
      | _ => True) ∧
      blocksOnlyWithoutBuffers ops (op.apply s)

/-- A sample run that mixes every kind of call: buffers are added, a read is
served, the range is flagged blocked while it holds no buffer, a buffer comes
back, and the range is cancelled. -/
def sampleMixedCalls : List Op :=
  [.AddUnusedBuffers [poolBuffer 1 128000] false false, .DoRead (fullReader 300000 0),
    .GetNext, .DoRead (fullReader 300000 0), .SetBlockedOnBuffer,
    .ReturnBuffer (poolBuffer 1 128000) false, .GetUnusedBuffer,
    .EnqueueReadyBuffer (poolBuffer 1 128000), .CleanUpUnusedBuffers,
    .AddUnusedBuffers [poolBuffer 2 128000, poolBuffer 3 128000] false false,
    .CancelInternal (.error 4) false, .ReadFromCache .OK none, .Cancel (.error 5)]

/-- The members of a range that its bookkeeping invariants speak of. -/
structure QueueView where
  cancel_status_ : Status
  eosr_queued_ : Bool
  blocked_on_buffer_ : Bool
  unused_iomgr_buffers_ : List BufferDescriptor
  unused_iomgr_buffer_bytes_ : Int
  iomgr_buffer_cumulative_bytes_used_ : Int
  len_ : Int

/-- The bookkeeping members of range `s`. -/
def ScanRange.queueView (s : ScanRange) : QueueView :=
  { cancel_status_ := s.cancel_status_
    eosr_queued_ := s.eosr_queued_
    blocked_on_buffer_ := s.blocked_on_buffer_
    unused_iomgr_buffers_ := s.unused_iomgr_buffers_
    unused_iomgr_buffer_bytes_ := s.unused_iomgr_buffer_bytes_
    iomgr_buffer_cumulative_bytes_used_ := s.iomgr_buffer_cumulative_bytes_used_
    len_ := s.len_ }

/-- The changes that the code makes to the bookkeeping members, each named after
the place that makes it. `Q` is what is known of the buffers handed to
`AddUnusedBuffers`. `QueueStep Q v w`: a call can take the members from `v` to
`w` (`queueStep_apply` proves it of every call but a bare `GetUnusedBuffer` or
`SetBlockedOnBuffer`).
* `drain`: `CleanUpUnusedBuffers` (lines 270-274);
* `cancel`: `CancelInternal` (lines 299-310), status written and queue drained;
* `flag`: `eosr_queued_ = buffer->eosr()` (line 66), after line 65 has drained the
  queue when the flag is set;
* `keep`: the `else` branch of `AddUnusedBuffers` (lines 135-140);
* `take`: `DoRead` popping a buffer and counting it as used (lines 188-194);
* `block`: `DoRead` finding no buffer (lines 189-192). -/
inductive QueueStep (Q : BufferDescriptor → Prop) : QueueView → QueueView → Prop where
  | same (v : QueueView) : QueueStep Q v v
  | drain (v : QueueView) :
    QueueStep Q v
      { v with
        unused_iomgr_buffers_ := []
        unused_iomgr_buffer_bytes_ :=
          v.unused_iomgr_buffer_bytes_ - ScanRange.unusedBufferBytes v.unused_iomgr_buffers_ }
  | cancel (v : QueueView) (status : Status) :
    QueueStep Q v
      { v with
        cancel_status_ := status
        unused_iomgr_buffers_ := []
        unused_iomgr_buffer_bytes_ :=
          v.unused_iomgr_buffer_bytes_ - ScanRange.unusedBufferBytes v.unused_iomgr_buffers_ }
  | flag (v : QueueView) (eosr : Bool) :
    v.cancel_status_.ok = true → (eosr = true → v.unused_iomgr_buffers_ = []) →
    QueueStep Q v { v with eosr_queued_ := eosr }
  | keep (v : QueueView) (b : BufferDescriptor) :
    Q b → v.cancel_status_.ok = true → v.eosr_queued_ = false →
    v.unused_iomgr_buffer_bytes_ < v.len_ - v.iomgr_buffer_cumulative_bytes_used_ →
    QueueStep Q v
      { v with
        unused_iomgr_buffer_bytes_ := v.unused_iomgr_buffer_bytes_ + b.buffer_len_
        unused_iomgr_buffers_ := v.unused_iomgr_buffers_ ++ [b]
        blocked_on_buffer_ := false }
  | take (v : QueueView) (l : List BufferDescriptor) (b : BufferDescriptor) :
    v.cancel_status_.ok = true → v.unused_iomgr_buffers_ = l ++ [b] →
    QueueStep Q v
      { v with
        unused_iomgr_buffers_ := l
        unused_iomgr_buffer_bytes_ := v.unused_iomgr_buffer_bytes_ - b.buffer_len_
        iomgr_buffer_cumulative_bytes_used_ :=
          v.iomgr_buffer_cumulative_bytes_used_ + b.buffer_len_ }
  | block (v : QueueView) :
    v.unused_iomgr_buffers_ = [] → QueueStep Q v { v with blocked_on_buffer_ := true }
  | trans (u v w : QueueView) : QueueStep Q u v → QueueStep Q v w → QueueStep Q u w

/-- The calls covered by `QueueStep Q`: every call but a bare `GetUnusedBuffer` or
`SetBlockedOnBuffer`, with `Q` holding of every buffer handed to
`AddUnusedBuffers` or `ReturnBuffer`. -/
def Op.isQueueStepCall (Q : BufferDescriptor → Prop) : Op → Prop
  | .AddUnusedBuffers buffers _ _ => ∀ b ∈ buffers, Q b
  | .ReturnBuffer buffer_desc _ => Q buffer_desc
  | .GetUnusedBuffer => False
  | .SetBlockedOnBuffer => False
  | _ => True

/-- A sample run of the calls of the unused-buffer cap: three buffers of 128,000
bytes are added, one is used by a read and comes back. -/
def sampleCapCalls : List Op :=
  [.AddUnusedBuffers [poolBuffer 1 128000, poolBuffer 2 128000, poolBuffer 3 128000] false false,
    .DoRead (fullReader 300000 0), .ReturnBuffer (poolBuffer 3 128000) false]

/-- A sample run that ends blocked and cancelled: the only buffer is used up, the
next read finds none, the range is flagged blocked and then cancelled. -/
def sampleBlockedCalls : List Op :=
  [.AddUnusedBuffers [poolBuffer 1 128000] false false, .DoRead (fullReader 300000 0), .GetNext,
    .DoRead (fullReader 300000 0), .SetBlockedOnBuffer, .Cancel (.error 6)]

/-- A range object that `Reset` has configured for 10 bytes of a file, without a
client buffer. -/
def tenByteRange : ScanRange :=
  ScanRange.Reset none (some "f") 10 0 0 false {} none {}

/-- Options that supply a client buffer of 10 bytes at address 5. -/
def tenByteClientBuffer : BufferOpts :=
  { client_buffer_ := some 5, client_buffer_len_ := 10 }

/-- The range object `tenByteRange` after it is configured again, for 100 bytes
with the client buffer of 10 bytes. -/
def undersizedClientRange : ScanRange :=
  ScanRange.Reset none (some "f") 100 0 0 false tenByteClientBuffer none tenByteRange

/-! ## Theorems -/

namespace ScanRange

theorem unusedBufferBytes_concat (l : List BufferDescriptor) (b : BufferDescriptor) :
    unusedBufferBytes (l ++ [b]) = unusedBufferBytes l + b.buffer_len_ := by
  induction l with
  | nil => simp [unusedBufferBytes]
  | cons a l ih => simp [unusedBufferBytes, ih, add_assoc]

/-- The call `Free` logs the call and, for a descriptor of a range that uses
neither a cached nor a client buffer, one `FreeBuffer` call. -/
theorem Free_eq (b : BufferDescriptor) (s : ScanRange) :
    (Free b s).2 =
      { s with
        log := { s.log with
          freed := s.log.freed ++ [b]
          pool_free_calls :=
            if s.external_buffer_tag_ = .NO_BUFFER then s.log.pool_free_calls ++ [b]
            else s.log.pool_free_calls } } := by
  unfold Free is_cached is_client_buffer
  cases ht : s.external_buffer_tag_ <;> simp

/-- The call `CleanUpBuffer` logs one `Free` and may close the file reader; every other
member of the range is left as it was. The tag changes only when the reader of a
range tagged CACHED_BUFFER is closed; on any other range the buffer goes back to
the pool unless the range reads into a client buffer. -/
theorem CleanUpBuffer_eq (b : BufferDescriptor) (s : ScanRange) :
    ∃ pf o tg,
      (s.external_buffer_tag_ ≠ .CACHED_BUFFER → tg = s.external_buffer_tag_ ∧
        pf = if s.external_buffer_tag_ = .NO_BUFFER then s.log.pool_free_calls ++ [b]
          else s.log.pool_free_calls) ∧
      CleanUpBuffer b s =
      { s with
        external_buffer_tag_ := tg
        log := { s.log with freed := s.log.freed ++ [b], pool_free_calls := pf }
        file_reader_ := { s.file_reader_ with is_open := o } } := by
  unfold CleanUpBuffer
  dsimp only
  by_cases hc : ((Free b s).2.all_buffers_returned && (Free b s).2.num_buffers_in_reader_ == 0)
      = true
  · rw [if_pos hc, Free_eq]
    refine ⟨_, false, _, ?_, rfl⟩
    intro ht
    simp [ht]
  · rw [if_neg hc, Free_eq]
    exact ⟨_, s.file_reader_.is_open, s.external_buffer_tag_, fun _ => ⟨rfl, rfl⟩, rfl⟩

theorem GetUnusedBuffer_nil (s : ScanRange) (h : s.unused_iomgr_buffers_ = []) :
    GetUnusedBuffer s = (none, s) := by
  simp [GetUnusedBuffer, h]

theorem GetUnusedBuffer_concat (s : ScanRange) (l : List BufferDescriptor) (b : BufferDescriptor)
    (h : s.unused_iomgr_buffers_ = l ++ [b]) :
    GetUnusedBuffer s = (some b,
      { s with
        unused_iomgr_buffers_ := l
        unused_iomgr_buffer_bytes_ := s.unused_iomgr_buffer_bytes_ - b.buffer_len_ }) := by
  simp [GetUnusedBuffer, h]

theorem cleanUpUnusedLoop_eq (fuel : Nat) :
    ∀ s : ScanRange, s.unused_iomgr_buffers_.length ≤ fuel →
    ∃ pf o tg,
      (s.external_buffer_tag_ ≠ .CACHED_BUFFER → tg = s.external_buffer_tag_ ∧
        pf = if s.external_buffer_tag_ = .NO_BUFFER
          then s.log.pool_free_calls ++ s.unused_iomgr_buffers_.reverse
          else s.log.pool_free_calls) ∧
      cleanUpUnusedLoop fuel s =
      { s with
        external_buffer_tag_ := tg
        unused_iomgr_buffers_ := []
        unused_iomgr_buffer_bytes_ :=
          s.unused_iomgr_buffer_bytes_ - unusedBufferBytes s.unused_iomgr_buffers_
        log := { s.log with
          freed := s.log.freed ++ s.unused_iomgr_buffers_.reverse, pool_free_calls := pf }
        file_reader_ := { s.file_reader_ with is_open := o } } := by
  induction fuel with
  | zero =>
    intro s h
    have h0 : s.unused_iomgr_buffers_ = [] := List.length_eq_zero.mp (Nat.le_zero.mp h)
    refine ⟨s.log.pool_free_calls, s.file_reader_.is_open, s.external_buffer_tag_, ?_, ?_⟩
    · intro _; simp [h0]
    · cases s
      simp_all [cleanUpUnusedLoop, unusedBufferBytes]
  | succ n ih =>
    intro s h
    rcases List.eq_nil_or_concat s.unused_iomgr_buffers_ with h0 | ⟨l, b, hl⟩
    · refine ⟨s.log.pool_free_calls, s.file_reader_.is_open, s.external_buffer_tag_, ?_, ?_⟩
      · intro _; simp [h0]
      · rw [cleanUpUnusedLoop, GetUnusedBuffer_nil s h0]
        cases s
        simp_all [unusedBufferBytes]
    · rw [List.concat_eq_append] at hl
      have hlen : l.length ≤ n := by
        have := h; rw [hl] at this; simp at this; omega
      rw [cleanUpUnusedLoop, GetUnusedBuffer_concat s l b hl]
      dsimp only
      obtain ⟨pf1, o1, tg1, c1, h1⟩ := CleanUpBuffer_eq b
        { s with
          unused_iomgr_buffers_ := l
          unused_iomgr_buffer_bytes_ := s.unused_iomgr_buffer_bytes_ - b.buffer_len_ }
      rw [h1]
      obtain ⟨pf2, o2, tg2, c2, h2⟩ := ih
        { s with
          external_buffer_tag_ := tg1
          unused_iomgr_buffers_ := l
          unused_iomgr_buffer_bytes_ := s.unused_iomgr_buffer_bytes_ - b.buffer_len_
          log := { s.log with freed := s.log.freed ++ [b], pool_free_calls := pf1 }
          file_reader_ := { s.file_reader_ with is_open := o1 } } hlen
      refine ⟨pf2, o2, tg2, ?_, ?_⟩
      · intro ht
        obtain ⟨e1, e1p⟩ := c1 ht
        dsimp only at e1 e1p c2
        obtain ⟨e2, e2p⟩ := c2 (by rw [e1]; exact ht)
        rw [e1] at e2 e2p
        refine ⟨e2, ?_⟩
        rw [e2p, e1p, hl]
        by_cases hn : s.external_buffer_tag_ = .NO_BUFFER <;> simp [hn]
      · rw [h2, hl]
        simp [unusedBufferBytes_concat, sub_sub, add_comm]

theorem CleanUpUnusedBuffers_eq (s : ScanRange) :
    ∃ pf o tg,
      (s.external_buffer_tag_ ≠ .CACHED_BUFFER → tg = s.external_buffer_tag_ ∧
        pf = if s.external_buffer_tag_ = .NO_BUFFER
          then s.log.pool_free_calls ++ s.unused_iomgr_buffers_.reverse
          else s.log.pool_free_calls) ∧
      CleanUpUnusedBuffers s =
      { s with
        external_buffer_tag_ := tg
        unused_iomgr_buffers_ := []
        unused_iomgr_buffer_bytes_ :=
          s.unused_iomgr_buffer_bytes_ - unusedBufferBytes s.unused_iomgr_buffers_
        log := { s.log with
          freed := s.log.freed ++ s.unused_iomgr_buffers_.reverse, pool_free_calls := pf }
        file_reader_ := { s.file_reader_ with is_open := o } } :=
  cleanUpUnusedLoop_eq _ s (le_refl _)

theorem cleanUpReadyLoop_eq (l : List BufferDescriptor) :
    ∀ s : ScanRange, s.ready_buffers_ = l →
    ∃ pf o tg,
      (s.external_buffer_tag_ ≠ .CACHED_BUFFER → tg = s.external_buffer_tag_ ∧
        pf = if s.external_buffer_tag_ = .NO_BUFFER then s.log.pool_free_calls ++ l
          else s.log.pool_free_calls) ∧
      cleanUpReadyLoop l s =
      { s with
        external_buffer_tag_ := tg
        ready_buffers_ := []
        log := { s.log with freed := s.log.freed ++ l, pool_free_calls := pf }
        file_reader_ := { s.file_reader_ with is_open := o } } := by
  induction l with
  | nil =>
    intro s h
    refine ⟨s.log.pool_free_calls, s.file_reader_.is_open, s.external_buffer_tag_, ?_, ?_⟩
    · intro _; simp
    · cases s
      simp_all [cleanUpReadyLoop]
  | cons b rest ih =>
    intro s _
    obtain ⟨pf1, o1, tg1, c1, h1⟩ := CleanUpBuffer_eq b s
    rw [cleanUpReadyLoop, h1]
    obtain ⟨pf2, o2, tg2, c2, h2⟩ := ih
      { s with
        external_buffer_tag_ := tg1
        ready_buffers_ := rest
        log := { s.log with freed := s.log.freed ++ [b], pool_free_calls := pf1 }
        file_reader_ := { s.file_reader_ with is_open := o1 } } rfl
    refine ⟨pf2, o2, tg2, ?_, ?_⟩
    · intro ht
      obtain ⟨e1, e1p⟩ := c1 ht
      dsimp only at c2
      obtain ⟨e2, e2p⟩ := c2 (by rw [e1]; exact ht)
      rw [e1] at e2 e2p
      refine ⟨e2, ?_⟩
      rw [e2p, e1p]
      by_cases hn : s.external_buffer_tag_ = .NO_BUFFER <;> simp [hn]
    · rw [h2]
      simp

theorem CleanUpBuffers_eq (l : List BufferDescriptor) :
    ∀ s : ScanRange, ∃ pf o tg,
      (s.external_buffer_tag_ ≠ .CACHED_BUFFER → tg = s.external_buffer_tag_ ∧
        pf = if s.external_buffer_tag_ = .NO_BUFFER then s.log.pool_free_calls ++ l
          else s.log.pool_free_calls) ∧
      CleanUpBuffers l s =
      { s with
        external_buffer_tag_ := tg
        log := { s.log with freed := s.log.freed ++ l, pool_free_calls := pf }
        file_reader_ := { s.file_reader_ with is_open := o } } := by
  induction l with
  | nil =>
    intro s
    exact ⟨s.log.pool_free_calls, s.file_reader_.is_open, s.external_buffer_tag_,
      fun _ => by simp, by simp [CleanUpBuffers]⟩
  | cons b rest ih =>
    intro s
    obtain ⟨pf1, o1, tg1, c1, h1⟩ := CleanUpBuffer_eq b s
    rw [CleanUpBuffers, h1]
    obtain ⟨pf2, o2, tg2, c2, h2⟩ := ih
      { s with
        external_buffer_tag_ := tg1
        log := { s.log with freed := s.log.freed ++ [b], pool_free_calls := pf1 }
        file_reader_ := { s.file_reader_ with is_open := o1 } }
    refine ⟨pf2, o2, tg2, ?_, ?_⟩
    · intro ht
      obtain ⟨e1, e1p⟩ := c1 ht
      dsimp only at c2
      obtain ⟨e2, e2p⟩ := c2 (by rw [e1]; exact ht)
      rw [e1] at e2 e2p
      refine ⟨e2, ?_⟩
      rw [e2p, e1p]
      by_cases hn : s.external_buffer_tag_ = .NO_BUFFER <;> simp [hn]
    · rw [h2]
      simp

/-- The call `CancelInternal` in closed form. -/
theorem CancelInternal_eq (status : Status) (read_error : Bool) (s : ScanRange) :
    ∃ pf o tg,
      (s.external_buffer_tag_ ≠ .CACHED_BUFFER → tg = s.external_buffer_tag_ ∧ o = false ∧
        pf = if s.external_buffer_tag_ = .NO_BUFFER
          then s.log.pool_free_calls ++ s.ready_buffers_ ++ s.unused_iomgr_buffers_.reverse
          else s.log.pool_free_calls) ∧
      (tg ≠ .CACHED_BUFFER → o = false) ∧
      CancelInternal status read_error s =
      { s with
        external_buffer_tag_ := tg
        cancel_status_ := if s.cancel_status_.ok then status else s.cancel_status_
        ready_buffers_ := []
        unused_iomgr_buffers_ := []
        unused_iomgr_buffer_bytes_ :=
          s.unused_iomgr_buffer_bytes_ - unusedBufferBytes s.unused_iomgr_buffers_
        read_in_flight_ := s.read_in_flight_ && !read_error
        log := { s.log with
          freed := s.log.freed ++ s.ready_buffers_ ++ s.unused_iomgr_buffers_.reverse
          pool_free_calls := pf }
        file_reader_ := { s.file_reader_ with is_open := o } } := by
  have hs1 : (if s.cancel_status_.ok then { s with cancel_status_ := status } else s)
      = { s with cancel_status_ := if s.cancel_status_.ok then status else s.cancel_status_ } := by
    split <;> rfl
  unfold CancelInternal
  simp only [hs1]
  obtain ⟨pf1, o1, tg1, c1, h1⟩ := cleanUpReadyLoop_eq s.ready_buffers_
    { s with cancel_status_ := if s.cancel_status_.ok then status else s.cancel_status_ } rfl
  rw [h1]
  obtain ⟨pf2, o2, tg2, c2, h2⟩ := CleanUpUnusedBuffers_eq
    { s with
      external_buffer_tag_ := tg1
      cancel_status_ := if s.cancel_status_.ok then status else s.cancel_status_
      ready_buffers_ := []
      log := { s.log with freed := s.log.freed ++ s.ready_buffers_, pool_free_calls := pf1 }
      file_reader_ := { s.file_reader_ with is_open := o1 } }
  rw [h2]
  dsimp only at c1 c2
  by_cases ht2 : tg2 = .CACHED_BUFFER
  · refine ⟨pf2, o2, tg2, ?_, fun h => absurd ht2 h, ?_⟩
    · intro ht
      obtain ⟨e1, -⟩ := c1 ht
      obtain ⟨e2, -⟩ := c2 (by rw [e1]; exact ht)
      rw [e1] at e2
      exact absurd (e2 ▸ ht2) ht
    · cases read_error <;> simp [closeFileReader, ht2]
  · refine ⟨pf2, false, tg2, ?_, fun _ => rfl, ?_⟩
    · intro ht
      obtain ⟨e1, e1p⟩ := c1 ht
      obtain ⟨e2, e2p⟩ := c2 (by rw [e1]; exact ht)
      rw [e1] at e2 e2p
      refine ⟨e2, rfl, ?_⟩
      rw [e2p, e1p]
      by_cases hn : s.external_buffer_tag_ = .NO_BUFFER <;> simp [hn]
    · cases read_error <;> simp [closeFileReader, ht2]

@[simp]
theorem CleanUpBuffer_frame (b : BufferDescriptor) (s : ScanRange) :
    (CleanUpBuffer b s).len_ = s.len_ ∧
    (CleanUpBuffer b s).offset_ = s.offset_ ∧
    (CleanUpBuffer b s).client_buffer_ = s.client_buffer_ ∧
    (CleanUpBuffer b s).reader_ = s.reader_ ∧
    (CleanUpBuffer b s).io_mgr_ = s.io_mgr_ ∧
    (CleanUpBuffer b s).ready_buffers_ = s.ready_buffers_ ∧
    (CleanUpBuffer b s).unused_iomgr_buffers_ = s.unused_iomgr_buffers_ ∧
    (CleanUpBuffer b s).unused_iomgr_buffer_bytes_ = s.unused_iomgr_buffer_bytes_ ∧
    (CleanUpBuffer b s).iomgr_buffer_cumulative_bytes_used_ = s.iomgr_buffer_cumulative_bytes_used_ ∧
    (CleanUpBuffer b s).num_buffers_in_reader_ = s.num_buffers_in_reader_ ∧
    (CleanUpBuffer b s).read_in_flight_ = s.read_in_flight_ ∧
    (CleanUpBuffer b s).eosr_queued_ = s.eosr_queued_ ∧
    (CleanUpBuffer b s).blocked_on_buffer_ = s.blocked_on_buffer_ ∧
    (CleanUpBuffer b s).cancel_status_ = s.cancel_status_ ∧
    (CleanUpBuffer b s).fs_ = s.fs_ ∧
    (CleanUpBuffer b s).file_reader_.bytes_read_ = s.file_reader_.bytes_read_ ∧
    (CleanUpBuffer b s).log.enqueued = s.log.enqueued ∧
    (CleanUpBuffer b s).log.delivered = s.log.delivered ∧
    (CleanUpBuffer b s).log.read_requests = s.log.read_requests ∧
    (CleanUpBuffer b s).log.schedule_calls = s.log.schedule_calls ∧
    (CleanUpBuffer b s).log.freed = s.log.freed ++ [b] := by
  obtain ⟨pf, o, tg, -, h⟩ := CleanUpBuffer_eq b s
  rw [h]
  simp

@[simp]
theorem CleanUpBuffers_frame (l : List BufferDescriptor) (s : ScanRange) :
    (CleanUpBuffers l s).len_ = s.len_ ∧
    (CleanUpBuffers l s).offset_ = s.offset_ ∧
    (CleanUpBuffers l s).client_buffer_ = s.client_buffer_ ∧
    (CleanUpBuffers l s).reader_ = s.reader_ ∧
    (CleanUpBuffers l s).io_mgr_ = s.io_mgr_ ∧
    (CleanUpBuffers l s).ready_buffers_ = s.ready_buffers_ ∧
    (CleanUpBuffers l s).unused_iomgr_buffers_ = s.unused_iomgr_buffers_ ∧
    (CleanUpBuffers l s).unused_iomgr_buffer_bytes_ = s.unused_iomgr_buffer_bytes_ ∧
    (CleanUpBuffers l s).iomgr_buffer_cumulative_bytes_used_ = s.iomgr_buffer_cumulative_bytes_used_ ∧
    (CleanUpBuffers l s).num_buffers_in_reader_ = s.num_buffers_in_reader_ ∧
    (CleanUpBuffers l s).read_in_flight_ = s.read_in_flight_ ∧
    (CleanUpBuffers l s).eosr_queued_ = s.eosr_queued_ ∧
    (CleanUpBuffers l s).blocked_on_buffer_ = s.blocked_on_buffer_ ∧
    (CleanUpBuffers l s).cancel_status_ = s.cancel_status_ ∧
    (CleanUpBuffers l s).fs_ = s.fs_ ∧
    (CleanUpBuffers l s).file_reader_.bytes_read_ = s.file_reader_.bytes_read_ ∧
    (CleanUpBuffers l s).log.enqueued = s.log.enqueued ∧
    (CleanUpBuffers l s).log.delivered = s.log.delivered ∧
    (CleanUpBuffers l s).log.read_requests = s.log.read_requests ∧
    (CleanUpBuffers l s).log.schedule_calls = s.log.schedule_calls ∧
    (CleanUpBuffers l s).log.freed = s.log.freed ++ l := by
  obtain ⟨pf, o, tg, -, h⟩ := CleanUpBuffers_eq l s
  rw [h]
  simp

@[simp]
theorem CleanUpUnusedBuffers_frame (s : ScanRange) :
    (CleanUpUnusedBuffers s).len_ = s.len_ ∧
    (CleanUpUnusedBuffers s).offset_ = s.offset_ ∧
    (CleanUpUnusedBuffers s).client_buffer_ = s.client_buffer_ ∧
    (CleanUpUnusedBuffers s).reader_ = s.reader_ ∧
    (CleanUpUnusedBuffers s).io_mgr_ = s.io_mgr_ ∧
    (CleanUpUnusedBuffers s).ready_buffers_ = s.ready_buffers_ ∧
    (CleanUpUnusedBuffers s).iomgr_buffer_cumulative_bytes_used_ = s.iomgr_buffer_cumulative_bytes_used_ ∧
    (CleanUpUnusedBuffers s).num_buffers_in_reader_ = s.num_buffers_in_reader_ ∧
    (CleanUpUnusedBuffers s).read_in_flight_ = s.read_in_flight_ ∧
    (CleanUpUnusedBuffers s).eosr_queued_ = s.eosr_queued_ ∧
    (CleanUpUnusedBuffers s).blocked_on_buffer_ = s.blocked_on_buffer_ ∧
    (CleanUpUnusedBuffers s).cancel_status_ = s.cancel_status_ ∧
    (CleanUpUnusedBuffers s).fs_ = s.fs_ ∧
    (CleanUpUnusedBuffers s).file_reader_.bytes_read_ = s.file_reader_.bytes_read_ ∧
    (CleanUpUnusedBuffers s).log.enqueued = s.log.enqueued ∧
    (CleanUpUnusedBuffers s).log.delivered = s.log.delivered ∧
    (CleanUpUnusedBuffers s).log.read_requests = s.log.read_requests ∧
    (CleanUpUnusedBuffers s).log.schedule_calls = s.log.schedule_calls ∧
    (CleanUpUnusedBuffers s).unused_iomgr_buffers_ = [] ∧
    (CleanUpUnusedBuffers s).unused_iomgr_buffer_bytes_ = s.unused_iomgr_buffer_bytes_ - unusedBufferBytes s.unused_iomgr_buffers_ ∧
    (CleanUpUnusedBuffers s).log.freed = s.log.freed ++ s.unused_iomgr_buffers_.reverse := by
  obtain ⟨pf, o, tg, -, h⟩ := CleanUpUnusedBuffers_eq s
  rw [h]
  simp

@[simp]
theorem CancelInternal_frame (status : Status) (read_error : Bool) (s : ScanRange) :
    (CancelInternal status read_error s).len_ = s.len_ ∧
    (CancelInternal status read_error s).offset_ = s.offset_ ∧
    (CancelInternal status read_error s).client_buffer_ = s.client_buffer_ ∧
    (CancelInternal status read_error s).reader_ = s.reader_ ∧
    (CancelInternal status read_error s).io_mgr_ = s.io_mgr_ ∧
    (CancelInternal status read_error s).iomgr_buffer_cumulative_bytes_used_ = s.iomgr_buffer_cumulative_bytes_used_ ∧
    (CancelInternal status read_error s).num_buffers_in_reader_ = s.num_buffers_in_reader_ ∧
    (CancelInternal status read_error s).eosr_queued_ = s.eosr_queued_ ∧
    (CancelInternal status read_error s).blocked_on_buffer_ = s.blocked_on_buffer_ ∧
    (CancelInternal status read_error s).fs_ = s.fs_ ∧
    (CancelInternal status read_error s).file_reader_.bytes_read_ = s.file_reader_.bytes_read_ ∧
    (CancelInternal status read_error s).log.enqueued = s.log.enqueued ∧
    (CancelInternal status read_error s).log.delivered = s.log.delivered ∧
    (CancelInternal status read_error s).log.read_requests = s.log.read_requests ∧
    (CancelInternal status read_error s).log.schedule_calls = s.log.schedule_calls ∧
    (CancelInternal status read_error s).cancel_status_ = (if s.cancel_status_.ok then status else s.cancel_status_) ∧
    (CancelInternal status read_error s).ready_buffers_ = [] ∧
    (CancelInternal status read_error s).read_in_flight_ = (s.read_in_flight_ && !read_error) ∧
    (CancelInternal status read_error s).unused_iomgr_buffers_ = [] ∧
    (CancelInternal status read_error s).unused_iomgr_buffer_bytes_ = s.unused_iomgr_buffer_bytes_ - unusedBufferBytes s.unused_iomgr_buffers_ ∧
    (CancelInternal status read_error s).log.freed = s.log.freed ++ s.ready_buffers_ ++ s.unused_iomgr_buffers_.reverse := by
  obtain ⟨pf, o, tg, -, -, h⟩ := CancelInternal_eq status read_error s
  rw [h]
  simp

example (b : BufferDescriptor) (s : ScanRange) (h : s.cancel_status_ = .OK) :
    (CleanUpBuffer b (CleanUpUnusedBuffers s)).cancel_status_ = .OK := by
  simp [h]

@[simp]
theorem EnqueueReadyBuffer_fst (b : BufferDescriptor) (s : ScanRange) :
    (EnqueueReadyBuffer b s).1 = s.cancel_status_.ok := by
  unfold EnqueueReadyBuffer
  by_cases hk : s.is_cached <;> by_cases hc : s.cancel_status_.ok <;> simp [hk, hc]

@[simp]
theorem EnqueueReadyBuffer_frame (b : BufferDescriptor) (s : ScanRange) :
    (EnqueueReadyBuffer b s).2.len_ = s.len_ ∧
    (EnqueueReadyBuffer b s).2.offset_ = s.offset_ ∧
    (EnqueueReadyBuffer b s).2.client_buffer_ = s.client_buffer_ ∧
    (EnqueueReadyBuffer b s).2.reader_ = s.reader_ ∧
    (EnqueueReadyBuffer b s).2.io_mgr_ = s.io_mgr_ ∧
    (EnqueueReadyBuffer b s).2.iomgr_buffer_cumulative_bytes_used_ = s.iomgr_buffer_cumulative_bytes_used_ ∧
    (EnqueueReadyBuffer b s).2.num_buffers_in_reader_ = s.num_buffers_in_reader_ ∧
    (EnqueueReadyBuffer b s).2.blocked_on_buffer_ = s.blocked_on_buffer_ ∧
    (EnqueueReadyBuffer b s).2.cancel_status_ = s.cancel_status_ ∧
    (EnqueueReadyBuffer b s).2.fs_ = s.fs_ ∧
    (EnqueueReadyBuffer b s).2.file_reader_.bytes_read_ = s.file_reader_.bytes_read_ ∧
    (EnqueueReadyBuffer b s).2.log.delivered = s.log.delivered ∧
    (EnqueueReadyBuffer b s).2.log.read_requests = s.log.read_requests ∧
    (EnqueueReadyBuffer b s).2.log.schedule_calls = s.log.schedule_calls ∧
    (EnqueueReadyBuffer b s).2.ready_buffers_ = (if s.cancel_status_.ok then s.ready_buffers_ ++ [b] else s.ready_buffers_) ∧
    (EnqueueReadyBuffer b s).2.eosr_queued_ = (if s.cancel_status_.ok then b.eosr_ else s.eosr_queued_) ∧
    (EnqueueReadyBuffer b s).2.read_in_flight_ = (s.read_in_flight_ && s.is_cached) ∧
    (EnqueueReadyBuffer b s).2.log.enqueued = (if s.cancel_status_.ok then s.log.enqueued ++ [b] else s.log.enqueued) ∧
    (EnqueueReadyBuffer b s).2.unused_iomgr_buffers_ = (if s.cancel_status_.ok && b.eosr_ then [] else s.unused_iomgr_buffers_) ∧
    (EnqueueReadyBuffer b s).2.unused_iomgr_buffer_bytes_ = (if s.cancel_status_.ok && b.eosr_ then s.unused_iomgr_buffer_bytes_ - unusedBufferBytes s.unused_iomgr_buffers_ else s.unused_iomgr_buffer_bytes_) ∧
    (EnqueueReadyBuffer b s).2.log.freed = (if s.cancel_status_.ok then (if b.eosr_ then s.log.freed ++ s.unused_iomgr_buffers_.reverse else s.log.freed) else s.log.freed ++ [b]) := by
  unfold EnqueueReadyBuffer
  by_cases hk : s.is_cached <;> by_cases hc : s.cancel_status_.ok <;> by_cases he : b.eosr_ <;>
    simp [hk, hc, he]

@[simp]
theorem addUnusedBuffer_frame (b : BufferDescriptor) (s : ScanRange) (u : Bool) :
    (addUnusedBuffer b (s, u)).1.len_ = s.len_ ∧
    (addUnusedBuffer b (s, u)).1.offset_ = s.offset_ ∧
    (addUnusedBuffer b (s, u)).1.client_buffer_ = s.client_buffer_ ∧
    (addUnusedBuffer b (s, u)).1.reader_ = s.reader_ ∧
    (addUnusedBuffer b (s, u)).1.io_mgr_ = s.io_mgr_ ∧
    (addUnusedBuffer b (s, u)).1.ready_buffers_ = s.ready_buffers_ ∧
    (addUnusedBuffer b (s, u)).1.iomgr_buffer_cumulative_bytes_used_ = s.iomgr_buffer_cumulative_bytes_used_ ∧
    (addUnusedBuffer b (s, u)).1.num_buffers_in_reader_ = s.num_buffers_in_reader_ ∧
    (addUnusedBuffer b (s, u)).1.read_in_flight_ = s.read_in_flight_ ∧
    (addUnusedBuffer b (s, u)).1.eosr_queued_ = s.eosr_queued_ ∧
    (addUnusedBuffer b (s, u)).1.cancel_status_ = s.cancel_status_ ∧
    (addUnusedBuffer b (s, u)).1.fs_ = s.fs_ ∧
    (addUnusedBuffer b (s, u)).1.file_reader_.bytes_read_ = s.file_reader_.bytes_read_ ∧
    (addUnusedBuffer b (s, u)).1.log.enqueued = s.log.enqueued ∧
    (addUnusedBuffer b (s, u)).1.log.delivered = s.log.delivered ∧
    (addUnusedBuffer b (s, u)).1.log.read_requests = s.log.read_requests ∧
    (addUnusedBuffer b (s, u)).1.log.schedule_calls = s.log.schedule_calls ∧
    (addUnusedBuffer b (s, u)).1.unused_iomgr_buffers_ = (if s.shouldFreeUnused then s.unused_iomgr_buffers_ else s.unused_iomgr_buffers_ ++ [b]) ∧
    (addUnusedBuffer b (s, u)).1.unused_iomgr_buffer_bytes_ = (if s.shouldFreeUnused then s.unused_iomgr_buffer_bytes_ else s.unused_iomgr_buffer_bytes_ + b.buffer_len_) ∧
    (addUnusedBuffer b (s, u)).1.blocked_on_buffer_ = (s.blocked_on_buffer_ && s.shouldFreeUnused) ∧
    (addUnusedBuffer b (s, u)).1.log.freed = (if s.shouldFreeUnused then s.log.freed ++ [b] else s.log.freed) := by
  unfold addUnusedBuffer
  by_cases hf : s.shouldFreeUnused <;> by_cases hb : s.blocked_on_buffer_ <;> simp [hf, hb]

@[simp]
theorem addUnusedBuffer_snd (b : BufferDescriptor) (s : ScanRange) (u : Bool) :
    (addUnusedBuffer b (s, u)).2 = (u || (s.blocked_on_buffer_ && !s.shouldFreeUnused)) := by
  unfold addUnusedBuffer
  by_cases hf : s.shouldFreeUnused <;> by_cases hb : s.blocked_on_buffer_ <;> simp [hf, hb]

theorem addUnusedLoop_frame (bs : List BufferDescriptor) :
    ∀ st : ScanRange × Bool,
    (addUnusedLoop bs st).1.len_ = st.1.len_ ∧
    (addUnusedLoop bs st).1.offset_ = st.1.offset_ ∧
    (addUnusedLoop bs st).1.client_buffer_ = st.1.client_buffer_ ∧
    (addUnusedLoop bs st).1.reader_ = st.1.reader_ ∧
    (addUnusedLoop bs st).1.io_mgr_ = st.1.io_mgr_ ∧
    (addUnusedLoop bs st).1.ready_buffers_ = st.1.ready_buffers_ ∧
    (addUnusedLoop bs st).1.iomgr_buffer_cumulative_bytes_used_ = st.1.iomgr_buffer_cumulative_bytes_used_ ∧
    (addUnusedLoop bs st).1.num_buffers_in_reader_ = st.1.num_buffers_in_reader_ ∧
    (addUnusedLoop bs st).1.read_in_flight_ = st.1.read_in_flight_ ∧
    (addUnusedLoop bs st).1.eosr_queued_ = st.1.eosr_queued_ ∧
    (addUnusedLoop bs st).1.cancel_status_ = st.1.cancel_status_ ∧
    (addUnusedLoop bs st).1.fs_ = st.1.fs_ ∧
    (addUnusedLoop bs st).1.file_reader_.bytes_read_ = st.1.file_reader_.bytes_read_ ∧
    (addUnusedLoop bs st).1.log.enqueued = st.1.log.enqueued ∧
    (addUnusedLoop bs st).1.log.delivered = st.1.log.delivered ∧
    (addUnusedLoop bs st).1.log.read_requests = st.1.log.read_requests ∧
    (addUnusedLoop bs st).1.log.schedule_calls = st.1.log.schedule_calls := by
  induction bs with
  | nil => intro st; simp [addUnusedLoop]
  | cons b rest ih =>
    intro st
    obtain ⟨s, u⟩ := st
    have h := ih (addUnusedBuffer b (s, u))
    simp only [addUnusedBuffer_frame] at h
    simpa [addUnusedLoop] using h

@[simp]
theorem addUnusedLocked_frame (bs : List BufferDescriptor) (returned : Bool) (s : ScanRange) :
    (addUnusedLocked bs returned s).1.len_ = s.len_ ∧
    (addUnusedLocked bs returned s).1.offset_ = s.offset_ ∧
    (addUnusedLocked bs returned s).1.client_buffer_ = s.client_buffer_ ∧
    (addUnusedLocked bs returned s).1.reader_ = s.reader_ ∧
    (addUnusedLocked bs returned s).1.io_mgr_ = s.io_mgr_ ∧
    (addUnusedLocked bs returned s).1.ready_buffers_ = s.ready_buffers_ ∧
    (addUnusedLocked bs returned s).1.iomgr_buffer_cumulative_bytes_used_ = s.iomgr_buffer_cumulative_bytes_used_ ∧
    (addUnusedLocked bs returned s).1.read_in_flight_ = s.read_in_flight_ ∧
    (addUnusedLocked bs returned s).1.eosr_queued_ = s.eosr_queued_ ∧
    (addUnusedLocked bs returned s).1.cancel_status_ = s.cancel_status_ ∧
    (addUnusedLocked bs returned s).1.fs_ = s.fs_ ∧
    (addUnusedLocked bs returned s).1.file_reader_.bytes_read_ = s.file_reader_.bytes_read_ ∧
    (addUnusedLocked bs returned s).1.log.enqueued = s.log.enqueued ∧
    (addUnusedLocked bs returned s).1.log.delivered = s.log.delivered ∧
    (addUnusedLocked bs returned s).1.log.read_requests = s.log.read_requests ∧
    (addUnusedLocked bs returned s).1.log.schedule_calls = s.log.schedule_calls ∧
    (addUnusedLocked bs returned s).1.num_buffers_in_reader_ = (if returned then s.num_buffers_in_reader_ - bs.length else s.num_buffers_in_reader_) := by
  unfold addUnusedLocked
  cases returned <;> simp [addUnusedLoop_frame]

@[simp]
theorem AddUnusedBuffers_frame (bs : List BufferDescriptor) (returned rc : Bool) (s : ScanRange) :
    (AddUnusedBuffers bs returned rc s).len_ = s.len_ ∧
    (AddUnusedBuffers bs returned rc s).offset_ = s.offset_ ∧
    (AddUnusedBuffers bs returned rc s).client_buffer_ = s.client_buffer_ ∧
    (AddUnusedBuffers bs returned rc s).reader_ = s.reader_ ∧
    (AddUnusedBuffers bs returned rc s).io_mgr_ = s.io_mgr_ ∧
    (AddUnusedBuffers bs returned rc s).ready_buffers_ = s.ready_buffers_ ∧
    (AddUnusedBuffers bs returned rc s).iomgr_buffer_cumulative_bytes_used_ = s.iomgr_buffer_cumulative_bytes_used_ ∧
    (AddUnusedBuffers bs returned rc s).read_in_flight_ = s.read_in_flight_ ∧
    (AddUnusedBuffers bs returned rc s).eosr_queued_ = s.eosr_queued_ ∧
    (AddUnusedBuffers bs returned rc s).cancel_status_ = s.cancel_status_ ∧
    (AddUnusedBuffers bs returned rc s).fs_ = s.fs_ ∧
    (AddUnusedBuffers bs returned rc s).file_reader_.bytes_read_ = s.file_reader_.bytes_read_ ∧
    (AddUnusedBuffers bs returned rc s).log.enqueued = s.log.enqueued ∧
    (AddUnusedBuffers bs returned rc s).log.delivered = s.log.delivered ∧
    (AddUnusedBuffers bs returned rc s).log.read_requests = s.log.read_requests ∧
    (AddUnusedBuffers bs returned rc s).num_buffers_in_reader_ = (if returned then s.num_buffers_in_reader_ - bs.length else s.num_buffers_in_reader_) := by
  unfold AddUnusedBuffers
  dsimp only
  split
  · split <;> simp
  · simp

@[simp]
theorem ReturnBuffer_frame (b : BufferDescriptor) (rc : Bool) (s : ScanRange) :
    (ReturnBuffer b rc s).len_ = s.len_ ∧
    (ReturnBuffer b rc s).offset_ = s.offset_ ∧
    (ReturnBuffer b rc s).client_buffer_ = s.client_buffer_ ∧
    (ReturnBuffer b rc s).reader_ = s.reader_ ∧
    (ReturnBuffer b rc s).io_mgr_ = s.io_mgr_ ∧
    (ReturnBuffer b rc s).ready_buffers_ = s.ready_buffers_ ∧
    (ReturnBuffer b rc s).iomgr_buffer_cumulative_bytes_used_ = s.iomgr_buffer_cumulative_bytes_used_ ∧
    (ReturnBuffer b rc s).read_in_flight_ = s.read_in_flight_ ∧
    (ReturnBuffer b rc s).eosr_queued_ = s.eosr_queued_ ∧
    (ReturnBuffer b rc s).cancel_status_ = s.cancel_status_ ∧
    (ReturnBuffer b rc s).fs_ = s.fs_ ∧
    (ReturnBuffer b rc s).file_reader_.bytes_read_ = s.file_reader_.bytes_read_ ∧
    (ReturnBuffer b rc s).log.enqueued = s.log.enqueued ∧
    (ReturnBuffer b rc s).log.delivered = s.log.delivered ∧
    (ReturnBuffer b rc s).log.read_requests = s.log.read_requests ∧
    (ReturnBuffer b rc s).num_buffers_in_reader_ = s.num_buffers_in_reader_ - 1 := by
  unfold ReturnBuffer
  simp

end ScanRange

open ScanRange

@[simp]
theorem run_nil (s : ScanRange) : run [] s = s := rfl

@[simp]
theorem run_cons (op : Op) (ops : List Op) (s : ScanRange) :
    run (op :: ops) s = run ops (op.apply s) := rfl

theorem run_append (ops1 ops2 : List Op) :
    ∀ s : ScanRange, run (ops1 ++ ops2) s = run ops2 (run ops1 s) := by
  induction ops1 with
  | nil => intro s; rfl
  | cons op rest ih => intro s; simp [ih]

/-- The call `GetNext` on a range that is not cancelled and has a ready buffer. -/
theorem GetNext_front (s : ScanRange) (front : BufferDescriptor) (rest : List BufferDescriptor)
    (hc : s.cancel_status_.ok = true) (hr : s.ready_buffers_ = front :: rest) :
    ∃ n, s.GetNext = some (.OK, some front,
      { s with
        ready_buffers_ := rest
        num_buffers_in_reader_ := s.num_buffers_in_reader_ + 1
        log := { s.log with
          delivered := s.log.delivered ++ [front]
          remove_active_calls := n } }) := by
  unfold GetNext
  simp only [all_buffers_returned, hc, hr]
  by_cases he : front.eosr_ <;> simp [he]

/-- A `GetNext` that returns no buffer leaves the range as it was. -/
theorem GetNext_apply_of_no_buffer (s : ScanRange)
    (h : s.cancel_status_.ok = false ∨ s.ready_buffers_ = []) :
    Op.apply .GetNext s = s := by
  simp only [Op.apply]
  unfold GetNext
  rcases h with h | h
  · simp only [all_buffers_returned, h]
    by_cases hf : s.read_in_flight_ <;> simp [hf]
  · simp only [all_buffers_returned, h]
    by_cases hc : s.cancel_status_.ok <;> by_cases he : s.eosr_queued_ <;>
      by_cases hf : s.read_in_flight_ <;> simp [hc, he, hf]

namespace ScanRange

theorem Validate_unused_bytes (s : ScanRange) (h : s.Validate = true) :
    unusedBufferBytes s.unused_iomgr_buffers_ = s.unused_iomgr_buffer_bytes_ := by
  unfold Validate at h
  by_contra hne
  simp [hne] at h

/-- The call `DoRead` on a cancelled range returns at line 179. -/
theorem DoRead_of_cancelled (fr : FileReaderAnswer) (s : ScanRange)
    (h : s.cancel_status_.ok = false) : s.DoRead fr = (.CANCELLED, s) := by
  simp [DoRead, doReadAcquire, h]

/-- The call `ReadFromCache` on a cancelled range: only `Open` has been called. -/
theorem ReadFromCache_of_cancelled (open_status : Status) (cached : Option (Nat × Int))
    (s : ScanRange) (h : s.cancel_status_.ok = false) :
    ∃ o, (s.ReadFromCache open_status cached).2.2 =
      { s with
        log := { s.log with open_calls := s.log.open_calls + 1 }
        file_reader_ := { s.file_reader_ with is_open := o } } := by
  by_cases ho : open_status.ok
  · refine ⟨true, ?_⟩
    unfold ReadFromCache
    by_cases hf : s.fs_.isNone <;> simp [ho, hf, h]
  · refine ⟨s.file_reader_.is_open, ?_⟩
    unfold ReadFromCache
    simp [ho]

@[simp]
theorem Cancel_frame (status : Status) (s : ScanRange) :
    (Cancel status s).len_ = s.len_ ∧
    (Cancel status s).offset_ = s.offset_ ∧
    (Cancel status s).client_buffer_ = s.client_buffer_ ∧
    (Cancel status s).reader_ = s.reader_ ∧
    (Cancel status s).io_mgr_ = s.io_mgr_ ∧
    (Cancel status s).iomgr_buffer_cumulative_bytes_used_ = s.iomgr_buffer_cumulative_bytes_used_ ∧
    (Cancel status s).num_buffers_in_reader_ = s.num_buffers_in_reader_ ∧
    (Cancel status s).read_in_flight_ = s.read_in_flight_ ∧
    (Cancel status s).eosr_queued_ = s.eosr_queued_ ∧
    (Cancel status s).blocked_on_buffer_ = s.blocked_on_buffer_ ∧
    (Cancel status s).fs_ = s.fs_ ∧
    (Cancel status s).file_reader_.bytes_read_ = s.file_reader_.bytes_read_ ∧
    (Cancel status s).log.enqueued = s.log.enqueued ∧
    (Cancel status s).log.delivered = s.log.delivered ∧
    (Cancel status s).log.read_requests = s.log.read_requests ∧
    (Cancel status s).log.schedule_calls = s.log.schedule_calls ∧
    (Cancel status s).cancel_status_ =
      (if s.io_mgr_.isNone then s.cancel_status_
        else if s.cancel_status_.ok then status else s.cancel_status_) ∧
    (Cancel status s).ready_buffers_ = (if s.io_mgr_.isNone then s.ready_buffers_ else []) ∧
    (Cancel status s).unused_iomgr_buffers_ =
      (if s.io_mgr_.isNone then s.unused_iomgr_buffers_ else []) ∧
    (Cancel status s).unused_iomgr_buffer_bytes_ =
      (if s.io_mgr_.isNone then s.unused_iomgr_buffer_bytes_
        else s.unused_iomgr_buffer_bytes_ - unusedBufferBytes s.unused_iomgr_buffers_) ∧
    (Cancel status s).log.freed =
      (if s.io_mgr_.isNone then s.log.freed
        else s.log.freed ++ s.ready_buffers_ ++ s.unused_iomgr_buffers_.reverse) := by
  unfold Cancel
  by_cases hn : s.io_mgr_.isNone
  · simp [hn]
  · by_cases hf : s.read_in_flight_ <;> simp [hn, hf]

theorem GetUnusedBuffer_eq (s : ScanRange) :
    ∃ u ub, s.GetUnusedBuffer.2 =
      { s with unused_iomgr_buffers_ := u, unused_iomgr_buffer_bytes_ := ub } := by
  unfold GetUnusedBuffer
  split
  · exact ⟨_, _, rfl⟩
  · exact ⟨_, _, rfl⟩

end ScanRange

/-- No call changes the status of a cancelled range. -/
theorem apply_cancel_status_of_cancelled (op : Op) (s : ScanRange)
    (h : s.cancel_status_.ok = false) : (op.apply s).cancel_status_ = s.cancel_status_ := by
  cases op with
  | EnqueueReadyBuffer b => simp [Op.apply]
  | GetNext => rw [GetNext_apply_of_no_buffer s (Or.inl h)]
  | ReturnBuffer b rc => simp [Op.apply]
  | AddUnusedBuffers bs r rc => simp [Op.apply]
  | GetUnusedBuffer =>
    obtain ⟨u, ub, hu⟩ := GetUnusedBuffer_eq s
    simp [Op.apply, hu]
  | DoRead fr => simp [Op.apply, DoRead_of_cancelled fr s h]
  | SetBlockedOnBuffer => simp [Op.apply, SetBlockedOnBuffer]
  | CleanUpBuffers bs => simp [Op.apply]
  | CleanUpUnusedBuffers => simp [Op.apply]
  | Cancel status => simp [Op.apply, h]
  | CancelInternal status e => simp [Op.apply, h]
  | ReadFromCache os c =>
    obtain ⟨o, ho⟩ := ReadFromCache_of_cancelled os c s h
    simp [Op.apply, ho]

/-- No call puts a buffer on the ready queue of a cancelled range. -/
theorem apply_ready_of_cancelled (op : Op) (s : ScanRange)
    (h : s.cancel_status_.ok = false) (hr : s.ready_buffers_ = []) :
    (op.apply s).ready_buffers_ = [] := by
  cases op with
  | EnqueueReadyBuffer b => simp [Op.apply, h, hr]
  | GetNext => rw [GetNext_apply_of_no_buffer s (Or.inl h)]; exact hr
  | ReturnBuffer b rc => simp [Op.apply, hr]
  | AddUnusedBuffers bs r rc => simp [Op.apply, hr]
  | GetUnusedBuffer =>
    obtain ⟨u, ub, hu⟩ := GetUnusedBuffer_eq s
    simp [Op.apply, hu, hr]
  | DoRead fr => simp [Op.apply, DoRead_of_cancelled fr s h, hr]
  | SetBlockedOnBuffer => simp [Op.apply, SetBlockedOnBuffer, hr]
  | CleanUpBuffers bs => simp [Op.apply, hr]
  | CleanUpUnusedBuffers => simp [Op.apply, hr]
  | Cancel status => simp [Op.apply, hr]
  | CancelInternal status e => simp [Op.apply]
  | ReadFromCache os c =>
    obtain ⟨o, ho⟩ := ReadFromCache_of_cancelled os c s h
    simp [Op.apply, ho, hr]

theorem run_of_cancelled (ops : List Op) :
    ∀ s : ScanRange, s.cancel_status_.ok = false →
      (run ops s).cancel_status_ = s.cancel_status_ ∧
      (s.ready_buffers_ = [] → (run ops s).ready_buffers_ = []) := by
  induction ops with
  | nil => intro s _; exact ⟨rfl, id⟩
  | cons op rest ih =>
    intro s h
    have h1 := apply_cancel_status_of_cancelled op s h
    obtain ⟨h2, h3⟩ := ih (op.apply s) (by rw [h1]; exact h)
    refine ⟨by rw [run_cons, h2, h1], fun hr => ?_⟩
    exact h3 (apply_ready_of_cancelled op s h hr)

/-- C2. Once `cancel_status_` is not OK, no sequence of calls (`Cancel`,
`CancelInternal` with or without `read_error`, `EnqueueReadyBuffer`, `GetNext`,
`ReturnBuffer`, `AddUnusedBuffers`, `DoRead` with any answer of the file reader,
and the other calls of `Op`) changes it. In particular `CancelInternal r1` on an
uncancelled range followed by `CancelInternal r2` leaves `cancel_status_ = r1`. -/
theorem C2_cancel_status_is_sticky (s : ScanRange) (h : s.cancel_status_.ok = false) :
    (∀ op : Op, (op.apply s).cancel_status_ = s.cancel_status_) ∧
    (∀ ops : List Op, (run ops s).cancel_status_ = s.cancel_status_) ∧
    (∀ (s0 : ScanRange) (r1 r2 : Status) (e1 e2 : Bool),
      s0.cancel_status_.ok = true → r1.ok = false →
      (CancelInternal r2 e2 (CancelInternal r1 e1 s0)).cancel_status_ = r1) := by
  refine ⟨fun op => apply_cancel_status_of_cancelled op s h,
    fun ops => (run_of_cancelled ops s h).1, ?_⟩
  intro s0 r1 r2 e1 e2 h0 h1
  simp [h0, h1]

/-- A concrete run on which the hypotheses of the theorem above hold. -/
theorem C2_cancel_status_is_sticky_witness :
    (CancelInternal (.error 1) false chunkingRange).cancel_status_.ok = false ∧
    (run [.CancelInternal (.error 2) true, .Cancel (.error 3), .DoRead failingReader]
        (CancelInternal (.error 1) false chunkingRange)).cancel_status_ = .error 1 ∧
    (CancelInternal (.error 2) true
        (CancelInternal (.error 1) false chunkingRange)).cancel_status_ = .error 1 :=
  ⟨by decide,
    ((C2_cancel_status_is_sticky (CancelInternal (.error 1) false chunkingRange)
      (by decide)).2.1 _).trans (by decide),
    (C2_cancel_status_is_sticky (CancelInternal (.error 1) false chunkingRange)
      (by decide)).2.2 chunkingRange (.error 1) (.error 2) false true (by decide) (by decide)⟩

namespace ScanRange

/-- The `FreeBuffer` calls of `CancelInternal` on a range that reads through a
cached buffer and holds nothing but, at most, that buffer in `ready_buffers_`:
none. -/
theorem CancelInternal_pool_of_cached (status : Status) (read_error : Bool) (s : ScanRange)
    (ht : s.external_buffer_tag_ = .CACHED_BUFFER) (hu : s.unused_iomgr_buffers_ = [])
    (hr : s.ready_buffers_.length ≤ 1) :
    (CancelInternal status read_error s).log.pool_free_calls = s.log.pool_free_calls := by
  obtain ⟨fs, file, mtime, meta, len, offset, disk, tc, el, io, rd, tag, cb, ready, unused, ub,
    cum, nb, rif, eq, bl, cs, fr, lg⟩ := s
  dsimp only at ht hu hr
  subst ht hu
  match ready, hr with
  | [], _ =>
    unfold CancelInternal CleanUpUnusedBuffers
    cases read_error <;> cases hcs : cs.ok <;>
      simp [cleanUpReadyLoop, cleanUpUnusedLoop, GetUnusedBuffer, closeFileReader]
  | [c], _ =>
    unfold CancelInternal CleanUpUnusedBuffers
    cases read_error <;> cases hcs : cs.ok <;>
      simp [cleanUpReadyLoop, cleanUpUnusedLoop, GetUnusedBuffer, closeFileReader,
        CleanUpBuffer, Free, is_cached, is_client_buffer] <;> split <;>
      simp [cleanUpUnusedLoop, GetUnusedBuffer]
  | _ :: _ :: _, h => simp at h

end ScanRange

/-- C3. On a range that satisfies `Validate`, `CancelInternal` with a non-OK
status leaves the range cancelled with `ready_buffers_` and
`unused_iomgr_buffers_` empty and `unused_iomgr_buffer_bytes_ = 0`. Every buffer
of the two queues is freed exactly once: the `Free` calls made are exactly one
per buffer (the ready queue front to back, then the unused queue back to front),
each clears the pointer of its descriptor, and on a range that uses pool buffers
(NO_BUFFER) the `FreeBuffer` calls made are exactly one per buffer, in the same
order. No `FreeBuffer` call is made on a range that reads into the client buffer,
nor on a range that reads through a cached buffer and holds at most that buffer:
those are not pool memory. After any further sequence of calls the ready queue
is still empty and the range still cancelled. `Cancel` on a started range
(`io_mgr_` set) leaves the same queues, counter, `Free` and `FreeBuffer` calls. -/
theorem C3_cancel_drains_and_frees_queues (status : Status) (read_error : Bool) (s : ScanRange)
    (hv : s.Validate = true) (hs : status.ok = false) :
    (CancelInternal status read_error s).cancel_status_.ok = false ∧
    (CancelInternal status read_error s).ready_buffers_ = [] ∧
    (CancelInternal status read_error s).unused_iomgr_buffers_ = [] ∧
    (CancelInternal status read_error s).unused_iomgr_buffer_bytes_ = 0 ∧
    (CancelInternal status read_error s).log.freed =
      s.log.freed ++ s.ready_buffers_ ++ s.unused_iomgr_buffers_.reverse ∧
    (∀ (b : BufferDescriptor) (t : ScanRange), (Free b t).1.buffer_ = none) ∧
    (s.external_buffer_tag_ = .NO_BUFFER →
      (CancelInternal status read_error s).log.pool_free_calls =
        s.log.pool_free_calls ++ s.ready_buffers_ ++ s.unused_iomgr_buffers_.reverse) ∧
    (s.external_buffer_tag_ = .CLIENT_BUFFER →
      (CancelInternal status read_error s).log.pool_free_calls = s.log.pool_free_calls) ∧
    (s.external_buffer_tag_ = .CACHED_BUFFER → s.unused_iomgr_buffers_ = [] →
      s.ready_buffers_.length ≤ 1 →
      (CancelInternal status read_error s).log.pool_free_calls = s.log.pool_free_calls) ∧
    (∀ ops : List Op,
      (run ops (CancelInternal status read_error s)).ready_buffers_ = [] ∧
      (run ops (CancelInternal status read_error s)).cancel_status_.ok = false) ∧
    (s.io_mgr_.isSome = true →
      (Cancel status s).ready_buffers_ = [] ∧
      (Cancel status s).unused_iomgr_buffers_ = [] ∧
      (Cancel status s).unused_iomgr_buffer_bytes_ = 0 ∧
      (Cancel status s).log.freed =
        s.log.freed ++ s.ready_buffers_ ++ s.unused_iomgr_buffers_.reverse ∧
      (Cancel status s).log.pool_free_calls =
        (CancelInternal status false s).log.pool_free_calls ∧
      ∀ ops : List Op, (run ops (Cancel status s)).ready_buffers_ = []) := by
  have hb := Validate_unused_bytes s hv
  have hc : (CancelInternal status read_error s).cancel_status_.ok = false := by
    by_cases h : s.cancel_status_.ok <;> simp [h, hs]
  have hpool : s.external_buffer_tag_ ≠ .CACHED_BUFFER →
      (CancelInternal status read_error s).log.pool_free_calls =
        if s.external_buffer_tag_ = .NO_BUFFER
          then s.log.pool_free_calls ++ s.ready_buffers_ ++ s.unused_iomgr_buffers_.reverse
          else s.log.pool_free_calls := by
    intro ht
    obtain ⟨pf, o, tg, c, -, h⟩ := CancelInternal_eq status read_error s
    rw [h]
    exact (c ht).2.2
  refine ⟨hc, by simp, by simp, by simp [hb], by simp, fun _ _ => rfl, ?_, ?_,
    CancelInternal_pool_of_cached status read_error s, ?_, ?_⟩
  · intro hn
    rw [hpool (by simp [hn])]
    simp [hn]
  · intro hn
    rw [hpool (by simp [hn])]
    simp [hn]
  · intro ops
    obtain ⟨h1, h2⟩ := run_of_cancelled ops _ hc
    exact ⟨h2 (by simp), by rw [h1]; exact hc⟩
  · intro hio
    have hn : s.io_mgr_.isNone = false := by
      cases hi : s.io_mgr_ <;> simp_all
    have hcc : (Cancel status s).cancel_status_.ok = false := by
      by_cases h : s.cancel_status_.ok <;> simp [h, hs, hn]
    refine ⟨by simp [hn], by simp [hn], by simp [hn, hb], by simp [hn], ?_, ?_⟩
    · unfold Cancel
      simp only [hn, Bool.false_eq_true, if_false]
      split <;> rfl
    · intro ops
      exact (run_of_cancelled ops _ hcc).2 (by simp [hn])

/-- A concrete run on which the hypotheses of the theorem above hold. -/
theorem C3_cancel_drains_and_frees_queues_witness :
    (chunkingAfterReads 2).Validate = true ∧
    (Status.error 7).ok = false ∧
    (chunkingAfterReads 2).ready_buffers_.length = 2 ∧
    (chunkingAfterReads 2).unused_iomgr_buffers_.length = 1 ∧
    (chunkingAfterReads 2).external_buffer_tag_ = .NO_BUFFER ∧
    (CancelInternal (.error 7) false (chunkingAfterReads 2)).ready_buffers_ = [] ∧
    (CancelInternal (.error 7) false (chunkingAfterReads 2)).unused_iomgr_buffers_ = [] ∧
    (CancelInternal (.error 7) false (chunkingAfterReads 2)).unused_iomgr_buffer_bytes_ = 0 ∧
    (CancelInternal (.error 7) false (chunkingAfterReads 2)).log.freed.length = 3 ∧
    (CancelInternal (.error 7) false (chunkingAfterReads 2)).log.pool_free_calls.length = 3 :=
  have h := C3_cancel_drains_and_frees_queues (.error 7) false (chunkingAfterReads 2)
    (by decide) (by decide)
  ⟨by decide, by decide, by decide, by decide, by decide, h.2.1, h.2.2.1, h.2.2.2.1,
    by rw [h.2.2.2.2.1]; decide,
    by rw [h.2.2.2.2.2.2.1 (by decide)]; decide⟩

namespace ScanRange

@[simp]
theorem Free_frame (b : BufferDescriptor) (s : ScanRange) :
    (Free b s).2.len_ = s.len_ ∧
    (Free b s).2.offset_ = s.offset_ ∧
    (Free b s).2.client_buffer_ = s.client_buffer_ ∧
    (Free b s).2.reader_ = s.reader_ ∧
    (Free b s).2.io_mgr_ = s.io_mgr_ ∧
    (Free b s).2.external_buffer_tag_ = s.external_buffer_tag_ ∧
    (Free b s).2.ready_buffers_ = s.ready_buffers_ ∧
    (Free b s).2.unused_iomgr_buffers_ = s.unused_iomgr_buffers_ ∧
    (Free b s).2.unused_iomgr_buffer_bytes_ = s.unused_iomgr_buffer_bytes_ ∧
    (Free b s).2.iomgr_buffer_cumulative_bytes_used_ = s.iomgr_buffer_cumulative_bytes_used_ ∧
    (Free b s).2.num_buffers_in_reader_ = s.num_buffers_in_reader_ ∧
    (Free b s).2.read_in_flight_ = s.read_in_flight_ ∧
    (Free b s).2.eosr_queued_ = s.eosr_queued_ ∧
    (Free b s).2.blocked_on_buffer_ = s.blocked_on_buffer_ ∧
    (Free b s).2.cancel_status_ = s.cancel_status_ ∧
    (Free b s).2.fs_ = s.fs_ ∧
    (Free b s).2.file_reader_.bytes_read_ = s.file_reader_.bytes_read_ ∧
    (Free b s).2.log.enqueued = s.log.enqueued ∧
    (Free b s).2.log.delivered = s.log.delivered ∧
    (Free b s).2.log.read_requests = s.log.read_requests ∧
    (Free b s).2.log.schedule_calls = s.log.schedule_calls ∧
    (Free b s).2.log.freed = s.log.freed ++ [b] := by
  unfold Free
  dsimp only
  split <;> simp

@[simp]
theorem closeFileReader_frame (s : ScanRange) :
    (closeFileReader s).len_ = s.len_ ∧
    (closeFileReader s).offset_ = s.offset_ ∧
    (closeFileReader s).client_buffer_ = s.client_buffer_ ∧
    (closeFileReader s).reader_ = s.reader_ ∧
    (closeFileReader s).io_mgr_ = s.io_mgr_ ∧
    (closeFileReader s).external_buffer_tag_ =
      (if s.external_buffer_tag_ = .CACHED_BUFFER then .NO_BUFFER else s.external_buffer_tag_) ∧
    (closeFileReader s).ready_buffers_ = s.ready_buffers_ ∧
    (closeFileReader s).unused_iomgr_buffers_ = s.unused_iomgr_buffers_ ∧
    (closeFileReader s).unused_iomgr_buffer_bytes_ = s.unused_iomgr_buffer_bytes_ ∧
    (closeFileReader s).iomgr_buffer_cumulative_bytes_used_ = s.iomgr_buffer_cumulative_bytes_used_ ∧
    (closeFileReader s).num_buffers_in_reader_ = s.num_buffers_in_reader_ ∧
    (closeFileReader s).read_in_flight_ = s.read_in_flight_ ∧
    (closeFileReader s).eosr_queued_ = s.eosr_queued_ ∧
    (closeFileReader s).blocked_on_buffer_ = s.blocked_on_buffer_ ∧
    (closeFileReader s).cancel_status_ = s.cancel_status_ ∧
    (closeFileReader s).fs_ = s.fs_ ∧
    (closeFileReader s).file_reader_.bytes_read_ = s.file_reader_.bytes_read_ ∧
    (closeFileReader s).log.enqueued = s.log.enqueued ∧
    (closeFileReader s).log.delivered = s.log.delivered ∧
    (closeFileReader s).log.read_requests = s.log.read_requests ∧
    (closeFileReader s).log.schedule_calls = s.log.schedule_calls ∧
    (closeFileReader s).log.freed = s.log.freed := by
  simp [closeFileReader]

@[simp]
theorem doReadTransfer_frame (fr : FileReaderAnswer) (b : BufferDescriptor) (s : ScanRange) :
    (doReadTransfer fr b s).2.2.len_ = s.len_ ∧
    (doReadTransfer fr b s).2.2.offset_ = s.offset_ ∧
    (doReadTransfer fr b s).2.2.client_buffer_ = s.client_buffer_ ∧
    (doReadTransfer fr b s).2.2.reader_ = s.reader_ ∧
    (doReadTransfer fr b s).2.2.io_mgr_ = s.io_mgr_ ∧
    (doReadTransfer fr b s).2.2.external_buffer_tag_ = s.external_buffer_tag_ ∧
    (doReadTransfer fr b s).2.2.ready_buffers_ = s.ready_buffers_ ∧
    (doReadTransfer fr b s).2.2.unused_iomgr_buffers_ = s.unused_iomgr_buffers_ ∧
    (doReadTransfer fr b s).2.2.unused_iomgr_buffer_bytes_ = s.unused_iomgr_buffer_bytes_ ∧
    (doReadTransfer fr b s).2.2.iomgr_buffer_cumulative_bytes_used_ = s.iomgr_buffer_cumulative_bytes_used_ ∧
    (doReadTransfer fr b s).2.2.num_buffers_in_reader_ = s.num_buffers_in_reader_ ∧
    (doReadTransfer fr b s).2.2.read_in_flight_ = s.read_in_flight_ ∧
    (doReadTransfer fr b s).2.2.eosr_queued_ = s.eosr_queued_ ∧
    (doReadTransfer fr b s).2.2.blocked_on_buffer_ = s.blocked_on_buffer_ ∧
    (doReadTransfer fr b s).2.2.cancel_status_ = s.cancel_status_ ∧
    (doReadTransfer fr b s).2.2.fs_ = s.fs_ ∧
    (doReadTransfer fr b s).2.2.log.enqueued = s.log.enqueued ∧
    (doReadTransfer fr b s).2.2.log.delivered = s.log.delivered ∧
    (doReadTransfer fr b s).2.2.log.schedule_calls = s.log.schedule_calls ∧
    (doReadTransfer fr b s).2.2.log.freed = s.log.freed := by
  unfold doReadTransfer
  dsimp only
  split <;> simp

@[simp]
theorem doReadAcquire_frame (s : ScanRange) :
    (doReadAcquire s).2.len_ = s.len_ ∧
    (doReadAcquire s).2.offset_ = s.offset_ ∧
    (doReadAcquire s).2.client_buffer_ = s.client_buffer_ ∧
    (doReadAcquire s).2.reader_ = s.reader_ ∧
    (doReadAcquire s).2.io_mgr_ = s.io_mgr_ ∧
    (doReadAcquire s).2.external_buffer_tag_ = s.external_buffer_tag_ ∧
    (doReadAcquire s).2.ready_buffers_ = s.ready_buffers_ ∧
    (doReadAcquire s).2.num_buffers_in_reader_ = s.num_buffers_in_reader_ ∧
    (doReadAcquire s).2.eosr_queued_ = s.eosr_queued_ ∧
    (doReadAcquire s).2.cancel_status_ = s.cancel_status_ ∧
    (doReadAcquire s).2.fs_ = s.fs_ ∧
    (doReadAcquire s).2.file_reader_.bytes_read_ = s.file_reader_.bytes_read_ ∧
    (doReadAcquire s).2.log.enqueued = s.log.enqueued ∧
    (doReadAcquire s).2.log.delivered = s.log.delivered ∧
    (doReadAcquire s).2.log.read_requests = s.log.read_requests ∧
    (doReadAcquire s).2.log.schedule_calls = s.log.schedule_calls ∧
    (doReadAcquire s).2.log.freed = s.log.freed := by
  unfold doReadAcquire
  split
  · simp
  · split
    · simp
    · obtain ⟨u, ub, hu⟩ := GetUnusedBuffer_eq s
      split <;> rename_i h <;> have h2 := congrArg Prod.snd h <;> simp only [] at h2 <;>
        rw [hu] at h2 <;> subst h2 <;> simp

/-- When `DoRead` gets past its critical section, the range was not cancelled, a
read is now in flight and the unused queue has lost at most its last buffer. -/
theorem doReadAcquire_inr (s s1 : ScanRange) (b : BufferDescriptor)
    (h : s.doReadAcquire = (.inr b, s1)) :
    s.cancel_status_.ok = true ∧ s1.read_in_flight_ = true ∧
    (s.external_buffer_tag_ = .CLIENT_BUFFER ∧
        s1.unused_iomgr_buffers_ = s.unused_iomgr_buffers_ ∨
      s.external_buffer_tag_ ≠ .CLIENT_BUFFER ∧
        s.unused_iomgr_buffers_ = s1.unused_iomgr_buffers_ ++ [b]) := by
  unfold doReadAcquire at h
  by_cases hc : s.cancel_status_.ok
  · by_cases ht : s.external_buffer_tag_ = .CLIENT_BUFFER
    · simp [hc, ht] at h
      obtain ⟨-, rfl⟩ := h
      simp [hc, ht]
    · rcases List.eq_nil_or_concat s.unused_iomgr_buffers_ with h0 | ⟨l, x, hl⟩
      · simp [hc, ht, GetUnusedBuffer_nil s h0] at h
      · rw [List.concat_eq_append] at hl
        simp [hc, ht, GetUnusedBuffer_concat s l x hl] at h
        obtain ⟨rfl, rfl⟩ := h
        simp [hc, ht, hl]
  · simp [hc] at h

/-- The call `GetNext` on a finished range with no read in flight. -/
theorem GetNext_of_finished (s : ScanRange) (hf : s.read_in_flight_ = false)
    (h : s.cancel_status_.ok = false ∨ (s.eosr_queued_ = true ∧ s.ready_buffers_ = [])) :
    s.GetNext = some (s.cancel_status_, none, s) := by
  unfold GetNext
  rcases h with h | ⟨he, hr⟩
  · simp [all_buffers_returned, h, hf]
  · simp [all_buffers_returned, he, hr, hf]

end ScanRange

/-- No call starts a read on a cancelled range. -/
theorem apply_read_in_flight_of_cancelled (op : Op) (s : ScanRange)
    (h : s.cancel_status_.ok = false) (hf : s.read_in_flight_ = false) :
    (op.apply s).read_in_flight_ = false := by
  cases op with
  | EnqueueReadyBuffer b => simp [Op.apply, hf]
  | GetNext => rw [GetNext_apply_of_no_buffer s (Or.inl h)]; exact hf
  | ReturnBuffer b rc => simp [Op.apply, hf]
  | AddUnusedBuffers bs r rc => simp [Op.apply, hf]
  | GetUnusedBuffer =>
    obtain ⟨u, ub, hu⟩ := GetUnusedBuffer_eq s
    simp [Op.apply, hu, hf]
  | DoRead fr => simp [Op.apply, DoRead_of_cancelled fr s h, hf]
  | SetBlockedOnBuffer => simp [Op.apply, SetBlockedOnBuffer, hf]
  | CleanUpBuffers bs => simp [Op.apply, hf]
  | CleanUpUnusedBuffers => simp [Op.apply, hf]
  | Cancel status => simp [Op.apply, hf]
  | CancelInternal status e => simp [Op.apply, hf]
  | ReadFromCache os c =>
    obtain ⟨o, ho⟩ := ReadFromCache_of_cancelled os c s h
    simp [Op.apply, ho, hf]

theorem run_read_in_flight_of_cancelled (ops : List Op) :
    ∀ s : ScanRange, s.cancel_status_.ok = false → s.read_in_flight_ = false →
      (run ops s).read_in_flight_ = false := by
  induction ops with
  | nil => intro s _ hf; exact hf
  | cons op rest ih =>
    intro s h hf
    exact ih (op.apply s) (by rw [apply_cancel_status_of_cancelled op s h]; exact h)
      (apply_read_in_flight_of_cancelled op s h hf)

/-- C4. `GetNext` on a finished range with no read in flight (the range is
cancelled, or the end-of-range buffer has been queued and `ready_buffers_` is
empty) returns `cancel_status_` with no buffer and leaves the range as it was:
queues, `num_buffers_in_reader_` and every other member. On a range that is not
cancelled and whose ready queue is `front :: rest` it returns OK with `front`,
pops it and adds exactly 1 to `num_buffers_in_reader_`; the unused queue is
untouched. -/
theorem C4_GetNext_finished_then_status_else_front (s : ScanRange) :
    (s.read_in_flight_ = false →
      (s.cancel_status_.ok = false ∨ (s.eosr_queued_ = true ∧ s.ready_buffers_ = [])) →
      s.GetNext = some (s.cancel_status_, none, s)) ∧
    (∀ (front : BufferDescriptor) (rest : List BufferDescriptor),
      s.cancel_status_.ok = true → s.ready_buffers_ = front :: rest →
      ∃ t : ScanRange, s.GetNext = some (.OK, some front, t) ∧
        t.num_buffers_in_reader_ = s.num_buffers_in_reader_ + 1 ∧
        t.ready_buffers_ = rest ∧
        t.unused_iomgr_buffers_ = s.unused_iomgr_buffers_ ∧
        t.unused_iomgr_buffer_bytes_ = s.unused_iomgr_buffer_bytes_ ∧
        t.cancel_status_ = s.cancel_status_) := by
  constructor
  · exact GetNext_of_finished s
  · intro front rest hc hr
    obtain ⟨n, hn⟩ := GetNext_front s front rest hc hr
    exact ⟨_, hn, rfl, rfl, rfl, rfl, rfl⟩

/-- A concrete run on which the hypotheses of the theorem above hold. -/
theorem C4_GetNext_finished_then_status_else_front_witness :
    (chunkingAfterGets 3).read_in_flight_ = false ∧
    (chunkingAfterGets 3).eosr_queued_ = true ∧
    (chunkingAfterGets 3).ready_buffers_ = [] ∧
    (chunkingAfterGets 3).GetNext = some (.OK, none, chunkingAfterGets 3) ∧
    (chunkingAfterReads 1).cancel_status_.ok = true ∧
    (∃ front t, (chunkingAfterReads 1).ready_buffers_ = [front] ∧
      (chunkingAfterReads 1).GetNext = some (.OK, some front, t) ∧
      t.num_buffers_in_reader_ = (chunkingAfterReads 1).num_buffers_in_reader_ + 1) :=
  ⟨by decide, by decide, by decide,
    (C4_GetNext_finished_then_status_else_front (chunkingAfterGets 3)).1 (by decide)
      (Or.inr ⟨by decide, by decide⟩),
    by decide,
    match (C4_GetNext_finished_then_status_else_front (chunkingAfterReads 1)).2
      { poolBuffer 3 128000 with len_ := 128000 } []
      (by decide) (by decide) with
    | ⟨t, h1, h2, _⟩ => ⟨_, t, by decide, h1, h2⟩⟩

namespace ScanRange

theorem doReadTransfer_eq (fr : FileReaderAnswer) (b : BufferDescriptor) (s : ScanRange) :
    doReadTransfer fr b s =
      if fr.open_status.ok then (s.doReadOpen fr).doReadFromPos fr b
      else (fr.open_status, b, s.doReadOpen fr) := rfl

theorem DoRead_eq_finish (fr : FileReaderAnswer) (s : ScanRange) :
    s.DoRead fr =
      match s.doReadAcquire with
      | (.inl outcome, s1) => (outcome, s1)
      | (.inr b, s1) =>
        (doReadTransfer fr b s1).2.2.doReadFinish (doReadTransfer fr b s1).1
          (doReadTransfer fr b s1).2.1 := by
  unfold DoRead doReadFinish
  rfl

/-- With no call of another thread in between, `DoReadInterleaved` is `DoRead`. -/
theorem DoReadInterleaved_nil (fr : FileReaderAnswer) (s : ScanRange) :
    s.DoReadInterleaved fr [] [] [] = s.DoRead fr := by
  rw [DoRead_eq_finish]
  unfold DoReadInterleaved doReadTransferInterleaved
  simp only [run]
  cases h : s.doReadAcquire with
  | mk r s1 =>
    cases r with
    | inl o => rfl
    | inr b =>
      dsimp only
      rw [doReadTransfer_eq]

/-- The end of `DoRead` after a failed transfer (lines 217-229): the buffer is
freed, the range cancelled by `CancelInternal(read_status, true)` and the reader
closed. -/
theorem doReadFinish_failed (e : Status) (b2 : BufferDescriptor) (t : ScanRange)
    (he : e.ok = false) :
    t.doReadFinish e b2 =
      (.CANCELLED, (CancelInternal e true (Free b2 t).2).closeFileReader) := by
  unfold doReadFinish
  simp [he]

/-- The `FreeBuffer` calls of a failed transfer on a range that is not tagged
CACHED_BUFFER: one per buffer when the range uses pool buffers, none when it
reads into the client buffer. -/
theorem doReadFinish_failed_pool (e : Status) (b2 : BufferDescriptor) (t : ScanRange)
    (he : e.ok = false) (ht : t.external_buffer_tag_ ≠ .CACHED_BUFFER) :
    (t.doReadFinish e b2).2.log.pool_free_calls =
      if t.external_buffer_tag_ = .NO_BUFFER then
        t.log.pool_free_calls ++ [b2] ++ t.ready_buffers_ ++ t.unused_iomgr_buffers_.reverse
      else t.log.pool_free_calls := by
  rw [doReadFinish_failed e b2 t he]
  obtain ⟨pf, o, tg, c, -, h⟩ := CancelInternal_eq e true (Free b2 t).2
  rw [h]
  have ht2 : (Free b2 t).2.external_buffer_tag_ ≠ .CACHED_BUFFER := by simpa using ht
  obtain ⟨-, -, hp⟩ := c ht2
  simp only [closeFileReader]
  rw [hp, Free_eq]
  by_cases hn : t.external_buffer_tag_ = .NO_BUFFER <;> simp [hn]

end ScanRange

/-- C5, counterexample. On `chunkingRange`, not cancelled, `DoRead` gets the buffer
`poolBuffer 3 128000`; while `lock_` is released another thread calls
`Cancel(error 9)`; then `ReadFromPos` fails with error 5. `DoRead` returns
CANCELLED, but `cancel_status_` is error 9, the first reason (line 299), not the
status of the failed read. -/
theorem C5_counterexample_cancelled_during_transfer :
    chunkingRange.cancel_status_ = .OK ∧
    chunkingRange.doReadAcquire.1 = .inr (poolBuffer 3 128000) ∧
    (chunkingRange.doReadAcquire.2.doReadTransferInterleaved failingReader
      [.Cancel (.error 9)] [] [] (poolBuffer 3 128000)).1 = .error 5 ∧
    (chunkingRange.DoReadInterleaved failingReader [.Cancel (.error 9)] [] []).1 = .CANCELLED ∧
    (chunkingRange.DoReadInterleaved failingReader [.Cancel (.error 9)] [] []).2.cancel_status_ =
      .error 9 ∧
    (chunkingRange.DoReadInterleaved failingReader [.Cancel (.error 9)] [] []).2.GetNext =
      some (.error 9, none,
        (chunkingRange.DoReadInterleaved failingReader [.Cancel (.error 9)] [] []).2) := by
  decide

/-- C5, amended. Let `DoRead` get a buffer `b` on range `s` (so `s` is not
cancelled), let other threads make the calls `ops1`, `ops2`, `ops3` while `lock_`
is released, and let the transfer end with a non-OK status `e`, from `Open` or
from `ReadFromPos`, leaving the descriptor as `b2` and the range as `t`. Then
`DoRead` returns CANCELLED; `b2` is freed (one `Free` call, which clears its
pointer, and one `FreeBuffer` call when the range uses pool buffers) and is not
enqueued; every buffer of the two queues is freed likewise; the range ends
cancelled, with no read in flight and both queues empty. `cancel_status_` is `e`
when the range was not cancelled meanwhile, as when no call interleaves, and the
status of the earlier cancellation otherwise. After any further sequence of
calls `GetNext` returns that status with no buffer and `DoRead` returns CANCELLED
leaving the range untouched, so without any call to the file reader. -/
theorem C5_failed_transfer_cancels_range (fr : FileReaderAnswer)
    (ops1 ops2 ops3 : List Op) (s s1 t : ScanRange) (b b2 : BufferDescriptor) (e : Status)
    (hacq : s.doReadAcquire = (.inr b, s1))
    (htr : s1.doReadTransferInterleaved fr ops1 ops2 ops3 b = (e, b2, t))
    (he : e.ok = false) :
    s.cancel_status_.ok = true ∧
    (s.DoReadInterleaved fr ops1 ops2 ops3).1 = .CANCELLED ∧
    (s.DoReadInterleaved fr ops1 ops2 ops3).2.cancel_status_ =
      (if t.cancel_status_.ok then e else t.cancel_status_) ∧
    (s.DoReadInterleaved fr ops1 ops2 ops3).2.cancel_status_.ok = false ∧
    (ops1 = [] → ops2 = [] → ops3 = [] →
      s.DoReadInterleaved fr ops1 ops2 ops3 = s.DoRead fr ∧
      (s.DoRead fr).2.cancel_status_ = e) ∧
    (s.DoReadInterleaved fr ops1 ops2 ops3).2.read_in_flight_ = false ∧
    (s.DoReadInterleaved fr ops1 ops2 ops3).2.ready_buffers_ = [] ∧
    (s.DoReadInterleaved fr ops1 ops2 ops3).2.unused_iomgr_buffers_ = [] ∧
    (s.DoReadInterleaved fr ops1 ops2 ops3).2.log.enqueued = t.log.enqueued ∧
    (s.DoReadInterleaved fr ops1 ops2 ops3).2.log.freed =
      t.log.freed ++ [b2] ++ t.ready_buffers_ ++ t.unused_iomgr_buffers_.reverse ∧
    (Free b2 t).1.buffer_ = none ∧
    (t.external_buffer_tag_ = .NO_BUFFER →
      (s.DoReadInterleaved fr ops1 ops2 ops3).2.log.pool_free_calls =
        t.log.pool_free_calls ++ [b2] ++ t.ready_buffers_ ++
          t.unused_iomgr_buffers_.reverse) ∧
    (t.external_buffer_tag_ = .CLIENT_BUFFER →
      (s.DoReadInterleaved fr ops1 ops2 ops3).2.log.pool_free_calls = t.log.pool_free_calls) ∧
    ∀ ops : List Op,
      (run ops (s.DoReadInterleaved fr ops1 ops2 ops3).2).GetNext =
        some ((s.DoReadInterleaved fr ops1 ops2 ops3).2.cancel_status_, none,
          run ops (s.DoReadInterleaved fr ops1 ops2 ops3).2) ∧
      ∀ fr2 : FileReaderAnswer,
        (run ops (s.DoReadInterleaved fr ops1 ops2 ops3).2).DoRead fr2 =
          (.CANCELLED, run ops (s.DoReadInterleaved fr ops1 ops2 ops3).2) := by
  obtain ⟨hc, -, -⟩ := doReadAcquire_inr s s1 b hacq
  have hs1 : s1 = s.doReadAcquire.2 := by rw [hacq]
  have hd : s.DoReadInterleaved fr ops1 ops2 ops3 = t.doReadFinish e b2 := by
    unfold DoReadInterleaved
    rw [hacq]
    simp only [htr]
  have hf := doReadFinish_failed e b2 t he
  have hst : (s.DoReadInterleaved fr ops1 ops2 ops3).2.cancel_status_ =
      (if t.cancel_status_.ok then e else t.cancel_status_) := by
    rw [hd, hf]; simp
  have hcn : (s.DoReadInterleaved fr ops1 ops2 ops3).2.cancel_status_.ok = false := by
    rw [hst]
    by_cases h : t.cancel_status_.ok
    · simp [h, he]
    · simp [h]
  have hrf : (s.DoReadInterleaved fr ops1 ops2 ops3).2.read_in_flight_ = false := by
    rw [hd, hf]; simp
  refine ⟨hc, by rw [hd, hf], hst, hcn, ?_, hrf, by rw [hd, hf]; simp, by rw [hd, hf]; simp,
    by rw [hd, hf]; simp, by rw [hd, hf]; simp, rfl, ?_, ?_, ?_⟩
  · intro h1 h2 h3
    subst h1 h2 h3
    have hnil := DoReadInterleaved_nil fr s
    refine ⟨hnil, ?_⟩
    rw [← hnil, hst]
    have ht : t = (doReadTransfer fr b s1).2.2 := by
      have := htr
      unfold doReadTransferInterleaved at this
      simp only [run] at this
      rw [doReadTransfer_eq]
      split at this <;> rename_i ho <;> simp only [ho, if_true, if_false] <;>
        simp only [Prod.mk.injEq] at this
      · exact this.2.2.symm
      · exact this.2.2.symm
    have : t.cancel_status_.ok = true := by
      rw [ht]; simp [hs1, hc]
    simp [this]
  · intro hn
    rw [hd, doReadFinish_failed_pool e b2 t he (by simp [hn])]
    simp [hn]
  · intro hn
    rw [hd, doReadFinish_failed_pool e b2 t he (by simp [hn])]
    simp [hn]
  · intro ops
    have h1 := (run_of_cancelled ops _ hcn).1
    have h2 := run_read_in_flight_of_cancelled ops _ hcn hrf
    have h3 : (run ops (s.DoReadInterleaved fr ops1 ops2 ops3).2).cancel_status_.ok = false := by
      rw [h1]; exact hcn
    refine ⟨?_, fun fr2 => DoRead_of_cancelled fr2 _ h3⟩
    rw [GetNext_of_finished _ h2 (Or.inl h3), h1]

/-- A concrete run on which the hypotheses of the theorem above hold. -/
theorem C5_failed_transfer_cancels_range_witness :
    chunkingRange.doReadAcquire =
      (.inr (poolBuffer 3 128000), chunkingRange.doReadAcquire.2) ∧
    chunkingRange.doReadAcquire.2.doReadTransferInterleaved failingReader [] [] []
        (poolBuffer 3 128000) =
      (.error 5, poolBuffer 3 128000,
        (chunkingRange.doReadAcquire.2.doReadTransferInterleaved failingReader [] [] []
          (poolBuffer 3 128000)).2.2) ∧
    (Status.error 5).ok = false ∧
    (chunkingRange.DoRead failingReader).1 = .CANCELLED ∧
    (chunkingRange.DoRead failingReader).2.cancel_status_ = .error 5 ∧
    (chunkingRange.DoReadInterleaved failingReader [] [] []).2.log.pool_free_calls.length = 3 ∧
    (chunkingRange.DoReadInterleaved failingReader [] [] []).2.GetNext =
      some ((chunkingRange.DoReadInterleaved failingReader [] [] []).2.cancel_status_, none,
        (chunkingRange.DoReadInterleaved failingReader [] [] []).2) :=
  have h := C5_failed_transfer_cancels_range failingReader [] [] [] chunkingRange
    chunkingRange.doReadAcquire.2
    (chunkingRange.doReadAcquire.2.doReadTransferInterleaved failingReader [] [] []
      (poolBuffer 3 128000)).2.2
    (poolBuffer 3 128000) (poolBuffer 3 128000) (.error 5) (by decide) (by decide) (by decide)
  ⟨by decide, by decide, by decide,
    (h.2.2.2.2.1 rfl rfl rfl).1 ▸ h.2.1,
    (h.2.2.2.2.1 rfl rfl rfl).2,
    by rw [h.2.2.2.2.2.2.2.2.2.2.2.1 (by decide)]; decide,
    (h.2.2.2.2.2.2.2.2.2.2.2.2.2 []).1⟩

namespace ScanRange

end ScanRange

/-- A call either leaves `eosr_queued_` and the enqueue log alone, or it reached
`EnqueueReadyBuffer`, which appended one buffer and copied its `eosr` flag. -/
theorem apply_enqueue_effect (op : Op) (s : ScanRange) :
    ((op.apply s).eosr_queued_ = s.eosr_queued_ ∧
      (op.apply s).log.enqueued = s.log.enqueued) ∨
    (op.callsEnqueue s = true ∧ ∃ b : BufferDescriptor,
      (op.apply s).log.enqueued = s.log.enqueued ++ [b] ∧
      (op.apply s).eosr_queued_ = b.eosr_) := by
  cases op with
  | EnqueueReadyBuffer b =>
    by_cases hc : s.cancel_status_.ok
    · exact Or.inr ⟨by simp [Op.callsEnqueue], b, by simp [Op.apply, hc], by simp [Op.apply, hc]⟩
    · exact Or.inl ⟨by simp [Op.apply, hc], by simp [Op.apply, hc]⟩
  | GetNext =>
    left
    cases hr : s.ready_buffers_ with
    | nil => rw [GetNext_apply_of_no_buffer s (Or.inr hr)]; exact ⟨rfl, rfl⟩
    | cons front rest =>
      by_cases hc : s.cancel_status_.ok
      · obtain ⟨n, hn⟩ := GetNext_front s front rest hc hr
        simp [Op.apply, hn]
      · rw [GetNext_apply_of_no_buffer s (Or.inl (by simpa using hc))]; exact ⟨rfl, rfl⟩
  | ReturnBuffer b rc => left; simp [Op.apply]
  | AddUnusedBuffers bs r rc => left; simp [Op.apply]
  | GetUnusedBuffer =>
    left
    obtain ⟨u, ub, hu⟩ := GetUnusedBuffer_eq s
    simp [Op.apply, hu]
  | DoRead fr =>
    cases hacq : s.doReadAcquire with
    | mk r s1 =>
      have hs1 : s1 = s.doReadAcquire.2 := by rw [hacq]
      cases r with
      | inl outcome =>
        left
        have hd : s.DoRead fr = (outcome, s1) := by unfold DoRead; rw [hacq]
        simp [Op.apply, hd, hs1]
      | inr b =>
        obtain ⟨hc, -, -⟩ := doReadAcquire_inr s s1 b hacq
        by_cases hok : (doReadTransfer fr b s1).1.ok
        · right
          refine ⟨by simp [Op.callsEnqueue, hacq, hok], (doReadTransfer fr b s1).2.1, ?_⟩
          simp only [Op.apply]
          unfold DoRead
          rw [hacq]
          simp only [hok]
          cases hq : EnqueueReadyBuffer (doReadTransfer fr b s1).2.1 (doReadTransfer fr b s1).2.2 with
          | mk ok s3 =>
            have h3 : s3 = (EnqueueReadyBuffer (doReadTransfer fr b s1).2.1
                (doReadTransfer fr b s1).2.2).2 := by rw [hq]
            have h4 : ok = (EnqueueReadyBuffer (doReadTransfer fr b s1).2.1
                (doReadTransfer fr b s1).2.2).1 := by rw [hq]
            simp only [EnqueueReadyBuffer_fst, doReadTransfer_frame] at h4
            rw [hs1] at h4
            simp only [doReadAcquire_frame, hc] at h4
            subst h4
            simp only [Bool.not_true, Bool.false_eq_true, if_false]
            split <;> simp [h3, hs1, hc]
        · left
          simp only [Op.apply]
          unfold DoRead
          rw [hacq]
          simp only [hok]
          simp [hs1]
  | SetBlockedOnBuffer => left; simp [Op.apply, SetBlockedOnBuffer]
  | CleanUpBuffers bs => left; simp [Op.apply]
  | CleanUpUnusedBuffers => left; simp [Op.apply]
  | Cancel status => left; simp [Op.apply]
  | CancelInternal status e => left; simp [Op.apply]
  | ReadFromCache os c =>
    simp only [Op.apply, Op.callsEnqueue]
    unfold ReadFromCache
    by_cases ho : os.ok
    · by_cases hf : s.fs_.isNone
      · left; simp [ho, hf]
      · by_cases hc : s.cancel_status_.ok
        · cases c with
          | none =>
            by_cases ht : s.external_buffer_tag_ = .CACHED_BUFFER
            · by_cases hl : toInt32 s.file_reader_.bytes_read_ < s.len_
              · left; simp [ho, hf, hc, ht, BytesRead, hl]
              · right; simp [ho, hf, hc, ht, BytesRead, hl]
            · left; simp [ho, hf, hc, ht]
          | some r =>
            obtain ⟨buffer, cached_len⟩ := r
            by_cases hl : toInt32 cached_len < s.len_
            · left; simp [ho, hf, hc, BytesRead, hl]
            · right
              simp [ho, hf, hc, BytesRead, hl]
        · left; simp [ho, hf, hc]
    · left; simp [ho]

/-- One call keeps the invariant on the buffers `new` enqueued since the start:
`eosr_queued_` tells whether the last of them has `eosr`, and none before the last
has it. -/
theorem enqueue_invariant_step (op : Op) (s : ScanRange) (before new : List BufferDescriptor)
    (hpre : op.callsEnqueue s = true → s.eosr_queued_ = false)
    (hlog : s.log.enqueued = before ++ new)
    (hq : s.eosr_queued_ = true ↔ ∃ b, new.getLast? = some b ∧ b.eosr_ = true)
    (hd : ∀ b ∈ new.dropLast, b.eosr_ = false) :
    ∃ new2 : List BufferDescriptor,
      (op.apply s).log.enqueued = before ++ new2 ∧
      ((op.apply s).eosr_queued_ = true ↔ ∃ b, new2.getLast? = some b ∧ b.eosr_ = true) ∧
      (∀ b ∈ new2.dropLast, b.eosr_ = false) := by
  rcases apply_enqueue_effect op s with ⟨h1, h2⟩ | ⟨hcall, b, h1, h2⟩
  · exact ⟨new, by rw [h2, hlog], by rw [h1]; exact hq, hd⟩
  · have hfalse := hpre hcall
    refine ⟨new ++ [b], by rw [h1, hlog, List.append_assoc], ?_, ?_⟩
    · rw [h2]; simp
    · intro x hx
      rw [List.dropLast_concat] at hx
      rcases List.eq_nil_or_concat new with hn | ⟨l, y, hl⟩
      · rw [hn] at hx; simp at hx
      · rw [List.concat_eq_append] at hl
        rw [hl] at hx
        rcases List.mem_append.mp hx with hx | hx
        · apply hd; rw [hl, List.dropLast_concat]; exact hx
        · have hxy : x = y := by simpa using hx
          subst hxy
          by_contra hne
          have : s.eosr_queued_ = true :=
            hq.mpr ⟨x, by rw [hl]; simp, by simpa using hne⟩
          rw [hfalse] at this
          exact absurd this (by simp)

/-- C7. Start from the state left by `InitInternal` and run any sequence of
calls in which every `EnqueueReadyBuffer` call (direct, from `DoRead` or from
`ReadFromCache`) meets its precondition `!eosr_queued_`. Let `new` be the buffers
enqueued since the start. Then `eosr_queued_` is true exactly when the last
buffer of `new` has `eosr` set, and no buffer of `new` before the last has `eosr`
set: at most one enqueued buffer carries the flag and nothing is enqueued after
it. -/
theorem C7_only_last_enqueued_buffer_has_eosr (io_mgr reader : Nat) (s0 : ScanRange)
    (ops : List Op)
    (hpre : respectsEnqueuePrecondition ops (InitInternal io_mgr reader s0)) :
    ∃ new : List BufferDescriptor,
      (run ops (InitInternal io_mgr reader s0)).log.enqueued =
        (InitInternal io_mgr reader s0).log.enqueued ++ new ∧
      ((run ops (InitInternal io_mgr reader s0)).eosr_queued_ = true ↔
        ∃ b, new.getLast? = some b ∧ b.eosr_ = true) ∧
      (∀ b ∈ new.dropLast, b.eosr_ = false) := by
  have main : ∀ (ops : List Op) (s : ScanRange) (before new : List BufferDescriptor),
      respectsEnqueuePrecondition ops s → s.log.enqueued = before ++ new →
      (s.eosr_queued_ = true ↔ ∃ b, new.getLast? = some b ∧ b.eosr_ = true) →
      (∀ b ∈ new.dropLast, b.eosr_ = false) →
      ∃ new2 : List BufferDescriptor,
        (run ops s).log.enqueued = before ++ new2 ∧
        ((run ops s).eosr_queued_ = true ↔ ∃ b, new2.getLast? = some b ∧ b.eosr_ = true) ∧
        (∀ b ∈ new2.dropLast, b.eosr_ = false) := by
    intro ops
    induction ops with
    | nil => intro s before new _ hlog hq hd; exact ⟨new, hlog, hq, hd⟩
    | cons op rest ih =>
      intro s before new hpre hlog hq hd
      obtain ⟨new1, h1, h2, h3⟩ := enqueue_invariant_step op s before new hpre.1 hlog hq hd
      exact ih (op.apply s) before new1 hpre.2 h1 h2 h3
  exact main ops _ _ [] hpre (by simp) (by simp [InitInternal]) (by simp)

/-- A concrete run on which the hypotheses of the theorem above hold. -/
theorem C7_only_last_enqueued_buffer_has_eosr_witness :
    respectsEnqueuePrecondition sampleReadCalls (InitInternal 1 1 { len_ := 300000 }) ∧
    (run sampleReadCalls (InitInternal 1 1 { len_ := 300000 })).log.enqueued.length = 3 ∧
    ∃ new : List BufferDescriptor,
      (run sampleReadCalls (InitInternal 1 1 { len_ := 300000 })).log.enqueued =
        (InitInternal 1 1 { len_ := 300000 }).log.enqueued ++ new ∧
      ((run sampleReadCalls (InitInternal 1 1 { len_ := 300000 })).eosr_queued_ = true ↔
        ∃ b, new.getLast? = some b ∧ b.eosr_ = true) ∧
      (∀ b ∈ new.dropLast, b.eosr_ = false) :=
  have hpre : respectsEnqueuePrecondition sampleReadCalls
      (InitInternal 1 1 { len_ := 300000 }) := by
    simp only [sampleReadCalls, respectsEnqueuePrecondition]
    decide
  ⟨hpre, by decide,
    C7_only_last_enqueued_buffer_has_eosr 1 1 { len_ := 300000 } sampleReadCalls hpre⟩

/-- C8. Chunking scenario: a range of length 300,000 with three pool buffers of
128,000 bytes and a file reader that fills every request. The three `DoRead`
calls return SUCCESS_NO_EOSR, SUCCESS_NO_EOSR, SUCCESS_EOSR; they request
128,000, 128,000 and 44,000 bytes at offsets 0, 128,000 and 256,000; the three
buffers queued hold those lengths at those scan-range offsets and only the third
has `eosr`. Three `GetNext` calls return these buffers (entries 0, 1, 2 of the ready
queue) in that order with OK, and a fourth returns OK with no buffer. -/
theorem C8_chunking_scenario :
    ((chunkingAfterReads 0).DoRead (fullReader 300000 0)).1 = .SUCCESS_NO_EOSR ∧
    ((chunkingAfterReads 1).DoRead (fullReader 300000 0)).1 = .SUCCESS_NO_EOSR ∧
    ((chunkingAfterReads 2).DoRead (fullReader 300000 0)).1 = .SUCCESS_EOSR ∧
    (chunkingAfterReads 3).log.read_requests =
      [(0, 128000), (128000, 128000), (256000, 44000)] ∧
    (chunkingAfterReads 3).ready_buffers_.map
        (fun b => (b.len_, b.scan_range_offset_, b.eosr_)) =
      [(128000, 0, false), (128000, 128000, false), (44000, 256000, true)] ∧
    (chunkingAfterGets 0).GetNext =
      some (.OK, (chunkingAfterReads 3).ready_buffers_[0]?, chunkingAfterGets 1) ∧
    (chunkingAfterGets 1).GetNext =
      some (.OK, (chunkingAfterReads 3).ready_buffers_[1]?, chunkingAfterGets 2) ∧
    (chunkingAfterGets 2).GetNext =
      some (.OK, (chunkingAfterReads 3).ready_buffers_[2]?, chunkingAfterGets 3) ∧
    (chunkingAfterGets 3).GetNext = some (.OK, none, chunkingAfterGets 3) := by
  refine ⟨by decide, by decide, by decide, by decide, by decide, by decide, by decide,
    by decide, by decide⟩

namespace ScanRange

end ScanRange

namespace ScanRange

theorem addUnusedLoop_append (pre post : List BufferDescriptor) :
    ∀ st : ScanRange × Bool,
      addUnusedLoop (pre ++ post) st = addUnusedLoop post (addUnusedLoop pre st) := by
  induction pre with
  | nil => intro st; rfl
  | cons b rest ih => intro st; simp [addUnusedLoop, ih]

theorem shouldFreeUnused_iff (s : ScanRange) :
    s.shouldFreeUnused = true ↔
      (s.external_buffer_tag_ ≠ .NO_BUFFER ∨ s.cancel_status_.ok = false ∨
        s.eosr_queued_ = true ∨
        s.unused_iomgr_buffer_bytes_ ≥ s.len_ - s.iomgr_buffer_cumulative_bytes_used_) := by
  simp [shouldFreeUnused, or_assoc]

end ScanRange

/-- C10. The loop body of `AddUnusedBuffers`, run on buffer `b` in any state `s`
left by the preceding buffers, frees `b` and leaves `unused_iomgr_buffers_` and
`unused_iomgr_buffer_bytes_` alone if and only if `external_buffer_tag_` is not
NO_BUFFER, or the range is cancelled, or `eosr_queued_`, or
`unused_iomgr_buffer_bytes_ >= len_ - iomgr_buffer_cumulative_bytes_used_`;
otherwise it frees nothing, appends `b` at the back of `unused_iomgr_buffers_` and
adds `b.buffer_len` to `unused_iomgr_buffer_bytes_`. The loop takes the batch in
order, each buffer against the state left by the ones before it, and
`AddUnusedBuffers` ends with the queue, byte count and `Free` calls of that loop.
With `returned = true` it lowers `num_buffers_in_reader_` by the batch size (and
leaves it alone otherwise). -/
theorem C10_per_buffer_keep_or_free (s s0 : ScanRange) (u : Bool) (b : BufferDescriptor)
    (before after batch : List BufferDescriptor) (returned reader_cancelled : Bool) :
    (s.shouldFreeUnused = true ↔
      (s.external_buffer_tag_ ≠ .NO_BUFFER ∨ s.cancel_status_.ok = false ∨
        s.eosr_queued_ = true ∨
        s.unused_iomgr_buffer_bytes_ ≥ s.len_ - s.iomgr_buffer_cumulative_bytes_used_)) ∧
    ((addUnusedBuffer b (s, u)).1.log.freed = s.log.freed ++ [b] ↔
      s.shouldFreeUnused = true) ∧
    (s.shouldFreeUnused = true →
      (addUnusedBuffer b (s, u)).1.unused_iomgr_buffers_ = s.unused_iomgr_buffers_ ∧
      (addUnusedBuffer b (s, u)).1.unused_iomgr_buffer_bytes_ = s.unused_iomgr_buffer_bytes_) ∧
    (s.shouldFreeUnused = false →
      (addUnusedBuffer b (s, u)).1.log.freed = s.log.freed ∧
      (addUnusedBuffer b (s, u)).1.unused_iomgr_buffers_ = s.unused_iomgr_buffers_ ++ [b] ∧
      (addUnusedBuffer b (s, u)).1.unused_iomgr_buffer_bytes_ =
        s.unused_iomgr_buffer_bytes_ + b.buffer_len_) ∧
    addUnusedLoop (before ++ b :: after) (s, u) =
      addUnusedLoop after (addUnusedBuffer b (addUnusedLoop before (s, u))) ∧
    (s0.AddUnusedBuffers batch returned reader_cancelled).unused_iomgr_buffers_ =
      (addUnusedLocked batch returned s0).1.unused_iomgr_buffers_ ∧
    (s0.AddUnusedBuffers batch returned reader_cancelled).unused_iomgr_buffer_bytes_ =
      (addUnusedLocked batch returned s0).1.unused_iomgr_buffer_bytes_ ∧
    (s0.AddUnusedBuffers batch returned reader_cancelled).log.freed =
      (addUnusedLocked batch returned s0).1.log.freed ∧
    addUnusedLocked batch returned s0 =
      addUnusedLoop batch
        (if returned then
          { s0 with num_buffers_in_reader_ := s0.num_buffers_in_reader_ - batch.length }
         else s0, false) ∧
    (s0.AddUnusedBuffers batch true reader_cancelled).num_buffers_in_reader_ =
      s0.num_buffers_in_reader_ - batch.length ∧
    (s0.AddUnusedBuffers batch false reader_cancelled).num_buffers_in_reader_ =
      s0.num_buffers_in_reader_ := by
  have hfinal : ∀ f : ScanRange → List BufferDescriptor,
      (∀ (t : ScanRange) (n : Nat), f { t with log := { t.log with schedule_calls := n } } = f t) →
      f (s0.AddUnusedBuffers batch returned reader_cancelled) =
        f (addUnusedLocked batch returned s0).1 := by
    intro f hf
    unfold AddUnusedBuffers
    dsimp only
    split
    · split
      · rfl
      · exact hf _ _
    · rfl
  refine ⟨shouldFreeUnused_iff s, ?_, ?_, ?_, ?_, hfinal (·.unused_iomgr_buffers_) (fun _ _ => rfl),
    ?_, hfinal (·.log.freed) (fun _ _ => rfl), rfl, by simp, by simp⟩
  · by_cases hf : s.shouldFreeUnused <;> simp [hf]
  · intro hf; simp [hf]
  · intro hf; simp [hf]
  · rw [addUnusedLoop_append, addUnusedLoop]
  · unfold AddUnusedBuffers
    dsimp only
    split
    · split <;> rfl
    · rfl

/-- A concrete run on which the hypotheses of the theorem above hold. -/
theorem C10_per_buffer_keep_or_free_witness :
    chunkingRange.shouldFreeUnused = true ∧
    (InitInternal 1 1 { len_ := 300000 }).shouldFreeUnused = false ∧
    (addUnusedBuffer (poolBuffer 4 128000) (chunkingRange, false)).1.unused_iomgr_buffers_ =
      chunkingRange.unused_iomgr_buffers_ ∧
    (addUnusedBuffer (poolBuffer 4 128000) (chunkingRange, false)).1.log.freed =
      chunkingRange.log.freed ++ [poolBuffer 4 128000] ∧
    (addUnusedBuffer (poolBuffer 1 128000)
        (InitInternal 1 1 { len_ := 300000 }, false)).1.unused_iomgr_buffers_ =
      (InitInternal 1 1 { len_ := 300000 }).unused_iomgr_buffers_ ++ [poolBuffer 1 128000] ∧
    (addUnusedBuffer (poolBuffer 1 128000)
        (InitInternal 1 1 { len_ := 300000 }, false)).1.unused_iomgr_buffer_bytes_ =
      (InitInternal 1 1 { len_ := 300000 }).unused_iomgr_buffer_bytes_ + 128000 :=
  have h1 := C10_per_buffer_keep_or_free chunkingRange chunkingRange false
    (poolBuffer 4 128000) [] [] [] true false
  have h2 := C10_per_buffer_keep_or_free (InitInternal 1 1 { len_ := 300000 }) chunkingRange
    false (poolBuffer 1 128000) [] [] [] true false
  ⟨by decide, by decide, (h1.2.2.1 (by decide)).1, h1.2.1.mpr (by decide),
    (h2.2.2.2.1 (by decide)).2.1, (h2.2.2.2.1 (by decide)).2.2⟩

namespace ScanRange

/-- The two fall-back paths of `ReadFromCache` (lines 475-481 and 486-493), on a
range that meets the `DCHECK` of line 471: a lookup that finds no region and one
that finds a region holding fewer than `len_` bytes both return OK with
`*read_succeeded = false`, and leave the same range but for the count that the
file reader reports, which `CachedFile` has set to the size of the region. -/
theorem ReadFromCache_partial_eq (open_status : Status) (buffer : Nat) (cached_len : Int)
    (s : ScanRange) (ho : open_status.ok = true) (hfs : s.fs_.isSome = true)
    (hc : s.cancel_status_.ok = true) (ht : s.external_buffer_tag_ = .NO_BUFFER)
    (hl : toInt32 cached_len < s.len_) :
    s.ReadFromCache open_status none =
      (.OK, false,
        { s with
          file_reader_ := { s.file_reader_ with is_open := false }
          log := { s.log with open_calls := s.log.open_calls + 1 } }) ∧
    s.ReadFromCache open_status (some (buffer, cached_len)) =
      (.OK, false,
        { s with
          file_reader_ := { bytes_read_ := cached_len, is_open := false }
          log := { s.log with open_calls := s.log.open_calls + 1 } }) := by
  have hfs2 : s.fs_.isNone = false := by
    cases h : s.fs_ <;> simp_all
  obtain ⟨fs, file, mtime, meta, len, offset, disk, tc, el, io, rd, tag, cb, ready, unused, ub,
    cum, nb, rif, eq, bl, cs, fr, lg⟩ := s
  dsimp only at ht hc hfs2 hl
  subst ht
  constructor
  · unfold ReadFromCache
    simp [ho, hfs2, hc, closeFileReader]
  · unfold ReadFromCache
    simp [ho, hfs2, hc, closeFileReader, BytesRead, hl]

/-- A range that was read through the cache is no longer tagged CACHED_BUFFER once
the consumer has returned the cached buffer: `CleanUpBuffer` then closes the file
reader (lines 257-262), as the destructor asserts (line 380). -/
theorem tag_released_when_cached_buffer_returned :
    afterCacheHit.external_buffer_tag_ = .CACHED_BUFFER ∧
    afterCacheHit.ready_buffers_ = [cachedDescriptor] ∧
    (run [.GetNext, .ReturnBuffer cachedDescriptor false]
      afterCacheHit).external_buffer_tag_ = .NO_BUFFER ∧
    (run [.GetNext, .ReturnBuffer cachedDescriptor false]
      afterCacheHit).file_reader_.is_open = false ∧
    (run [.GetNext, .ReturnBuffer cachedDescriptor false]
      afterCacheHit).log.freed = [cachedDescriptor] ∧
    (run [.GetNext, .ReturnBuffer cachedDescriptor false]
      afterCacheHit).log.pool_free_calls = [] := by
  decide

end ScanRange

namespace ScanRange

end ScanRange

namespace ScanRange

/-- After `CancelInternal` the file reader is closed unless the range is still
tagged as reading through a cached buffer. -/
theorem CancelInternal_is_open (status : Status) (read_error : Bool) (s : ScanRange)
    (ht : (CancelInternal status read_error s).external_buffer_tag_ ≠ .CACHED_BUFFER) :
    (CancelInternal status read_error s).file_reader_.is_open = false := by
  obtain ⟨pf, o, tg, -, c, h⟩ := CancelInternal_eq status read_error s
  rw [h] at ht ⊢
  exact c ht

/-- A cancelled range with both queues empty and its reader closed (or kept open
for a cached buffer) is left as it is by `CancelInternal` without `read_error`. -/
theorem CancelInternal_of_cancelled_drained (status : Status) (s : ScanRange)
    (hc : s.cancel_status_.ok = false) (hr : s.ready_buffers_ = [])
    (hu : s.unused_iomgr_buffers_ = [])
    (ho : s.external_buffer_tag_ ≠ .CACHED_BUFFER → s.file_reader_.is_open = false) :
    CancelInternal status false s = s := by
  unfold CancelInternal CleanUpUnusedBuffers
  simp only [hc, Bool.false_eq_true, if_false, hr, cleanUpReadyLoop, hu, List.length_nil,
    cleanUpUnusedLoop]
  by_cases ht : s.external_buffer_tag_ = .CACHED_BUFFER
  · simp [ht]
  · have := ho ht
    obtain ⟨⟩ := s
    rename_i fr lg
    obtain ⟨br, op⟩ := fr
    simp_all [closeFileReader]

/-- The call `Cancel` on a started range that is already cancelled and drained,
with no read in flight: only `RemoveActiveScanRange` is called again. -/
theorem Cancel_of_cancelled_drained (status : Status) (s : ScanRange)
    (hn : s.io_mgr_.isNone = false) (hc : s.cancel_status_.ok = false)
    (hr : s.ready_buffers_ = []) (hu : s.unused_iomgr_buffers_ = [])
    (hf : s.read_in_flight_ = false)
    (ho : s.external_buffer_tag_ ≠ .CACHED_BUFFER → s.file_reader_.is_open = false) :
    Cancel status s =
      { s with log := { s.log with remove_active_calls := s.log.remove_active_calls + 1 } } := by
  unfold Cancel
  simp only [hn, Bool.false_eq_true, if_false]
  rw [CancelInternal_of_cancelled_drained status s hc hr hu ho]
  simp [hf]

end ScanRange

/-- C13. On a started range (`io_mgr_` set) with no read in flight, `Cancel r1`
followed by `Cancel r2` (`r1` non-OK, `r2` any status) leaves the range exactly as
`Cancel r1` alone does, in every member: status, both queues, byte counters, flags and the
file reader. The only trace of the second call is one more
`RemoveActiveScanRange` on the request context. `Cancel` on a range that was
never started (`io_mgr_` null) changes nothing at all. -/
theorem C13_cancel_is_idempotent (s : ScanRange) (r1 r2 : Status)
    (hio : s.io_mgr_.isSome = true) (hf : s.read_in_flight_ = false)
    (h1 : r1.ok = false) :
    Cancel r2 (Cancel r1 s) =
      { Cancel r1 s with
        log := { (Cancel r1 s).log with
          remove_active_calls := (Cancel r1 s).log.remove_active_calls + 1 } } ∧
    (Cancel r2 (Cancel r1 s)).cancel_status_ = (Cancel r1 s).cancel_status_ ∧
    (Cancel r2 (Cancel r1 s)).ready_buffers_ = (Cancel r1 s).ready_buffers_ ∧
    (Cancel r2 (Cancel r1 s)).unused_iomgr_buffers_ = (Cancel r1 s).unused_iomgr_buffers_ ∧
    (Cancel r2 (Cancel r1 s)).unused_iomgr_buffer_bytes_ =
      (Cancel r1 s).unused_iomgr_buffer_bytes_ ∧
    (Cancel r2 (Cancel r1 s)).log.freed = (Cancel r1 s).log.freed ∧
    (∀ (t : ScanRange) (r : Status), t.io_mgr_ = none → Cancel r t = t) := by
  have hn : s.io_mgr_.isNone = false := by
    cases h : s.io_mgr_ <;> simp_all
  have hc : (Cancel r1 s).cancel_status_.ok = false := by
    by_cases h : s.cancel_status_.ok <;> simp [h, hn, h1]
  have hr : (Cancel r1 s).ready_buffers_ = [] := by simp [hn]
  have hu : (Cancel r1 s).unused_iomgr_buffers_ = [] := by simp [hn]
  have hf1 : (Cancel r1 s).read_in_flight_ = false := by simp [hf]
  have hn1 : (Cancel r1 s).io_mgr_.isNone = false := by simp [hn]
  have ho : (Cancel r1 s).external_buffer_tag_ ≠ .CACHED_BUFFER →
      (Cancel r1 s).file_reader_.is_open = false := by
    have e1 : (Cancel r1 s).external_buffer_tag_ =
        (CancelInternal r1 false s).external_buffer_tag_ := by
      unfold Cancel
      simp only [hn, Bool.false_eq_true, if_false]
      split <;> rfl
    have e2 : (Cancel r1 s).file_reader_ = (CancelInternal r1 false s).file_reader_ := by
      unfold Cancel
      simp only [hn, Bool.false_eq_true, if_false]
      split <;> rfl
    intro ht
    rw [e2]
    exact CancelInternal_is_open r1 false s (by rw [← e1]; exact ht)
  have key := Cancel_of_cancelled_drained r2 (Cancel r1 s) hn1 hc hr hu hf1 ho
  refine ⟨key, by rw [key], by rw [key], by rw [key], by rw [key], by rw [key], ?_⟩
  intro t r ht
  simp [Cancel, ht]

/-- A concrete run on which the hypotheses of the theorem above hold. -/
theorem C13_cancel_is_idempotent_witness :
    (chunkingAfterReads 2).io_mgr_.isSome = true ∧
    (chunkingAfterReads 2).read_in_flight_ = false ∧
    (Status.error 1).ok = false ∧
    (Cancel (.error 2) (Cancel (.error 1) (chunkingAfterReads 2))).cancel_status_ = .error 1 ∧
    (Cancel (.error 2) (Cancel (.error 1) (chunkingAfterReads 2))).ready_buffers_ =
      (Cancel (.error 1) (chunkingAfterReads 2)).ready_buffers_ :=
  have h := C13_cancel_is_idempotent (chunkingAfterReads 2) (.error 1) (.error 2)
    (by decide) (by decide) (by decide)
  ⟨by decide, by decide, by decide, h.2.1.trans (by decide), h.2.2.1⟩

namespace ScanRange

theorem Validate_ready_of_cancelled (s : ScanRange) (h : s.Validate = true)
    (hc : s.cancel_status_.ok = false) : s.ready_buffers_ = [] := by
  unfold Validate at h
  by_contra hne
  have he : s.ready_buffers_.isEmpty = false := by
    cases hl : s.ready_buffers_ with
    | nil => exact absurd hl hne
    | cons a l => rfl
  simp [hc, he] at h

end ScanRange

/-- A range cancelled by another thread while a successful transfer is under way:
`EnqueueReadyBuffer` then finds the range cancelled, frees the buffer instead of
enqueuing it, and `DoRead` returns CANCELLED (line 235). -/
theorem DoReadInterleaved_cancelled_during_read :
    chunkingRange.cancel_status_ = .OK ∧
    (chunkingRange.doReadAcquire.2.doReadTransferInterleaved (fullReader 300000 0) []
      [.Cancel (.error 9)] [] (poolBuffer 3 128000)).1 = .OK ∧
    (chunkingRange.DoReadInterleaved (fullReader 300000 0) [] [.Cancel (.error 9)] []).1 =
      .CANCELLED ∧
    (chunkingRange.DoReadInterleaved (fullReader 300000 0) []
      [.Cancel (.error 9)] []).2.cancel_status_ = .error 9 ∧
    (chunkingRange.DoReadInterleaved (fullReader 300000 0) []
      [.Cancel (.error 9)] []).2.ready_buffers_ = [] ∧
    (chunkingRange.DoReadInterleaved (fullReader 300000 0) []
      [.Cancel (.error 9)] []).2.log.enqueued = [] ∧
    (chunkingRange.DoReadInterleaved (fullReader 300000 0) []
      [.Cancel (.error 9)] []).2.log.pool_free_calls.length = 3 ∧
    (chunkingRange.DoReadInterleaved (fullReader 300000 0) []
      [.Cancel (.error 9)] []).2.read_in_flight_ = false := by
  decide

/-- C14. On a cancelled range, `EnqueueReadyBuffer` of a non-cached buffer
returns false and frees the buffer: it is handed to `CleanUpBuffer`, whose one
`Free` call clears the pointer of the descriptor and returns the buffer to the
pool through `FreeBuffer`, unless the range reads into the client buffer, which
is not pool memory. Nothing is enqueued, `ready_buffers_` is left as it was,
which is empty on a range that satisfies `Validate`, `eosr_queued_` is unchanged
and `read_in_flight_` is set to false. On a range that is not cancelled the call
returns true, appends the buffer at the back of `ready_buffers_` and sets
`eosr_queued_` to the buffer's `eosr` flag. -/
theorem C14_no_enqueue_on_cancelled_range (b : BufferDescriptor) (s : ScanRange) :
    (s.cancel_status_.ok = false → s.is_cached = false →
      (s.EnqueueReadyBuffer b).1 = false ∧
      (s.EnqueueReadyBuffer b).2 = CleanUpBuffer b { s with read_in_flight_ := false } ∧
      (s.EnqueueReadyBuffer b).2.log.freed = s.log.freed ++ [b] ∧
      (Free b { s with read_in_flight_ := false }).1.buffer_ = none ∧
      (s.EnqueueReadyBuffer b).2.log.pool_free_calls =
        (if s.is_client_buffer then s.log.pool_free_calls
          else s.log.pool_free_calls ++ [b]) ∧
      (s.EnqueueReadyBuffer b).2.log.enqueued = s.log.enqueued ∧
      (s.EnqueueReadyBuffer b).2.ready_buffers_ = s.ready_buffers_ ∧
      (s.Validate = true → (s.EnqueueReadyBuffer b).2.ready_buffers_ = []) ∧
      (s.EnqueueReadyBuffer b).2.eosr_queued_ = s.eosr_queued_ ∧
      (s.EnqueueReadyBuffer b).2.read_in_flight_ = false) ∧
    (s.cancel_status_.ok = true →
      (s.EnqueueReadyBuffer b).1 = true ∧
      (s.EnqueueReadyBuffer b).2.ready_buffers_ = s.ready_buffers_ ++ [b] ∧
      (s.EnqueueReadyBuffer b).2.eosr_queued_ = b.eosr_) := by
  constructor
  · intro hc hk
    have he : (s.EnqueueReadyBuffer b).2 = CleanUpBuffer b { s with read_in_flight_ := false } := by
      unfold EnqueueReadyBuffer
      simp [hk, hc]
    have hp : (s.EnqueueReadyBuffer b).2.log.pool_free_calls =
        (if s.is_client_buffer then s.log.pool_free_calls
          else s.log.pool_free_calls ++ [b]) := by
      rw [he]
      obtain ⟨pf, o, tg, c, h⟩ := CleanUpBuffer_eq b { s with read_in_flight_ := false }
      rw [h]
      have ht : s.external_buffer_tag_ ≠ .CACHED_BUFFER := by
        intro h2; simp [is_cached, h2] at hk
      obtain ⟨-, hpf⟩ := c ht
      have key : ∀ x : ExternalBufferTag, x ≠ .CACHED_BUFFER →
          ∀ A B : List BufferDescriptor,
            (if x = .NO_BUFFER then A else B) = (if (x == .CLIENT_BUFFER) = true then B else A) := by
        intro x hx A B
        cases x <;> simp_all
      simp only [hpf, is_client_buffer]
      exact key _ ht _ _
    refine ⟨by simp [hc], he, by simp [hc], rfl, hp, by simp [hc], by simp [hc], ?_,
      by simp [hc], by simp [hk]⟩
    intro hv
    simp [hc, Validate_ready_of_cancelled s hv hc]
  · intro hc
    simp [hc]

/-- A concrete run on which the hypotheses of the theorem above hold. -/
theorem C14_no_enqueue_on_cancelled_range_witness :
    (CancelInternal (.error 1) false chunkingRange).cancel_status_.ok = false ∧
    (CancelInternal (.error 1) false chunkingRange).is_cached = false ∧
    (CancelInternal (.error 1) false chunkingRange).Validate = true ∧
    ((CancelInternal (.error 1) false chunkingRange).EnqueueReadyBuffer
      (poolBuffer 4 1000)).1 = false ∧
    ((CancelInternal (.error 1) false chunkingRange).EnqueueReadyBuffer
      (poolBuffer 4 1000)).2.ready_buffers_ = [] ∧
    ((CancelInternal (.error 1) false chunkingRange).EnqueueReadyBuffer
      (poolBuffer 4 1000)).2.log.pool_free_calls =
      (CancelInternal (.error 1) false chunkingRange).log.pool_free_calls ++
        [poolBuffer 4 1000] ∧
    chunkingRange.cancel_status_.ok = true ∧
    (chunkingRange.EnqueueReadyBuffer (poolBuffer 4 1000)).1 = true :=
  have h := (C14_no_enqueue_on_cancelled_range (poolBuffer 4 1000)
    (CancelInternal (.error 1) false chunkingRange)).1 (by decide) (by decide)
  ⟨by decide, by decide, by decide, h.1, h.2.2.2.2.2.2.2.1 (by decide),
    h.2.2.2.2.1.trans (by decide), by decide,
    ((C14_no_enqueue_on_cancelled_range (poolBuffer 4 1000) chunkingRange).2 (by decide)).1⟩

/-- C15. On a cancelled range `DoRead` returns CANCELLED and leaves every member
of the range as it was. On a range that is not cancelled, uses no external buffer
and has no unused buffer, `DoRead` returns BLOCKED_ON_BUFFER and changes nothing
but `blocked_on_buffer_`, which it sets: no read is in flight afterwards if none
was before, and neither `Open` nor `ReadFromPos` has been called. -/
theorem C15_DoRead_early_exits (fr : FileReaderAnswer) (s : ScanRange) :
    (s.cancel_status_.ok = false → s.DoRead fr = (.CANCELLED, s)) ∧
    (s.cancel_status_.ok = true → s.external_buffer_tag_ = .NO_BUFFER →
      s.unused_iomgr_buffers_ = [] →
      s.DoRead fr = (.BLOCKED_ON_BUFFER, { s with blocked_on_buffer_ := true }) ∧
      (s.DoRead fr).2.read_in_flight_ = s.read_in_flight_ ∧
      (s.DoRead fr).2.log.open_calls = s.log.open_calls ∧
      (s.DoRead fr).2.log.read_requests = s.log.read_requests ∧
      (s.DoRead fr).2.file_reader_ = s.file_reader_) := by
  constructor
  · exact DoRead_of_cancelled fr s
  · intro hc ht hu
    have h : s.DoRead fr = (.BLOCKED_ON_BUFFER, { s with blocked_on_buffer_ := true }) := by
      simp [DoRead, doReadAcquire, hc, ht, GetUnusedBuffer_nil s hu]
    refine ⟨h, ?_, ?_, ?_, ?_⟩ <;> rw [h]

/-- A concrete run on which the hypotheses of the theorem above hold. -/
theorem C15_DoRead_early_exits_witness :
    (CancelInternal (.error 1) false chunkingRange).cancel_status_.ok = false ∧
    (CancelInternal (.error 1) false chunkingRange).DoRead (fullReader 300000 0) =
      (.CANCELLED, CancelInternal (.error 1) false chunkingRange) ∧
    (InitInternal 1 1 { len_ := 100 }).cancel_status_.ok = true ∧
    (InitInternal 1 1 { len_ := 100 }).external_buffer_tag_ = .NO_BUFFER ∧
    (InitInternal 1 1 { len_ := 100 }).unused_iomgr_buffers_ = [] ∧
    (InitInternal 1 1 { len_ := 100 }).DoRead (fullReader 100 0) =
      (.BLOCKED_ON_BUFFER, { InitInternal 1 1 { len_ := 100 } with blocked_on_buffer_ := true }) :=
  ⟨by decide,
    (C15_DoRead_early_exits (fullReader 300000 0)
      (CancelInternal (.error 1) false chunkingRange)).1 (by decide),
    by decide, by decide, by decide,
    ((C15_DoRead_early_exits (fullReader 100 0) (InitInternal 1 1 { len_ := 100 })).2
      (by decide) (by decide) (by decide)).1⟩

/-- C16. The call `Free` on a descriptor owned by range `s` always leaves the
descriptor's `buffer_` null and changes nothing else in it. It makes one
`FreeBuffer` call, for this descriptor (its client and handle), exactly when the
descriptor is neither externally cached nor caller-supplied; for a cached or a
caller-supplied descriptor it makes no call to the buffer pool. -/
theorem C16_Free_releases_only_pool_memory (b : BufferDescriptor) (s : ScanRange) :
    (Free b s).1 = { b with buffer_ := none } ∧
    (Free b s).1.buffer_ = none ∧
    ((Free b s).2.log.pool_free_calls = s.log.pool_free_calls ++ [b] ↔
      (s.is_cached = false ∧ s.is_client_buffer = false)) ∧
    (s.is_cached = true ∨ s.is_client_buffer = true →
      (Free b s).2.log.pool_free_calls = s.log.pool_free_calls) ∧
    (Free b s).2.log.freed = s.log.freed ++ [b] := by
  refine ⟨rfl, rfl, ?_, ?_, by simp⟩
  · unfold Free
    by_cases hk : s.is_cached <;> by_cases hc : s.is_client_buffer <;>
      simp [hk, hc, is_cached, is_client_buffer] <;> simp_all [is_cached, is_client_buffer]
  · intro h
    unfold Free
    rcases h with h | h <;> simp [h, is_cached, is_client_buffer] <;>
      simp_all [is_cached, is_client_buffer]

/-- A concrete run on which the hypotheses of the theorem above hold. -/
theorem C16_Free_releases_only_pool_memory_witness :
    chunkingRange.is_cached = false ∧
    chunkingRange.is_client_buffer = false ∧
    (Free (poolBuffer 4 1000) chunkingRange).2.log.pool_free_calls =
      chunkingRange.log.pool_free_calls ++ [poolBuffer 4 1000] ∧
    afterCacheHit.is_cached = true ∧
    (Free (poolBuffer 4 1000) afterCacheHit).2.log.pool_free_calls =
      afterCacheHit.log.pool_free_calls ∧
    (Free (poolBuffer 4 1000) afterCacheHit).1.buffer_ = none :=
  ⟨by decide, by decide,
    (C16_Free_releases_only_pool_memory (poolBuffer 4 1000) chunkingRange).2.2.1.mpr
      ⟨by decide, by decide⟩,
    by decide,
    (C16_Free_releases_only_pool_memory (poolBuffer 4 1000) afterCacheHit).2.2.2.1
      (Or.inl (by decide)),
    (C16_Free_releases_only_pool_memory (poolBuffer 4 1000) afterCacheHit).2.1⟩

namespace ScanRange

theorem queueView_CleanUpBuffer (b : BufferDescriptor) (s : ScanRange) :
    (CleanUpBuffer b s).queueView = s.queueView := by
  simp [queueView]

theorem queueStep_CleanUpUnusedBuffers (Q : BufferDescriptor → Prop) (s : ScanRange) :
    QueueStep Q s.queueView (CleanUpUnusedBuffers s).queueView := by
  have hv : (CleanUpUnusedBuffers s).queueView =
      { s.queueView with
        unused_iomgr_buffers_ := []
        unused_iomgr_buffer_bytes_ :=
          s.queueView.unused_iomgr_buffer_bytes_ -
            unusedBufferBytes s.queueView.unused_iomgr_buffers_ } := by
    simp [queueView]
  rw [hv]
  exact QueueStep.drain _

theorem queueStep_CancelInternal (Q : BufferDescriptor → Prop) (status : Status)
    (read_error : Bool) (s : ScanRange) :
    QueueStep Q s.queueView (CancelInternal status read_error s).queueView := by
  have hv : (CancelInternal status read_error s).queueView =
      { s.queueView with
        cancel_status_ := if s.cancel_status_.ok then status else s.cancel_status_
        unused_iomgr_buffers_ := []
        unused_iomgr_buffer_bytes_ :=
          s.queueView.unused_iomgr_buffer_bytes_ -
            unusedBufferBytes s.queueView.unused_iomgr_buffers_ } := by
    simp [queueView]
  rw [hv]
  exact QueueStep.cancel _ _

theorem queueStep_EnqueueReadyBuffer (Q : BufferDescriptor → Prop) (b : BufferDescriptor)
    (s : ScanRange) :
    QueueStep Q s.queueView (EnqueueReadyBuffer b s).2.queueView := by
  by_cases hc : s.cancel_status_.ok
  · by_cases he : b.eosr_
    · have hv : (EnqueueReadyBuffer b s).2.queueView =
          { ({ s.queueView with
              unused_iomgr_buffers_ := []
              unused_iomgr_buffer_bytes_ :=
                s.queueView.unused_iomgr_buffer_bytes_ -
                  unusedBufferBytes s.queueView.unused_iomgr_buffers_ } : QueueView) with
            eosr_queued_ := true } := by
        simp [queueView, hc, he]
      rw [hv]
      exact QueueStep.trans _ _ _ (QueueStep.drain _)
        (QueueStep.flag _ true (by simpa [queueView] using hc) (fun _ => rfl))
    · have hv : (EnqueueReadyBuffer b s).2.queueView =
          { s.queueView with eosr_queued_ := false } := by
        simp [queueView, hc, he]
      rw [hv]
      exact QueueStep.flag _ false (by simpa [queueView] using hc) (by simp)
  · have hv : (EnqueueReadyBuffer b s).2.queueView = s.queueView := by
      simp [queueView, hc]
    rw [hv]
    exact QueueStep.same _

theorem queueStep_addUnusedBuffer (Q : BufferDescriptor → Prop) (b : BufferDescriptor)
    (hq : Q b) (s : ScanRange) (u : Bool) :
    QueueStep Q s.queueView (addUnusedBuffer b (s, u)).1.queueView := by
  by_cases hf : s.shouldFreeUnused
  · have hv : (addUnusedBuffer b (s, u)).1.queueView = s.queueView := by
      simp [queueView, hf]
    rw [hv]
    exact QueueStep.same _
  · have hf2 : s.shouldFreeUnused = false := by simpa using hf
    have hv : (addUnusedBuffer b (s, u)).1.queueView =
        { s.queueView with
          unused_iomgr_buffer_bytes_ := s.queueView.unused_iomgr_buffer_bytes_ + b.buffer_len_
          unused_iomgr_buffers_ := s.queueView.unused_iomgr_buffers_ ++ [b]
          blocked_on_buffer_ := false } := by
      simp [queueView, hf2]
    rw [hv]
    have hcond := hf2
    simp only [shouldFreeUnused, Bool.or_eq_false_iff, decide_eq_false_iff_not, not_le] at hcond
    obtain ⟨⟨⟨-, hc⟩, he⟩, hcap⟩ := hcond
    exact QueueStep.keep _ b hq (by simpa [queueView] using hc) he hcap

theorem queueStep_addUnusedLoop (Q : BufferDescriptor → Prop) (bs : List BufferDescriptor) :
    ∀ st : ScanRange × Bool, (∀ b ∈ bs, Q b) →
      QueueStep Q st.1.queueView (addUnusedLoop bs st).1.queueView := by
  induction bs with
  | nil => intro st _; exact QueueStep.same _
  | cons b rest ih =>
    intro st hq
    obtain ⟨s, u⟩ := st
    rw [addUnusedLoop]
    exact QueueStep.trans _ _ _
      (queueStep_addUnusedBuffer Q b (hq b (List.mem_cons_self _ _)) s u)
      (ih _ (fun x hx => hq x (List.mem_cons_of_mem _ hx)))

theorem queueStep_AddUnusedBuffers (Q : BufferDescriptor → Prop) (bs : List BufferDescriptor)
    (returned rc : Bool) (s : ScanRange) (hq : ∀ b ∈ bs, Q b) :
    QueueStep Q s.queueView (AddUnusedBuffers bs returned rc s).queueView := by
  have h1 : (AddUnusedBuffers bs returned rc s).queueView =
      (addUnusedLocked bs returned s).1.queueView := by
    unfold AddUnusedBuffers
    dsimp only
    split
    · split <;> rfl
    · rfl
  rw [h1]
  unfold addUnusedLocked
  cases returned
  · exact queueStep_addUnusedLoop Q bs (s, false) hq
  · exact queueStep_addUnusedLoop Q bs
      ({ s with num_buffers_in_reader_ := s.num_buffers_in_reader_ - bs.length }, false) hq

theorem queueStep_doReadAcquire (Q : BufferDescriptor → Prop) (s : ScanRange) :
    QueueStep Q s.queueView s.doReadAcquire.2.queueView := by
  unfold doReadAcquire
  by_cases hc : s.cancel_status_.ok
  · by_cases ht : s.external_buffer_tag_ = .CLIENT_BUFFER
    · simp only [hc, ht]
      exact QueueStep.same _
    · rcases List.eq_nil_or_concat s.unused_iomgr_buffers_ with h0 | ⟨l, x, hl⟩
      · simp only [hc, Bool.not_true, Bool.false_eq_true, if_false, beq_iff_eq, ht,
          GetUnusedBuffer_nil s h0]
        exact QueueStep.block _ (by simpa [queueView] using h0)
      · rw [List.concat_eq_append] at hl
        simp only [hc, Bool.not_true, Bool.false_eq_true, if_false, beq_iff_eq, ht,
          GetUnusedBuffer_concat s l x hl]
        exact QueueStep.take _ l x (by simpa [queueView] using hc)
          (by simpa [queueView] using hl)
  · simp only [hc]
    exact QueueStep.same _

/-- A property kept by each stage of `DoRead` is kept by `DoRead`. -/
theorem DoRead_preserves (P : ScanRange → Prop)
    (hacq : ∀ s : ScanRange, P s → P s.doReadAcquire.2)
    (htr : ∀ (fr : FileReaderAnswer) (b : BufferDescriptor) (s : ScanRange),
      P s → P (doReadTransfer fr b s).2.2)
    (hfree : ∀ (b : BufferDescriptor) (s : ScanRange), P s → P (Free b s).2)
    (hcancel : ∀ (status : Status) (s : ScanRange), P s → P (CancelInternal status true s))
    (hclose : ∀ s : ScanRange, P s → P s.closeFileReader)
    (henq : ∀ (b : BufferDescriptor) (s : ScanRange), P s → P (EnqueueReadyBuffer b s).2)
    (fr : FileReaderAnswer) (s : ScanRange) (h : P s) : P (s.DoRead fr).2 := by
  have h1 := hacq s h
  unfold DoRead
  cases hq : s.doReadAcquire with
  | mk r s1 =>
    rw [hq] at h1
    cases r with
    | inl outcome => exact h1
    | inr b =>
      have h2 := htr fr b s1 h1
      dsimp only
      split
      · exact hclose _ (hcancel _ _ (hfree _ _ h2))
      · have h3 := henq (doReadTransfer fr b s1).2.1 (doReadTransfer fr b s1).2.2 h2
        split
        · rename_i s3 he
          rw [he] at h3
          exact h3
        · rename_i s3 he
          rw [he] at h3
          split
          · exact hclose _ h3
          · exact h3

theorem queueStep_DoRead (Q : BufferDescriptor → Prop) (fr : FileReaderAnswer) (s : ScanRange) :
    QueueStep Q s.queueView (s.DoRead fr).2.queueView := by
  apply DoRead_preserves (fun t => QueueStep Q s.queueView t.queueView)
  · intro t h
    exact QueueStep.trans _ _ _ h (queueStep_doReadAcquire Q t)
  · intro fr b t h
    have hv : (doReadTransfer fr b t).2.2.queueView = t.queueView := by simp [queueView]
    rw [hv]; exact h
  · intro b t h
    have hv : (Free b t).2.queueView = t.queueView := by simp [queueView]
    rw [hv]; exact h
  · intro st t h
    exact QueueStep.trans _ _ _ h (queueStep_CancelInternal Q st true t)
  · intro t h
    have hv : t.closeFileReader.queueView = t.queueView := by simp [queueView]
    rw [hv]; exact h
  · intro b t h
    exact QueueStep.trans _ _ _ h (queueStep_EnqueueReadyBuffer Q b t)
  · exact QueueStep.same _

/-- The call `ReadFromCache` either leaves the bookkeeping members alone or ends
with `EnqueueReadyBuffer` on a range with the same bookkeeping members. -/
theorem ReadFromCache_queueView (open_status : Status) (cached : Option (Nat × Int))
    (s : ScanRange) :
    (s.ReadFromCache open_status cached).2.2.queueView = s.queueView ∨
    ∃ (desc : BufferDescriptor) (t : ScanRange), t.queueView = s.queueView ∧
      (s.ReadFromCache open_status cached).2.2 = (EnqueueReadyBuffer desc t).2 := by
  unfold ReadFromCache
  by_cases ho : open_status.ok
  · by_cases hf : s.fs_.isNone
    · left; simp [ho, hf, queueView]
    · by_cases hc : s.cancel_status_.ok
      · cases cached with
        | none =>
          by_cases ht : s.external_buffer_tag_ = .CACHED_BUFFER
          · by_cases hl : toInt32 s.file_reader_.bytes_read_ < s.len_
            · left; simp [ho, hf, hc, ht, BytesRead, hl, queueView]
            · right
              refine ⟨
                { buffer_ := none, buffer_len_ := 0, len_ := toInt32 s.file_reader_.bytes_read_,
                  scan_range_offset_ := 0, eosr_ := true },
                { s with
                  file_reader_ := { s.file_reader_ with is_open := true }
                  log := { s.log with open_calls := s.log.open_calls + 1 } }, rfl, ?_⟩
              simp [ho, hf, hc, ht, BytesRead, hl]
          · left; simp [ho, hf, hc, ht, queueView]
        | some r =>
          obtain ⟨buffer, cached_len⟩ := r
          by_cases hl : toInt32 cached_len < s.len_
          · left; simp [ho, hf, hc, BytesRead, hl, queueView]
          · right
            refine ⟨
              { buffer_ := some buffer, buffer_len_ := 0, len_ := toInt32 cached_len,
                scan_range_offset_ := 0, eosr_ := true },
              { s with
                external_buffer_tag_ := .CACHED_BUFFER
                file_reader_ := { bytes_read_ := cached_len, is_open := true }
                log := { s.log with open_calls := s.log.open_calls + 1 } }, rfl, ?_⟩
            simp [ho, hf, hc, BytesRead, hl]
      · left; simp [ho, hf, hc, queueView]
  · left; simp [ho, queueView]

theorem queueStep_ReadFromCache (Q : BufferDescriptor → Prop) (open_status : Status)
    (cached : Option (Nat × Int)) (s : ScanRange) :
    QueueStep Q s.queueView (s.ReadFromCache open_status cached).2.2.queueView := by
  rcases ReadFromCache_queueView open_status cached s with h | ⟨desc, t, h1, h2⟩
  · rw [h]; exact QueueStep.same _
  · rw [h2, ← h1]; exact queueStep_EnqueueReadyBuffer Q desc t

end ScanRange

/-- Every call but a bare `GetUnusedBuffer` or `SetBlockedOnBuffer` changes the
bookkeeping members of the range by the steps of `QueueStep`. -/
theorem queueStep_apply (Q : BufferDescriptor → Prop) (op : Op) (s : ScanRange)
    (hop : op.isQueueStepCall Q) : QueueStep Q s.queueView (op.apply s).queueView := by
  cases op with
  | EnqueueReadyBuffer b => exact queueStep_EnqueueReadyBuffer Q b s
  | GetNext =>
    have hv : (Op.apply .GetNext s).queueView = s.queueView := by
      cases hr : s.ready_buffers_ with
      | nil => rw [GetNext_apply_of_no_buffer s (Or.inr hr)]
      | cons front rest =>
        by_cases hc : s.cancel_status_.ok
        · obtain ⟨n, hn⟩ := GetNext_front s front rest hc hr
          simp only [Op.apply, hn]
          rfl
        · rw [GetNext_apply_of_no_buffer s (Or.inl (by simpa using hc))]
    rw [hv]
    exact QueueStep.same _
  | ReturnBuffer b rc =>
    exact queueStep_AddUnusedBuffers Q [b] true rc s (by
      intro x hx
      have : x = b := by simpa using hx
      subst this
      exact hop)
  | AddUnusedBuffers bs r rc => exact queueStep_AddUnusedBuffers Q bs r rc s hop
  | GetUnusedBuffer => exact absurd hop (by simp [Op.isQueueStepCall])
  | DoRead fr => exact queueStep_DoRead Q fr s
  | SetBlockedOnBuffer => exact absurd hop (by simp [Op.isQueueStepCall])
  | CleanUpBuffers bs =>
    have hv : (Op.apply (.CleanUpBuffers bs) s).queueView = s.queueView := by
      simp [Op.apply, queueView]
    rw [hv]
    exact QueueStep.same _
  | CleanUpUnusedBuffers => exact queueStep_CleanUpUnusedBuffers Q s
  | Cancel status =>
    simp only [Op.apply]
    unfold Cancel
    split
    · exact QueueStep.same _
    · dsimp only
      split
      · exact queueStep_CancelInternal Q status false s
      · exact queueStep_CancelInternal Q status false s
  | CancelInternal status e => exact queueStep_CancelInternal Q status e s
  | ReadFromCache os c => exact queueStep_ReadFromCache Q os c s

/-- The steps of `QueueStep` keep the byte count of the unused queue exact. -/
theorem queueStep_accounting (Q : BufferDescriptor → Prop) (v w : QueueView)
    (h : QueueStep Q v w)
    (hv : v.unused_iomgr_buffer_bytes_ = unusedBufferBytes v.unused_iomgr_buffers_) :
    w.unused_iomgr_buffer_bytes_ = unusedBufferBytes w.unused_iomgr_buffers_ := by
  induction h with
  | same v => exact hv
  | drain v => simp [unusedBufferBytes, hv]
  | cancel v status => simp [unusedBufferBytes, hv]
  | flag v eosr _ _ => exact hv
  | keep v b _ _ _ _ => simp [unusedBufferBytes_concat, hv]
  | take v l b _ hl =>
    rw [hl, unusedBufferBytes_concat] at hv
    simp only
    omega
  | block v _ => exact hv
  | trans u v w _ _ ih1 ih2 => exact ih2 (ih1 hv)

/-- The steps of `QueueStep` keep the unused queue of a finished range empty. -/
theorem queueStep_finished (Q : BufferDescriptor → Prop) (v w : QueueView)
    (h : QueueStep Q v w)
    (hv : (v.cancel_status_.ok = false ∨ v.eosr_queued_ = true) →
      v.unused_iomgr_buffers_ = []) :
    (w.cancel_status_.ok = false ∨ w.eosr_queued_ = true) → w.unused_iomgr_buffers_ = [] := by
  induction h with
  | same v => exact hv
  | drain v => intro _; rfl
  | cancel v status => intro _; rfl
  | flag v eosr hc he =>
    intro hf
    rcases hf with hf | hf
    · simp only at hf; rw [hc] at hf; exact absurd hf (by simp)
    · exact he hf
  | keep v b _ hc he _ =>
    intro hf
    rcases hf with hf | hf
    · simp only at hf; rw [hc] at hf; exact absurd hf (by simp)
    · simp only at hf; rw [he] at hf; exact absurd hf (by simp)
  | take v l b _ hl =>
    intro hf
    have := hv hf
    rw [hl] at this
    exact absurd this (by simp)
  | block v _ => exact hv
  | trans u v w _ _ ih1 ih2 => exact ih2 (ih1 hv)

/-- The steps of `QueueStep` keep the unused queue of a blocked range empty. -/
theorem queueStep_blocked (Q : BufferDescriptor → Prop) (v w : QueueView)
    (h : QueueStep Q v w)
    (hv : v.blocked_on_buffer_ = true → v.unused_iomgr_buffers_ = []) :
    w.blocked_on_buffer_ = true → w.unused_iomgr_buffers_ = [] := by
  induction h with
  | same v => exact hv
  | drain v => intro _; rfl
  | cancel v status => intro _; rfl
  | flag v eosr _ _ => exact hv
  | keep v b _ _ _ _ => intro hb; exact absurd hb (by simp)
  | take v l b _ hl =>
    intro hb
    have := hv hb
    rw [hl] at this
    exact absurd this (by simp)
  | block v h0 => intro _; exact h0
  | trans u v w _ _ ih1 ih2 => exact ih2 (ih1 hv)

/-- The steps of `QueueStep`, with buffers of length at most `M`, keep the bytes
of a non-empty unused queue below the bytes still needed plus `M`. -/
theorem queueStep_cap (M : Int) (v w : QueueView)
    (h : QueueStep (fun b => b.buffer_len_ ≤ M) v w)
    (hv : v.unused_iomgr_buffers_ ≠ [] →
      v.unused_iomgr_buffer_bytes_ < v.len_ - v.iomgr_buffer_cumulative_bytes_used_ + M) :
    w.unused_iomgr_buffers_ ≠ [] →
      w.unused_iomgr_buffer_bytes_ < w.len_ - w.iomgr_buffer_cumulative_bytes_used_ + M := by
  induction h with
  | same v => exact hv
  | drain v => intro h; exact absurd rfl h
  | cancel v status => intro h; exact absurd rfl h
  | flag v eosr _ _ => exact hv
  | keep v b hq _ _ hcap =>
    intro _
    simp only
    omega
  | take v l b _ hl =>
    intro _
    have := hv (by rw [hl]; simp)
    simp only
    omega
  | block v _ => exact hv
  | trans u v w _ _ ih1 ih2 => exact ih2 (ih1 hv)

/-- A bare `GetUnusedBuffer` keeps the byte count exact and takes a buffer only
from a non-empty queue. -/
theorem GetUnusedBuffer_queueView (s : ScanRange) :
    s.GetUnusedBuffer.2.queueView = s.queueView ∨
    ∃ (l : List BufferDescriptor) (b : BufferDescriptor),
      s.unused_iomgr_buffers_ = l ++ [b] ∧
      s.GetUnusedBuffer.2.queueView =
        { s.queueView with
          unused_iomgr_buffers_ := l
          unused_iomgr_buffer_bytes_ := s.unused_iomgr_buffer_bytes_ - b.buffer_len_ } := by
  rcases List.eq_nil_or_concat s.unused_iomgr_buffers_ with h0 | ⟨l, b, hl⟩
  · left; rw [GetUnusedBuffer_nil s h0]
  · right
    rw [List.concat_eq_append] at hl
    exact ⟨l, b, hl, by rw [GetUnusedBuffer_concat s l b hl]; rfl⟩

/-- Every call keeps the byte count of the unused queue exact and the unused
queue of a finished range empty. -/
theorem apply_accounting_finished (op : Op) (s : ScanRange)
    (ha : s.unused_iomgr_buffer_bytes_ = unusedBufferBytes s.unused_iomgr_buffers_)
    (hf : (s.cancel_status_.ok = false ∨ s.eosr_queued_ = true) →
      s.unused_iomgr_buffers_ = []) :
    (op.apply s).unused_iomgr_buffer_bytes_ =
      unusedBufferBytes (op.apply s).unused_iomgr_buffers_ ∧
    ((op.apply s).cancel_status_.ok = false ∨ (op.apply s).eosr_queued_ = true →
      (op.apply s).unused_iomgr_buffers_ = []) := by
  by_cases hop : op.isQueueStepCall (fun _ => True)
  · have h := queueStep_apply (fun _ => True) op s hop
    exact ⟨queueStep_accounting _ _ _ h ha, queueStep_finished _ _ _ h hf⟩
  · cases op with
    | GetUnusedBuffer =>
      simp only [Op.apply]
      rcases GetUnusedBuffer_queueView s with h | ⟨l, b, hl, h⟩
      · have h1 : s.GetUnusedBuffer.2.queueView.unused_iomgr_buffer_bytes_ =
            unusedBufferBytes s.GetUnusedBuffer.2.queueView.unused_iomgr_buffers_ := by
          rw [h]; exact ha
        have h2 : (s.GetUnusedBuffer.2.queueView.cancel_status_.ok = false ∨
            s.GetUnusedBuffer.2.queueView.eosr_queued_ = true) →
            s.GetUnusedBuffer.2.queueView.unused_iomgr_buffers_ = [] := by
          rw [h]; exact hf
        exact ⟨h1, h2⟩
      · have h1 : s.GetUnusedBuffer.2.queueView.unused_iomgr_buffer_bytes_ =
            unusedBufferBytes s.GetUnusedBuffer.2.queueView.unused_iomgr_buffers_ := by
          rw [h]
          rw [hl, unusedBufferBytes_concat] at ha
          simp only
          omega
        have h2 : (s.GetUnusedBuffer.2.queueView.cancel_status_.ok = false ∨
            s.GetUnusedBuffer.2.queueView.eosr_queued_ = true) →
            s.GetUnusedBuffer.2.queueView.unused_iomgr_buffers_ = [] := by
          rw [h]
          intro hfin
          have := hf hfin
          rw [hl] at this
          exact absurd this (by simp)
        exact ⟨h1, h2⟩
    | SetBlockedOnBuffer => exact ⟨ha, hf⟩
    | AddUnusedBuffers bs r rc => exact absurd (fun _ _ => trivial) hop
    | _ => exact absurd trivial hop

theorem run_accounting_finished (ops : List Op) :
    ∀ s : ScanRange,
      s.unused_iomgr_buffer_bytes_ = unusedBufferBytes s.unused_iomgr_buffers_ →
      ((s.cancel_status_.ok = false ∨ s.eosr_queued_ = true) →
        s.unused_iomgr_buffers_ = []) →
      (run ops s).unused_iomgr_buffer_bytes_ =
        unusedBufferBytes (run ops s).unused_iomgr_buffers_ ∧
      ((run ops s).cancel_status_.ok = false ∨ (run ops s).eosr_queued_ = true →
        (run ops s).unused_iomgr_buffers_ = []) := by
  induction ops with
  | nil => intro s ha hf; exact ⟨ha, hf⟩
  | cons op rest ih =>
    intro s ha hf
    obtain ⟨h1, h2⟩ := apply_accounting_finished op s ha hf
    exact ih (op.apply s) h1 h2

/-- C17. Start from the state left by `InitInternal` on a range without unused
buffers. After any sequence of calls (`AddUnusedBuffers`, `ReturnBuffer`,
`GetUnusedBuffer`, `DoRead`, `EnqueueReadyBuffer`, `CleanUpUnusedBuffers`,
`CancelInternal` and the other calls of `Op`), `unused_iomgr_buffer_bytes_` is the
sum of `buffer_len` over `unused_iomgr_buffers_`, the sum that `Validate`
computes at lines 351-353. -/
theorem C17_unused_byte_accounting (io_mgr reader : Nat) (s0 : ScanRange) (ops : List Op)
    (h0 : s0.unused_iomgr_buffers_ = []) :
    (run ops (InitInternal io_mgr reader s0)).unused_iomgr_buffer_bytes_ =
      unusedBufferBytes (run ops (InitInternal io_mgr reader s0)).unused_iomgr_buffers_ := by
  refine (run_accounting_finished ops (InitInternal io_mgr reader s0) ?_ ?_).1
  · simp [InitInternal, h0, unusedBufferBytes]
  · intro _; simp [InitInternal, h0]

/-- A concrete run on which the hypotheses of the theorem above hold. -/
theorem C17_unused_byte_accounting_witness :
    ({ len_ := 300000 } : ScanRange).unused_iomgr_buffers_ = [] ∧
    (run (sampleMixedCalls.take 10)
      (InitInternal 1 1 { len_ := 300000 })).unused_iomgr_buffers_.length = 2 ∧
    (run (sampleMixedCalls.take 10)
      (InitInternal 1 1 { len_ := 300000 })).unused_iomgr_buffer_bytes_ =
      unusedBufferBytes (run (sampleMixedCalls.take 10)
        (InitInternal 1 1 { len_ := 300000 })).unused_iomgr_buffers_ :=
  ⟨rfl, by decide,
    C17_unused_byte_accounting 1 1 { len_ := 300000 } (sampleMixedCalls.take 10) rfl⟩

/-- C19. Start from the state left by `InitInternal` on a range without unused
buffers. After any sequence of calls (`AddUnusedBuffers`, `ReturnBuffer`,
`DoRead`, `EnqueueReadyBuffer`, `GetNext`, `ReadFromCache`, `Cancel`,
`CancelInternal` and the other calls of `Op`), a range that is cancelled or has
`eosr_queued_` set has `unused_iomgr_buffers_` empty and
`unused_iomgr_buffer_bytes_ = 0`. -/
theorem C19_finished_range_holds_no_unused_buffers (io_mgr reader : Nat) (s0 : ScanRange)
    (ops : List Op) (h0 : s0.unused_iomgr_buffers_ = []) :
    ((run ops (InitInternal io_mgr reader s0)).cancel_status_.ok = false ∨
      (run ops (InitInternal io_mgr reader s0)).eosr_queued_ = true) →
    (run ops (InitInternal io_mgr reader s0)).unused_iomgr_buffers_ = [] ∧
    (run ops (InitInternal io_mgr reader s0)).unused_iomgr_buffer_bytes_ = 0 := by
  intro hfin
  obtain ⟨h1, h2⟩ := run_accounting_finished ops (InitInternal io_mgr reader s0)
    (by simp [InitInternal, h0, unusedBufferBytes]) (by intro _; simp [InitInternal, h0])
  have hu := h2 hfin
  refine ⟨hu, ?_⟩
  rw [h1, hu]
  rfl

/-- A concrete run on which the hypotheses of the theorem above hold. -/
theorem C19_finished_range_holds_no_unused_buffers_witness :
    ({ len_ := 300000 } : ScanRange).unused_iomgr_buffers_ = [] ∧
    (run sampleMixedCalls (InitInternal 1 1 { len_ := 300000 })).cancel_status_.ok = false ∧
    (run sampleMixedCalls (InitInternal 1 1 { len_ := 300000 })).unused_iomgr_buffers_ = [] ∧
    (run sampleMixedCalls (InitInternal 1 1 { len_ := 300000 })).unused_iomgr_buffer_bytes_ = 0 :=
  have h := C19_finished_range_holds_no_unused_buffers 1 1 { len_ := 300000 }
    sampleMixedCalls rfl (Or.inl (by decide))
  ⟨rfl, by decide, h.1, h.2⟩

/-- C18, counterexample. Two states reached from `InitInternal` by
`AddUnusedBuffers` and `DoRead` in the chunking scenario (length 300,000, buffers
of 128,000). After the three buffers are added the range holds 384,000 unused
bytes while 300,000 are still needed; after the three reads it holds none while
`len_ - iomgr_buffer_cumulative_bytes_used_` is 300,000 - 384,000. In both
`unused_iomgr_buffer_bytes_` exceeds that difference. -/
theorem C18_counterexample_unused_bytes_exceed_remaining :
    chunkingRange =
      run [.AddUnusedBuffers [poolBuffer 1 128000, poolBuffer 2 128000, poolBuffer 3 128000]
            false false]
        (InitInternal 1 1 { len_ := 300000 }) ∧
    chunkingRange.unused_iomgr_buffer_bytes_ = 384000 ∧
    chunkingRange.len_ - chunkingRange.iomgr_buffer_cumulative_bytes_used_ = 300000 ∧
    ¬ (chunkingRange.unused_iomgr_buffer_bytes_ ≤
      chunkingRange.len_ - chunkingRange.iomgr_buffer_cumulative_bytes_used_) ∧
    chunkingAfterReads 3 =
      run [.DoRead (fullReader 300000 0), .DoRead (fullReader 300000 0),
            .DoRead (fullReader 300000 0)] chunkingRange ∧
    (chunkingAfterReads 3).unused_iomgr_buffer_bytes_ = 0 ∧
    (chunkingAfterReads 3).len_ - (chunkingAfterReads 3).iomgr_buffer_cumulative_bytes_used_ =
      -84000 ∧
    ¬ ((chunkingAfterReads 3).unused_iomgr_buffer_bytes_ ≤
      (chunkingAfterReads 3).len_ - (chunkingAfterReads 3).iomgr_buffer_cumulative_bytes_used_) := by
  refine ⟨rfl, by decide, by decide, by decide, rfl, by decide, by decide, by decide⟩

theorem isCapCall_isQueueStepCall (M : Int) (op : Op) (h : op.isCapCall M) :
    op.isQueueStepCall (fun b => b.buffer_len_ ≤ M) := by
  cases op <;> simp_all [Op.isCapCall, Op.isQueueStepCall]

/-- C18, amended. Start from the state left by `InitInternal` on a range without
unused buffers and run any sequence of `AddUnusedBuffers`, `ReturnBuffer`,
`DoRead` and `Cancel` calls in which every buffer handed to the range has
`buffer_len <= M`. Whenever the range holds an unused buffer,
`unused_iomgr_buffer_bytes_` is below
`len_ - iomgr_buffer_cumulative_bytes_used_ + M`: the unused bytes exceed the
bytes still needed by less than one buffer. -/
theorem C18_unused_bytes_within_one_buffer_of_remaining (M : Int) (io_mgr reader : Nat)
    (s0 : ScanRange) (ops : List Op)
    (h0 : s0.unused_iomgr_buffers_ = [])
    (hops : ∀ op ∈ ops, op.isCapCall M) :
    (run ops (InitInternal io_mgr reader s0)).unused_iomgr_buffers_ ≠ [] →
    (run ops (InitInternal io_mgr reader s0)).unused_iomgr_buffer_bytes_ <
      (run ops (InitInternal io_mgr reader s0)).len_ -
        (run ops (InitInternal io_mgr reader s0)).iomgr_buffer_cumulative_bytes_used_ + M := by
  have main : ∀ (ops : List Op) (s : ScanRange), (∀ op ∈ ops, op.isCapCall M) →
      (s.unused_iomgr_buffers_ ≠ [] →
        s.unused_iomgr_buffer_bytes_ < s.len_ - s.iomgr_buffer_cumulative_bytes_used_ + M) →
      (run ops s).unused_iomgr_buffers_ ≠ [] →
      (run ops s).unused_iomgr_buffer_bytes_ <
        (run ops s).len_ - (run ops s).iomgr_buffer_cumulative_bytes_used_ + M := by
    intro ops
    induction ops with
    | nil => intro s _ h; exact h
    | cons op rest ih =>
      intro s hops h
      exact ih (op.apply s) (fun o ho => hops o (List.mem_cons_of_mem _ ho))
        (queueStep_cap M _ _
          (queueStep_apply _ op s
            (isCapCall_isQueueStepCall M op (hops op (List.mem_cons_self _ _)))) h)
  exact main ops _ hops (fun h => absurd (by simp [InitInternal, h0]) h)

/-- A concrete run on which the hypotheses of the theorem above hold. -/
theorem C18_unused_bytes_within_one_buffer_of_remaining_witness :
    ({ len_ := 300000 } : ScanRange).unused_iomgr_buffers_ = [] ∧
    (∀ op ∈ sampleCapCalls, op.isCapCall 128000) ∧
    (run sampleCapCalls (InitInternal 1 1 { len_ := 300000 })).unused_iomgr_buffers_ ≠ [] ∧
    (run sampleCapCalls (InitInternal 1 1 { len_ := 300000 })).unused_iomgr_buffer_bytes_ <
      (run sampleCapCalls (InitInternal 1 1 { len_ := 300000 })).len_ -
        (run sampleCapCalls
          (InitInternal 1 1 { len_ := 300000 })).iomgr_buffer_cumulative_bytes_used_ + 128000 :=
  have hops : ∀ op ∈ sampleCapCalls, op.isCapCall 128000 := by
    intro op hop
    simp only [sampleCapCalls, List.mem_cons, List.mem_singleton, List.not_mem_nil,
      or_false] at hop
    rcases hop with h | h | h <;> subst h <;> simp [Op.isCapCall, poolBuffer]
  ⟨rfl, hops, by decide,
    C18_unused_bytes_within_one_buffer_of_remaining 128000 1 1 { len_ := 300000 }
      sampleCapCalls rfl hops (by decide)⟩

/-- C20, counterexample. From `InitInternal` on a range of length 100:
(1) `DoRead` finds no buffer and sets `blocked_on_buffer_`, then `Cancel` leaves the
flag set, so the range is blocked and finished;
(2) `AddUnusedBuffers` keeps a buffer, then `SetBlockedOnBuffer` sets the flag, so
the range is blocked and holds an unused buffer. -/
theorem C20_counterexample_blocked_and_finished_or_holding :
    (run [.DoRead (fullReader 100 0), .Cancel (.error 1)]
      (InitInternal 1 1 { len_ := 100 })).blocked_on_buffer_ = true ∧
    (run [.DoRead (fullReader 100 0), .Cancel (.error 1)]
      (InitInternal 1 1 { len_ := 100 })).cancel_status_ = .error 1 ∧
    (run [.DoRead (fullReader 100 0), .Cancel (.error 1)]
      (InitInternal 1 1 { len_ := 100 })).Validate = true ∧
    (run [.AddUnusedBuffers [poolBuffer 1 128] false false, .SetBlockedOnBuffer]
      (InitInternal 1 1 { len_ := 100 })).blocked_on_buffer_ = true ∧
    (run [.AddUnusedBuffers [poolBuffer 1 128] false false, .SetBlockedOnBuffer]
      (InitInternal 1 1 { len_ := 100 })).unused_iomgr_buffers_ = [poolBuffer 1 128] := by
  decide

/-- One call keeps the unused queue of a blocked range empty, provided
`SetBlockedOnBuffer` is called only on a range without unused buffers. -/
theorem apply_blocked (op : Op) (s : ScanRange)
    (hop : match op with
      | .SetBlockedOnBuffer => s.unused_iomgr_buffers_ = []
      | _ => True)
    (h : s.blocked_on_buffer_ = true → s.unused_iomgr_buffers_ = []) :
    (op.apply s).blocked_on_buffer_ = true → (op.apply s).unused_iomgr_buffers_ = [] := by
  by_cases hq : op.isQueueStepCall (fun _ => True)
  · exact queueStep_blocked _ _ _ (queueStep_apply (fun _ => True) op s hq) h
  · cases op with
    | GetUnusedBuffer =>
      simp only [Op.apply]
      rcases GetUnusedBuffer_queueView s with hv | ⟨l, b, hl, hv⟩
      · have : s.GetUnusedBuffer.2.queueView.blocked_on_buffer_ = true →
            s.GetUnusedBuffer.2.queueView.unused_iomgr_buffers_ = [] := by
          rw [hv]; exact h
        exact this
      · have : s.GetUnusedBuffer.2.queueView.blocked_on_buffer_ = true →
            s.GetUnusedBuffer.2.queueView.unused_iomgr_buffers_ = [] := by
          rw [hv]
          intro hb
          have := h hb
          rw [hl] at this
          exact absurd this (by simp)
        exact this
    | SetBlockedOnBuffer => intro _; exact hop
    | AddUnusedBuffers bs r rc => exact absurd (fun _ _ => trivial) hq
    | _ => exact absurd trivial hq

/-- C20, amended. Start from the state left by `InitInternal` and run any
sequence of calls (`DoRead`, `AddUnusedBuffers`, `ReturnBuffer`,
`EnqueueReadyBuffer`, `GetNext`, `Cancel`, `CancelInternal` and the other calls
of `Op`) in which `SetBlockedOnBuffer` is called only while the range holds no
unused buffer. If `blocked_on_buffer_` is true then `unused_iomgr_buffers_` is
empty. Nothing is said of the range not being finished: cancellation leaves the
flag set. -/
theorem C20_blocked_range_holds_no_unused_buffers (io_mgr reader : Nat) (s0 : ScanRange)
    (ops : List Op)
    (hops : blocksOnlyWithoutBuffers ops (InitInternal io_mgr reader s0)) :
    (run ops (InitInternal io_mgr reader s0)).blocked_on_buffer_ = true →
    (run ops (InitInternal io_mgr reader s0)).unused_iomgr_buffers_ = [] := by
  have main : ∀ (ops : List Op) (s : ScanRange), blocksOnlyWithoutBuffers ops s →
      (s.blocked_on_buffer_ = true → s.unused_iomgr_buffers_ = []) →
      (run ops s).blocked_on_buffer_ = true → (run ops s).unused_iomgr_buffers_ = [] := by
    intro ops
    induction ops with
    | nil => intro s _ h; exact h
    | cons op rest ih =>
      intro s hops h
      exact ih (op.apply s) hops.2 (apply_blocked op s hops.1 h)
  exact main ops _ hops (fun hb => absurd hb (by simp [InitInternal]))

/-- A concrete run on which the hypotheses of the theorem above hold. -/
theorem C20_blocked_range_holds_no_unused_buffers_witness :
    blocksOnlyWithoutBuffers sampleBlockedCalls (InitInternal 1 1 { len_ := 300000 }) ∧
    (run sampleBlockedCalls (InitInternal 1 1 { len_ := 300000 })).blocked_on_buffer_ = true ∧
    (run sampleBlockedCalls (InitInternal 1 1 { len_ := 300000 })).unused_iomgr_buffers_ = [] :=
  have hops : blocksOnlyWithoutBuffers sampleBlockedCalls
      (InitInternal 1 1 { len_ := 300000 }) := by
    simp only [sampleBlockedCalls, blocksOnlyWithoutBuffers]
    decide
  ⟨hops, by decide,
    C20_blocked_range_holds_no_unused_buffers 1 1 { len_ := 300000 } sampleBlockedCalls hops
      (by decide)⟩

namespace ScanRange

/-- The queue members after `AddUnusedBuffers` are those left by the part under
`lock_`: the scheduling call made afterwards does not touch them. -/
theorem AddUnusedBuffers_unused (bs : List BufferDescriptor) (returned rc : Bool)
    (s : ScanRange) :
    (AddUnusedBuffers bs returned rc s).unused_iomgr_buffers_ =
      (addUnusedLocked bs returned s).1.unused_iomgr_buffers_ ∧
    (AddUnusedBuffers bs returned rc s).unused_iomgr_buffer_bytes_ =
      (addUnusedLocked bs returned s).1.unused_iomgr_buffer_bytes_ := by
  unfold AddUnusedBuffers
  dsimp only
  split
  · split <;> exact ⟨rfl, rfl⟩
  · exact ⟨rfl, rfl⟩

/-- What `GetUnusedBuffer` returns and the queue members it leaves depend only on
the queue members. -/
theorem GetUnusedBuffer_of_unused (s : ScanRange) (l : List BufferDescriptor)
    (b : BufferDescriptor) (n : Int) (hl : s.unused_iomgr_buffers_ = l ++ [b])
    (hn : s.unused_iomgr_buffer_bytes_ = n + b.buffer_len_) :
    s.GetUnusedBuffer.1 = some b ∧
    s.GetUnusedBuffer.2.unused_iomgr_buffers_ = l ∧
    s.GetUnusedBuffer.2.unused_iomgr_buffer_bytes_ = n := by
  rw [GetUnusedBuffer_concat s l b hl]
  refine ⟨rfl, rfl, ?_⟩
  simp only [hn]
  omega

end ScanRange

/-- C21. The call `GetUnusedBuffer` on a range whose `unused_iomgr_buffers_` is
empty returns null and leaves the range as it is. On a queue `l ++ [b]` it
returns `b`, the buffer at the back, where `AddUnusedBuffers` appends, leaves
`l` and lowers `unused_iomgr_buffer_bytes_` by `b.buffer_len_`, changing nothing
else. So when `AddUnusedBuffers` (or `ReturnBuffer`) keeps a buffer `b`, a
`GetUnusedBuffer` that follows returns `b` and `unused_iomgr_buffers_` and
`unused_iomgr_buffer_bytes_` are what they were before the buffer was added; the
same holds after a batch whose last buffer is kept. -/
theorem C21_unused_buffers_reused_most_recent_first (s : ScanRange) (b : BufferDescriptor)
    (l batch : List BufferDescriptor) (returned reader_cancelled : Bool) :
    (s.unused_iomgr_buffers_ = [] → s.GetUnusedBuffer = (none, s)) ∧
    (s.unused_iomgr_buffers_ = l ++ [b] →
      s.GetUnusedBuffer = (some b,
        { s with
          unused_iomgr_buffers_ := l
          unused_iomgr_buffer_bytes_ := s.unused_iomgr_buffer_bytes_ - b.buffer_len_ })) ∧
    (s.shouldFreeUnused = false →
      (s.AddUnusedBuffers [b] returned reader_cancelled).unused_iomgr_buffers_ =
        s.unused_iomgr_buffers_ ++ [b] ∧
      (s.AddUnusedBuffers [b] returned reader_cancelled).GetUnusedBuffer.1 = some b ∧
      (s.AddUnusedBuffers [b] returned reader_cancelled).GetUnusedBuffer.2.unused_iomgr_buffers_ =
        s.unused_iomgr_buffers_ ∧
      (s.AddUnusedBuffers [b] returned
          reader_cancelled).GetUnusedBuffer.2.unused_iomgr_buffer_bytes_ =
        s.unused_iomgr_buffer_bytes_ ∧
      (s.ReturnBuffer b reader_cancelled).GetUnusedBuffer.1 = some b) ∧
    ((addUnusedLoop batch (s, false)).1.shouldFreeUnused = false →
      (addUnusedLoop (batch ++ [b]) (s, false)).1.GetUnusedBuffer.1 = some b ∧
      (addUnusedLoop (batch ++ [b]) (s, false)).1.GetUnusedBuffer.2.unused_iomgr_buffers_ =
        (addUnusedLoop batch (s, false)).1.unused_iomgr_buffers_ ∧
      (addUnusedLoop (batch ++ [b]) (s, false)).1.GetUnusedBuffer.2.unused_iomgr_buffer_bytes_ =
        (addUnusedLoop batch (s, false)).1.unused_iomgr_buffer_bytes_) := by
  have single : ∀ (returned : Bool), s.shouldFreeUnused = false →
      (s.AddUnusedBuffers [b] returned reader_cancelled).unused_iomgr_buffers_ =
        s.unused_iomgr_buffers_ ++ [b] ∧
      (s.AddUnusedBuffers [b] returned reader_cancelled).unused_iomgr_buffer_bytes_ =
        s.unused_iomgr_buffer_bytes_ + b.buffer_len_ := by
    intro returned hf
    have hf2 : ∀ n : Int, ({ s with num_buffers_in_reader_ := n } : ScanRange).shouldFreeUnused
        = false := fun n => hf
    obtain ⟨h1, h2⟩ := AddUnusedBuffers_unused [b] returned reader_cancelled s
    rw [h1, h2]
    cases returned <;> simp [addUnusedLocked, addUnusedLoop, hf, hf2]
  refine ⟨GetUnusedBuffer_nil s, GetUnusedBuffer_concat s l b, ?_, ?_⟩
  · intro hf
    obtain ⟨h1, h2⟩ := single returned hf
    obtain ⟨g1, g2, g3⟩ := GetUnusedBuffer_of_unused _ _ b _ h1 h2
    obtain ⟨k1, k2⟩ := single true hf
    exact ⟨h1, g1, g2, g3, (GetUnusedBuffer_of_unused _ _ b _ k1 k2).1⟩
  · rw [addUnusedLoop_append]
    simp only [addUnusedLoop]
    generalize addUnusedLoop batch (s, false) = st
    obtain ⟨t, u⟩ := st
    intro hf
    have hf2 : t.shouldFreeUnused = false := hf
    apply GetUnusedBuffer_of_unused
    · simp [hf2]
    · simp [hf2]

/-- A concrete run on which the hypotheses of the theorem above hold. -/
theorem C21_unused_buffers_reused_most_recent_first_witness :
    (InitInternal 1 1 { len_ := 300000 }).unused_iomgr_buffers_ = [] ∧
    (InitInternal 1 1 { len_ := 300000 }).GetUnusedBuffer =
      (none, InitInternal 1 1 { len_ := 300000 }) ∧
    chunkingRange.unused_iomgr_buffers_ =
      [poolBuffer 1 128000, poolBuffer 2 128000] ++ [poolBuffer 3 128000] ∧
    chunkingRange.GetUnusedBuffer.1 = some (poolBuffer 3 128000) ∧
    (InitInternal 1 1 { len_ := 300000 }).shouldFreeUnused = false ∧
    ((InitInternal 1 1 { len_ := 300000 }).AddUnusedBuffers [poolBuffer 1 128000] false
      false).GetUnusedBuffer.1 = some (poolBuffer 1 128000) ∧
    (addUnusedLoop [poolBuffer 1 128000]
      (InitInternal 1 1 { len_ := 300000 }, false)).1.shouldFreeUnused = false ∧
    (addUnusedLoop ([poolBuffer 1 128000] ++ [poolBuffer 2 128000])
      (InitInternal 1 1 { len_ := 300000 }, false)).1.GetUnusedBuffer.1 =
      some (poolBuffer 2 128000) :=
  ⟨by decide,
    (C21_unused_buffers_reused_most_recent_first (InitInternal 1 1 { len_ := 300000 })
      (poolBuffer 1 128000) [] [] false false).1 (by decide),
    by decide,
    congrArg Prod.fst
      ((C21_unused_buffers_reused_most_recent_first chunkingRange (poolBuffer 3 128000)
        [poolBuffer 1 128000, poolBuffer 2 128000] [] false false).2.1 (by decide)),
    by decide,
    ((C21_unused_buffers_reused_most_recent_first (InitInternal 1 1 { len_ := 300000 })
      (poolBuffer 1 128000) [] [] false false).2.2.1 (by decide)).2.1,
    by decide,
    ((C21_unused_buffers_reused_most_recent_first (InitInternal 1 1 { len_ := 300000 })
      (poolBuffer 2 128000) [] [poolBuffer 1 128000] false false).2.2.2 (by decide)).1⟩

namespace ScanRange

/-- What the check of lines 394-395 gives when a client buffer is supplied: its
length is at least the `len_` that the range has when `Reset` is called. -/
theorem resetChecks_client_buffer_len (file : Option String) (len offset : Int)
    (buffer_opts : BufferOpts) (s : ScanRange)
    (h : resetChecks file len offset buffer_opts s = true)
    (hb : buffer_opts.client_buffer_.isSome = true) :
    buffer_opts.client_buffer_len_ ≥ s.len_ := by
  unfold resetChecks at h
  cases hc : buffer_opts.client_buffer_ with
  | none => simp [hc] at hb
  | some d => simp [hc] at h; exact h.2

end ScanRange

/-- C22, the code at the failing input. The range object `tenByteRange` has
`len_ = 10` from an earlier `Reset`. A second `Reset` for `len = 100` with a client
buffer of 10 bytes passes every check of lines 389-395, because line 395 compares
`client_buffer_len_` with the member `len_`, still 10, which line 403 overwrites
only afterwards. The range is then configured for 100 bytes with
`external_buffer_tag_ = CLIENT_BUFFER` and a client buffer of 10 bytes, and each
`DoRead` wraps those same 10 bytes without reaching the end of the range. In the
other direction a client buffer of 5 bytes for `len = 5` is rejected on the same
object. -/
theorem C22_reset_checks_client_buffer_against_old_len :
    tenByteRange.len_ = 10 ∧
    resetChecks (some "f") 100 0 tenByteClientBuffer tenByteRange = true ∧
    tenByteClientBuffer.client_buffer_.isSome = true ∧
    ¬ (tenByteClientBuffer.client_buffer_len_ ≥ 100) ∧
    undersizedClientRange.len_ = 100 ∧
    undersizedClientRange.external_buffer_tag_ = .CLIENT_BUFFER ∧
    undersizedClientRange.client_buffer_ = { data := 5, len := 10 } ∧
    ((InitInternal 1 1 undersizedClientRange).DoRead (fullReader 100 0)).1 = .SUCCESS_NO_EOSR ∧
    ((InitInternal 1 1 undersizedClientRange).DoRead (fullReader 100 0)).2.ready_buffers_ =
      [{ buffer_ := some 5, buffer_len_ := 10, len_ := 10, scan_range_offset_ := 0,
         eosr_ := false }] ∧
    ((InitInternal 1 1 undersizedClientRange).DoRead (fullReader 100 0)).2.log.read_requests =
      [(0, 10)] ∧
    resetChecks (some "f") 5 0 { client_buffer_ := some 5, client_buffer_len_ := 5 }
      tenByteRange = false ∧
    (∀ (fs : Option Nat) (file : Option String) (len offset disk_id : Int)
      (expected_local : Bool) (buffer_opts : BufferOpts) (meta_data : Option Nat)
      (s : ScanRange),
      (Reset fs file len offset disk_id expected_local buffer_opts meta_data
        s).external_buffer_tag_ =
        if buffer_opts.client_buffer_.isSome then .CLIENT_BUFFER else .NO_BUFFER) := by
  refine ⟨by decide, by decide, by decide, by decide, by decide, by decide, by decide,
    by decide, by decide, by decide, by decide, ?_⟩
  intro fs file len offset disk_id expected_local buffer_opts meta_data s
  unfold Reset
  cases buffer_opts.client_buffer_ <;> rfl

end Impala.Io
